import Mathlib

/-!
Verification of the Lumen surface-cache residency manager
(`LumenSceneRendering.cpp`, `LumenMeshCards.cpp`).

The central function under study is
`FLumenSceneData::ProcessLumenSurfaceCacheRequests`: the sequential,
budgeted capture-request scheduler.  Its control flow is translated here
directly from the source.  Several helpers it calls
(`FLumenSurfaceCacheAllocator`, `EvictOldestAllocation`,
`FreeVirtualSurface`, `ReallocVirtualSurface`, `MapSurfaceCachePage`,
`UpdateCardMipMapHierarchy`, `FBinaryHeap`) are only declared in the
available sources; those are modelled from the specification text and
carry a doc comment starting with `Modelled from the spec:`.

All definitions are executable (structural recursion with explicit fuel
where the C++ uses unbounded `while` loops), so concrete states can be
evaluated by `decide`.
-/

namespace LumenSurfaceCacheProof

/-- Modelled from the spec: the `Lumen` namespace constants
(`Lumen::MinResLevel`, `Lumen::NumResLevels`, ...) live in `Lumen.h`,
which is not among the available sources.  The spec speaks of a
"platform minimum res level (`Lumen::MinResLevel`)" and a fixed-size
array of mip slots; the concrete values below follow the engine
defaults.  No claim below depends on the particular numbers. -/
def MinResLevel : Nat := 3

/-- Modelled from the spec: maximum resolution level (see `MinResLevel`). -/
def MaxResLevel : Nat := 11

/-- Number of mip slots per card: `SurfaceMipMaps[Lumen::NumResLevels]`. -/
def NumResLevels : Nat := MaxResLevel - MinResLevel + 1

/-- Modelled from the spec: `Lumen::GetFeedbackBufferTileSize()` is not
among the available sources.  The hi-res pass uses
`GetFeedbackBufferTileSize() * GetFeedbackBufferTileSize()` as its
eviction max-age, which the spec describes as "a stricter eviction max
age (protecting pages that may be mid-flight in a jittered sampling
scheme)"; the engine default tile size is 4. -/
def FeedbackBufferTileSize : Nat := 4

/-- Translation of `UINT16_MAX`, the sentinel marking a locked-mip
request (`FSurfaceCacheRequest::LocalPageIndex`). -/
def UINT16_MAX : Nat := 65535

/-- Translation of `UINT8_MAX`, the sentinel for
`FLumenCard::MinAllocatedResLevel` when nothing is allocated. -/
def UINT8_MAX : Nat := 255

/-- One mip slot of a card together with the page-table state of its
span.  Translation of `FLumenSurfaceMipMap` fused with the mapped flags
of its page-table entries: the source keeps
`PageTableSpanOffset/PageTableSpanSize` into a global
`TSparseSpanArray<FLumenPageTableEntry>` and each entry answers
`IsMapped()`; here `bAllocated` stands for `PageTableSpanSize > 0` and
`mapped` lists `IsMapped()` of each local page of the span. -/
structure FLumenSurfaceMipMap where
  bAllocated : Bool := false
  bLocked : Bool := false
  mapped : List Bool := []
deriving DecidableEq

instance : Inhabited FLumenSurfaceMipMap := ⟨{}⟩

/-- Translation of `FLumenSurfaceMipMap::IsAllocated`
(`PageTableSpanSize > 0`). -/
def FLumenSurfaceMipMap.IsAllocated (m : FLumenSurfaceMipMap) : Bool :=
  m.bAllocated

/-- Translation of `FLumenCard`.  The three OBBs and the packing data
are irrelevant to the scheduler and are omitted.  `MipNumPages` and
`MipPageTexels` model the per-level geometry that the source computes
in `FLumenCard::GetMipMapDesc` (whose implementation is not among the
available sources): the number of pages of the level's span
(`SizeInPages.X * SizeInPages.Y`) and the texel area of one page of
that level (`PhysicalAtlasRect.Area()` of a page, which for a full
page equals the capture-atlas page area used in the texel budget).
Both are indexed like `SurfaceMipMaps`, by `ResLevel - MinResLevel`. -/
structure FLumenCard where
  bVisible : Bool := false
  MinAllocatedResLevel : Nat := UINT8_MAX
  MaxAllocatedResLevel : Nat := 0
  DesiredLockedResLevel : Nat := 0
  MeshCardsIndex : Nat := 0
  SurfaceMipMaps : List FLumenSurfaceMipMap := []
  MipNumPages : List Nat := []
  MipPageTexels : List Nat := []
deriving DecidableEq

instance : Inhabited FLumenCard := ⟨{}⟩

/-- Translation of `FLumenCard::GetMipMap`: the slot array is indexed
by `ResLevel - Lumen::MinResLevel`. -/
def FLumenCard.GetMipMap (c : FLumenCard) (resLevel : Nat) : FLumenSurfaceMipMap :=
  c.SurfaceMipMaps.getD (resLevel - MinResLevel) default

/-- Pages of the mip span at a level, from the modelled geometry. -/
def FLumenCard.NumPagesAt (c : FLumenCard) (resLevel : Nat) : Nat :=
  c.MipNumPages.getD (resLevel - MinResLevel) 0

/-- Texels of one page at a level, from the modelled geometry. -/
def FLumenCard.PageTexelsAt (c : FLumenCard) (resLevel : Nat) : Nat :=
  c.MipPageTexels.getD (resLevel - MinResLevel) 0

/-- Translation of `FLumenCard::IsAllocated`
(`MinAllocatedResLevel <= MaxAllocatedResLevel`). -/
def FLumenCard.IsAllocated (c : FLumenCard) : Bool :=
  c.MinAllocatedResLevel ≤ c.MaxAllocatedResLevel

/-- Replace the mip slot of a card at a resolution level. -/
def FLumenCard.SetMipMap (c : FLumenCard) (resLevel : Nat) (m : FLumenSurfaceMipMap) :
    FLumenCard :=
  { c with SurfaceMipMaps := c.SurfaceMipMaps.set (resLevel - MinResLevel) m }

/-- Translation of `FSurfaceCacheRequest`.  `Distance` is a float in
the source; it is carried as a rational here and never inspected by the
scheduler itself (only the classification pass computes with it). -/
structure FSurfaceCacheRequest where
  CardIndex : Nat := 0
  ResLevel : Nat := 0
  LocalPageIndex : Nat := UINT16_MAX
  Distance : ℚ := 0
deriving DecidableEq

/-- Translation of `FSurfaceCacheRequest::IsLockedMip`
(`LocalPageIndex == UINT16_MAX`). -/
def FSurfaceCacheRequest.IsLockedMip (r : FSurfaceCacheRequest) : Bool :=
  r.LocalPageIndex == UINT16_MAX

/-- Translation of `FVirtualPageIndex` (card, level, local page). -/
structure FVirtualPageIndex where
  CardIndex : Nat
  ResLevel : Nat
  LocalPageIndex : Nat
deriving DecidableEq

/-- One entry of an `FBinaryHeap<uint32, uint32>` of the scene data.
The source keys page-table indices by a frame stamp; here a page is
identified by its (card, level, local page) triple.  Used both for
`UnlockedAllocationHeap` (key = last-used frame) and for
`LastCapturedPageHeap` (key = last-captured frame, 0 meaning never
captured on that GPU). -/
structure FHeapEntry where
  Key : Nat
  CardIndex : Nat
  ResLevel : Nat
  LocalPageIndex : Nat
deriving DecidableEq

/-- The page a heap entry refers to. -/
def FHeapEntry.Page (e : FHeapEntry) : FVirtualPageIndex :=
  ⟨e.CardIndex, e.ResLevel, e.LocalPageIndex⟩

/-- Translation of the part of `FLumenMeshCards` the scheduler reads. -/
structure FLumenMeshCards where
  PrimitiveGroupIndex : Nat := 0
deriving DecidableEq

/-- Translation of the part of `FLumenPrimitiveGroup` the scheduler
reads: `bReadyToRender` abstracts the result of `UpdateStaticMeshes`
on the group (whether all mesh rendering data is prepared; the mesh
streaming machinery itself is out of scope of this subsystem). -/
structure FLumenPrimitiveGroup where
  bReadyToRender : Bool := true
deriving DecidableEq

/-- Translation of the slice of `FLumenSceneData` that
`ProcessLumenSurfaceCacheRequests` reads and writes.
`FreePhysicalPages` models the physical-space accounting of
`FLumenSurfaceCacheAllocator` (whose implementation is not among the
available sources); the two heaps model the single-GPU view of
`UnlockedAllocationHeap` and `LastCapturedPageHeap[GPU]`. -/
structure FLumenSceneData where
  Cards : List FLumenCard := []
  MeshCards : List FLumenMeshCards := []
  PrimitiveGroups : List FLumenPrimitiveGroup := []
  FreePhysicalPages : Nat := 0
  UnlockedAllocationHeap : List FHeapEntry := []
  LastCapturedPageHeap : List FHeapEntry := []
  SurfaceCacheUpdateFrameIndex : Nat := 1
deriving DecidableEq

/-- Total accessor for `Cards[i]` (the source indexes a sparse array
whose slot validity is a precondition). -/
def FLumenSceneData.GetCard (s : FLumenSceneData) (i : Nat) : FLumenCard :=
  s.Cards.getD i default

/-- Replace card `i`. -/
def FLumenSceneData.SetCard (s : FLumenSceneData) (i : Nat) (c : FLumenCard) :
    FLumenSceneData :=
  { s with Cards := s.Cards.set i c }

/-- Translation of one output element of `CardPagesToRender`
(`FCardPageRenderData`), restricted to the fields relevant here: which
page is captured, its texel area (`PhysicalAtlasRect.Area()` as
accumulated into `NumCardTexelsToCapture`), and the resample flag. -/
structure FCardPageRenderData where
  CardIndex : Nat
  ResLevel : Nat
  LocalPageIndex : Nat
  NumTexels : Nat
  bResampleLastLighting : Bool
deriving DecidableEq

/-- The page a render job captures. -/
def FCardPageRenderData.Page (j : FCardPageRenderData) : FVirtualPageIndex :=
  ⟨j.CardIndex, j.ResLevel, j.LocalPageIndex⟩

/-- Modelled from the spec: `FLumenSurfaceCacheAllocator::IsSpaceAvailable`
(implementation not among the available sources).  The spec describes a
dry-run query "used by the scheduler before committing to an eviction
cascade"; the bin structure of the allocator is abstracted into a free
physical-page count, so an allocation of `n` pages is possible iff `n`
pages are free.  `bSinglePage` requests a single page of the level
instead of the whole mip, matching the call sites. -/
def FLumenSceneData.IsPhysicalSpaceAvailable (s : FLumenSceneData)
    (cardIndex resLevel : Nat) (bSinglePage : Bool) : Bool :=
  (if bSinglePage then 1 else (s.GetCard cardIndex).NumPagesAt resLevel) ≤
    s.FreePhysicalPages

/-- Unmap one virtual page: clear its mapped flag, return its physical
page to the allocator, and drop every heap entry referring to it.
Modelled from the spec: `UnmapSurfaceCachePage` and
`FLumenSurfaceCacheAllocator::Free` are not among the available
sources; the spec requires free/unmap to be "idempotent-safe against
being called twice on an already-freed entry (guarded by the entry's
mapped flag)", hence the guard on the physical-page refund. -/
def FLumenSceneData.UnmapPage (s : FLumenSceneData)
    (cardIndex resLevel localPageIndex : Nat) : FLumenSceneData :=
  let c := s.GetCard cardIndex
  let m := c.GetMipMap resLevel
  let wasMapped := m.mapped.getD localPageIndex false
  let s2 := s.SetCard cardIndex
    (c.SetMipMap resLevel { m with mapped := m.mapped.set localPageIndex false })
  { s2 with
    FreePhysicalPages := if wasMapped then s2.FreePhysicalPages + 1 else s2.FreePhysicalPages
    UnlockedAllocationHeap := s2.UnlockedAllocationHeap.filter
      (fun e => e.Page ≠ ⟨cardIndex, resLevel, localPageIndex⟩)
    LastCapturedPageHeap := s2.LastCapturedPageHeap.filter
      (fun e => e.Page ≠ ⟨cardIndex, resLevel, localPageIndex⟩) }

/-- Minimum-key entry of a heap, earliest entry winning ties.  Models
`FBinaryHeap::Top` (the heap implementation is not among the available
sources). -/
def FindMinEntry : List FHeapEntry → Option FHeapEntry
  | [] => none
  | e :: rest =>
    match FindMinEntry rest with
    | none => some e
    | some m => if m.Key < e.Key then some m else some e

/-- Set the key of every heap entry of one page.  Models
`FBinaryHeap::Update(key, pageIndex)`. -/
def HeapUpdate (key : Nat) (page : FVirtualPageIndex) (h : List FHeapEntry) :
    List FHeapEntry :=
  h.map (fun e => if e.Page = page then { e with Key := key } else e)

/-- Modelled from the spec: `FLumenSceneData::EvictOldestAllocation`
(implementation not among the available sources).  Per spec 4.4:
"peeks the globally oldest page; if the number of frames since last use
exceeds `max_age`, unmaps it (returning physical space to the
Allocator) and records its owning card as dirty ...; returns false if
the oldest page is still within `max_age` (nothing evictable) or the
structure is empty."  On success the evicted page is popped from the
unlocked heap (via `UnmapPage`) and the owning card index is returned
as the dirty record. -/
def FLumenSceneData.EvictOldestAllocation (s : FLumenSceneData) (maxFramesSinceLastUsed : Nat) :
    Option (FLumenSceneData × Nat) :=
  match FindMinEntry s.UnlockedAllocationHeap with
  | none => none
  | some e =>
    if maxFramesSinceLastUsed < s.SurfaceCacheUpdateFrameIndex - e.Key then
      some (s.UnmapPage e.CardIndex e.ResLevel e.LocalPageIndex, e.CardIndex)
    else
      none

/-- Index of the first (coarsest) allocated mip slot, if any.  Helper
for `UpdateMinMaxAllocatedLevel`. -/
def MinAllocatedIdx : List FLumenSurfaceMipMap → Option Nat
  | [] => none
  | m :: rest => if m.bAllocated then some 0 else (MinAllocatedIdx rest).map (· + 1)

/-- Index of the last (finest) allocated mip slot, if any.  Helper for
`UpdateMinMaxAllocatedLevel`. -/
def MaxAllocatedIdx : List FLumenSurfaceMipMap → Option Nat
  | [] => none
  | m :: rest =>
    match MaxAllocatedIdx rest with
    | some i => some (i + 1)
    | none => if m.bAllocated then some 0 else none

/-- Least allocated level of a card, or `UINT8_MAX` when none.  Helper
for `UpdateMinMaxAllocatedLevel`. -/
def MinAllocatedLevelOf (mips : List FLumenSurfaceMipMap) : Nat :=
  match MinAllocatedIdx mips with
  | some i => MinResLevel + i
  | none => UINT8_MAX

/-- Greatest allocated level of a card, or `0` when none.  Helper for
`UpdateMinMaxAllocatedLevel`. -/
def MaxAllocatedLevelOf (mips : List FLumenSurfaceMipMap) : Nat :=
  match MaxAllocatedIdx mips with
  | some i => MinResLevel + i
  | none => 0

/-- Modelled from the spec: `FLumenCard::UpdateMinMaxAllocatedLevel`
(implementation not among the available sources).  Per the data model,
`min_allocated_level` / `max_allocated_level` are "the currently
resident range, invalid/empty if never allocated", maintained as "the
coarsest mapped level" and "the finest". -/
def FLumenCard.UpdateMinMaxAllocatedLevel (c : FLumenCard) : FLumenCard :=
  { c with
    MinAllocatedResLevel := MinAllocatedLevelOf c.SurfaceMipMaps
    MaxAllocatedResLevel := MaxAllocatedLevelOf c.SurfaceMipMaps }

/-- Unmap every page of one mip level and deallocate its span.  Helper
for `FreeVirtualSurface`. -/
def FLumenSceneData.FreeMipLevel (s : FLumenSceneData) (cardIndex resLevel : Nat) :
    FLumenSceneData :=
  let numPages := ((s.GetCard cardIndex).GetMipMap resLevel).mapped.length
  let s2 := (List.range numPages).foldl
    (fun acc p => acc.UnmapPage cardIndex resLevel p) s
  let c := s2.GetCard cardIndex
  s2.SetCard cardIndex (c.SetMipMap resLevel {})

/-- Modelled from the spec: `FLumenSceneData::FreeVirtualSurface`
(implementation not among the available sources).  Frees every mip
slot of the card in the level range `[fromResLevel, toResLevel]`
(levels outside the card's slot range are ignored), then refreshes the
card's min/max allocated levels. -/
def FLumenSceneData.FreeVirtualSurface (s : FLumenSceneData)
    (cardIndex fromResLevel toResLevel : Nat) : FLumenSceneData :=
  let s2 := (List.range NumResLevels).foldl
    (fun acc i =>
      let lvl := MinResLevel + i
      if fromResLevel ≤ lvl ∧ lvl ≤ toResLevel then acc.FreeMipLevel cardIndex lvl
      else acc)
    s
  let c := s2.GetCard cardIndex
  s2.SetCard cardIndex c.UpdateMinMaxAllocatedLevel

/-- Modelled from the spec: `FLumenSceneData::ReallocVirtualSurface`
(implementation not among the available sources).  Ensures the card
has a page-table span at `resLevel` (freshly allocated spans start
fully unmapped) and applies the lock flag; `lock=true` "marks this as
the always-resident floor (never auto-evicted by LRU)", so locking an
existing span removes its pages from the unlocked-allocation heap.
Finishes by refreshing the card's min/max allocated levels. -/
def FLumenSceneData.ReallocVirtualSurface (s : FLumenSceneData)
    (cardIndex resLevel : Nat) (bLockPages : Bool) : FLumenSceneData :=
  let c := s.GetCard cardIndex
  let m := c.GetMipMap resLevel
  let s2 :=
    if m.bAllocated then
      let s3 := s.SetCard cardIndex (c.SetMipMap resLevel { m with bLocked := bLockPages })
      let filtered := s3.UnlockedAllocationHeap.filter
        (fun e => ¬ (e.CardIndex = cardIndex ∧ e.ResLevel = resLevel))
      if bLockPages then { s3 with UnlockedAllocationHeap := filtered }
      else s3
    else
      s.SetCard cardIndex (c.SetMipMap resLevel
        { bAllocated := true
          bLocked := bLockPages
          mapped := List.replicate (c.NumPagesAt resLevel) false })
  let c2 := s2.GetCard cardIndex
  s2.SetCard cardIndex c2.UpdateMinMaxAllocatedLevel

/-- Modelled from the spec: `FLumenSceneData::MapSurfaceCachePage`
(implementation not among the available sources).  Assigns a physical
page to one virtual page of a slot and marks it resident; a page of an
unlocked slot becomes auto-evictable (entered into the unlocked
last-used heap at the current frame), and the page enters the
last-captured heap with captured frame 0 ("surface contains default
data", never captured).  A no-op when the page is already mapped
(call sites guard on `!PageTableEntry.IsMapped()`). -/
def FLumenSceneData.MapSurfaceCachePage (s : FLumenSceneData)
    (cardIndex resLevel localPageIndex : Nat) : FLumenSceneData :=
  let c := s.GetCard cardIndex
  let m := c.GetMipMap resLevel
  if m.mapped.getD localPageIndex false then s
  else
    let s2 := s.SetCard cardIndex
      (c.SetMipMap resLevel { m with mapped := m.mapped.set localPageIndex true })
    { s2 with
      FreePhysicalPages := s2.FreePhysicalPages - 1
      UnlockedAllocationHeap :=
        if m.bLocked then s2.UnlockedAllocationHeap
        else s2.UnlockedAllocationHeap ++
          [⟨s.SurfaceCacheUpdateFrameIndex, cardIndex, resLevel, localPageIndex⟩]
      LastCapturedPageHeap := s2.LastCapturedPageHeap ++
        [⟨0, cardIndex, resLevel, localPageIndex⟩] }

/-- Modelled from the spec: `FLumenSceneData::UpdateCardMipMapHierarchy`
(implementation not among the available sources).  Per spec 4.3: "a
housekeeping pass ... drops allocated-but-now-stale mip entries" (slots
whose pages have all been unmapped) and maintains the min/max
allocated-level invariant.  The re-pointing of sampling data at the
nearest coarser mapped slot concerns only GPU-side sampling records and
is not modelled. -/
def FLumenSceneData.UpdateCardMipMapHierarchy (s : FLumenSceneData) (cardIndex : Nat) :
    FLumenSceneData :=
  let c := s.GetCard cardIndex
  let droppedMips := c.SurfaceMipMaps.map
    (fun m => if m.bAllocated ∧ ¬ (true ∈ m.mapped) then {} else m)
  let c2 := { c with SurfaceMipMaps := droppedMips }
  s.SetCard cardIndex c2.UpdateMinMaxAllocatedLevel

/-- Modelled from the spec: availability query of the transient
capture-atlas sub-allocator (`CaptureAtlasAllocator.IsSpaceAvailable`);
spec 4.6 describes it as "structurally identical to 4.2 but scoped to
one frame and one smaller atlas", abstracted to a free-texel budget. -/
def CaptureAtlasIsSpaceAvailable (freeTexels : Nat) (c : FLumenCard)
    (resLevel : Nat) (bSinglePage : Bool) : Bool :=
  (if bSinglePage then c.PageTexelsAt resLevel
   else c.NumPagesAt resLevel * c.PageTexelsAt resLevel) ≤ freeTexels

/-- Translation of `TSparseUniqueList::Add` (append if not present),
used for the `DirtyCards` list. -/
def AddUnique (n : Nat) (l : List Nat) : List Nat :=
  if n ∈ l then l else l ++ [n]

/-- Working state of one scheduling pass: the scene, the remaining
free texels of the transient capture atlas, and the outputs
(`CardPagesToRender`, `HiResPagesToMap`, `DirtyCards`,
`LumenCardRenderer.NumCardTexelsToCapture`). -/
structure CapturePassState where
  Scene : FLumenSceneData
  CaptureAtlasFreeTexels : Nat
  CardPagesToRender : List FCardPageRenderData
  HiResPagesToMap : List FVirtualPageIndex
  DirtyCards : List Nat
  NumCardTexelsToCapture : Nat
deriving DecidableEq

/-- Translation of the capture body shared by the three capture sites
of `ProcessLumenSurfaceCacheRequests`: if the page is not yet mapped,
map it (`MapSurfaceCachePage`), allocate its transient capture-atlas
region (`CaptureAtlasAllocator.Allocate` followed by `check(...)` on
success, modelled as a guarded allocation since every call site first
verifies `IsSpaceAvailable`), append the render job, stamp the
last-captured heap with the current frame, and account the captured
texels. -/
def CapturePage (bResampleLastLighting : Bool)
    (cardIndex resLevel localPageIndex : Nat) (ps : CapturePassState) :
    CapturePassState :=
  let c := ps.Scene.GetCard cardIndex
  let m := c.GetMipMap resLevel
  if m.mapped.getD localPageIndex false then ps
  else
    let texels := c.PageTexelsAt resLevel
    if texels ≤ ps.CaptureAtlasFreeTexels then
      let s2 := ps.Scene.MapSurfaceCachePage cardIndex resLevel localPageIndex
      let newHeap := HeapUpdate s2.SurfaceCacheUpdateFrameIndex
        ⟨cardIndex, resLevel, localPageIndex⟩ s2.LastCapturedPageHeap
      { Scene := { s2 with LastCapturedPageHeap := newHeap }
        CaptureAtlasFreeTexels := ps.CaptureAtlasFreeTexels - texels
        CardPagesToRender := ps.CardPagesToRender ++
          [⟨cardIndex, resLevel, localPageIndex, texels, bResampleLastLighting⟩]
        HiResPagesToMap := ps.HiResPagesToMap
        DirtyCards := ps.DirtyCards
        NumCardTexelsToCapture := ps.NumCardTexelsToCapture + texels }
    else ps

/-- Translation of `const int32 MaxFramesSinceLastUsed = 2` in the
locked low-res allocation loop. -/
def LockedMaxFramesSinceLastUsed : Nat := 2

/-- Translation of
`Lumen::GetFeedbackBufferTileSize() * Lumen::GetFeedbackBufferTileSize()`,
the eviction max-age of the hi-res page pass. -/
def HiResMaxFramesSinceLastUsed : Nat :=
  FeedbackBufferTileSize * FeedbackBufferTileSize

/-- Translation of the eviction loop
`while (!IsPhysicalSpaceAvailable(...)) { if (!EvictOldestAllocation(MaxAge, DirtyCards)) { bCanAlloc = false; break; } }`.
The C++ loop terminates because each successful eviction pops the
unlocked heap; the fuel makes that measure explicit (callers pass
`heap length + 1`, which is always sufficient). -/
def EvictLoop (maxAge cardIndex resLevel : Nat) (bSinglePage : Bool) :
    Nat → FLumenSceneData → List Nat → Bool × FLumenSceneData × List Nat
  | 0, s, dirty => (false, s, dirty)
  | fuel + 1, s, dirty =>
    if s.IsPhysicalSpaceAvailable cardIndex resLevel bSinglePage then (true, s, dirty)
    else
      match s.EvictOldestAllocation maxAge with
      | some (s2, d) => EvictLoop maxAge cardIndex resLevel bSinglePage fuel s2 (AddUnique d dirty)
      | none => (false, s, dirty)

/-- The eviction loop at its sufficient fuel. -/
def RunEvictLoop (maxAge cardIndex resLevel : Nat) (bSinglePage : Bool)
    (s : FLumenSceneData) (dirty : List Nat) : Bool × FLumenSceneData × List Nat :=
  EvictLoop maxAge cardIndex resLevel bSinglePage (s.UnlockedAllocationHeap.length + 1) s dirty

/-- Translation of the resolution-downgrade loop
`while (!bCanAlloc && NewLockedAllocationResLevel > Lumen::MinResLevel) { --NewLockedAllocationResLevel; bCanAlloc = IsPhysicalSpaceAvailable(...); }`.
Callers pass `fuel = resLevel`, which bounds the number of decrements. -/
def DecreaseResLevelLoop (s : FLumenSceneData) (cardIndex : Nat) :
    Nat → Nat → Bool × Nat
  | 0, lvl => (false, lvl)
  | fuel + 1, lvl =>
    if MinResLevel < lvl then
      if s.IsPhysicalSpaceAvailable cardIndex (lvl - 1) false then (true, lvl - 1)
      else DecreaseResLevelLoop s cardIndex fuel (lvl - 1)
    else (false, lvl)

/-- The card update opening the locked commit:
`Card.bVisible = true; Card.DesiredLockedResLevel = Request.ResLevel`
(`uint8 = uint16` truncation kept as `% 256`). -/
def LockedCommitCard (r : FSurfaceCacheRequest) (s1 : FLumenSceneData) : FLumenCard :=
  { s1.GetCard r.CardIndex with bVisible := true, DesiredLockedResLevel := r.ResLevel % 256 }

/-- The scene part of the locked commit: apply `LockedCommitCard`,
free the previous min-allocated slot
(`FreeVirtualSurface(Card, Card.MinAllocatedResLevel, Card.MinAllocatedResLevel)`)
and everything coarser than the new level
(`FreeVirtualSurface(Card, Card.MinAllocatedResLevel, NewLockedAllocationResLevel - 1)`),
then reallocate locked at the new level (see `LockedCommit`). -/
def LockedCommitScene (r : FSurfaceCacheRequest) (newLockedAllocationResLevel : Nat)
    (s1 : FLumenSceneData) : FLumenSceneData :=
  let c2 := LockedCommitCard r s1
  let s2 := s1.SetCard r.CardIndex c2
  let s3 := s2.FreeVirtualSurface r.CardIndex c2.MinAllocatedResLevel c2.MinAllocatedResLevel
  let min3 := (s3.GetCard r.CardIndex).MinAllocatedResLevel
  let s4 := s3.FreeVirtualSurface r.CardIndex min3 (newLockedAllocationResLevel - 1)
  s4.ReallocVirtualSurface r.CardIndex newLockedAllocationResLevel true

/-- Translation of the commit tail of the locked low-res branch (the
body of `if (bCanAlloc && UpdateStaticMeshes(...))`): apply
`LockedCommitScene`, then map-and-capture every unmapped page of the
new min-allocated mip and record the card dirty.  The heightfield
`PrimitiveModifiedBounds` append is omitted (no claim concerns it).
`s1` and `dirty1` are the scene and dirty list after the eviction
cascade. -/
def LockedCommit (r : FSurfaceCacheRequest) (newLockedAllocationResLevel : Nat)
    (s1 : FLumenSceneData) (dirty1 : List Nat) (ps : CapturePassState) :
    CapturePassState :=
  let bResampleLastLighting := (LockedCommitCard r s1).IsAllocated
  let s5 := LockedCommitScene r newLockedAllocationResLevel s1
  let minAlloc := (s5.GetCard r.CardIndex).MinAllocatedResLevel
  let numPages := ((s5.GetCard r.CardIndex).GetMipMap minAlloc).mapped.length
  let ps5 := { ps with Scene := s5, DirtyCards := dirty1 }
  let ps6 := (List.range numPages).foldl
    (fun acc p => CapturePage bResampleLastLighting r.CardIndex minAlloc p acc) ps5
  { ps6 with DirtyCards := AddUnique r.CardIndex ps6.DirtyCards }

/-- Translation of the locked low-res branch of the request loop of
`ProcessLumenSurfaceCacheRequests` (the `Request.IsLockedMip()` arm):
skip when `Card.DesiredLockedResLevel == Request.ResLevel`; otherwise
evict until the requested level fits, then step the level down while it
does not, veto on missing transient capture-atlas space or unprepared
meshes (`bReadyToRender` of the owning primitive group stands for
`UpdateStaticMeshes`), and on success run `LockedCommit`. -/
def ProcessLockedRequest (r : FSurfaceCacheRequest) (ps : CapturePassState) :
    CapturePassState :=
  let card := ps.Scene.GetCard r.CardIndex
  if card.DesiredLockedResLevel ≠ r.ResLevel then
    let reqLevel := r.ResLevel % 256
    let evictRes := RunEvictLoop LockedMaxFramesSinceLastUsed r.CardIndex reqLevel false
      ps.Scene ps.DirtyCards
    let s1 := evictRes.2.1
    let dirty1 := evictRes.2.2
    let downRes :=
      if evictRes.1 then (true, reqLevel)
      else DecreaseResLevelLoop s1 r.CardIndex reqLevel reqLevel
    let newLockedAllocationResLevel := downRes.2
    let bCanAlloc := downRes.1 &&
      CaptureAtlasIsSpaceAvailable ps.CaptureAtlasFreeTexels (s1.GetCard r.CardIndex)
        newLockedAllocationResLevel false
    let meshCardsElement := s1.MeshCards.getD (s1.GetCard r.CardIndex).MeshCardsIndex {}
    let groupReady :=
      (s1.PrimitiveGroups.getD meshCardsElement.PrimitiveGroupIndex {}).bReadyToRender
    if bCanAlloc && groupReady then
      LockedCommit r newLockedAllocationResLevel s1 dirty1 ps
    else
      { ps with Scene := s1, DirtyCards := dirty1 }
  else ps

/-- Translation of one iteration of the request loop: locked requests
are processed in place, hi-res requests are admitted to
`HiResPagesToMap` when the card slot is valid
(`Cards.IsAllocated(Request.CardIndex)`), the card is visible and the
requested level is strictly finer than the card's min allocated level
(the source also tests `Card.MinAllocatedResLevel >= 0`, which is
trivially true of the unsigned field and is dropped here). -/
def ProcessOneRequest (r : FSurfaceCacheRequest) (ps : CapturePassState) :
    CapturePassState :=
  if r.IsLockedMip then ProcessLockedRequest r ps
  else
    if r.CardIndex < ps.Scene.Cards.length then
      let card := ps.Scene.GetCard r.CardIndex
      if card.bVisible ∧ card.MinAllocatedResLevel < r.ResLevel then
        { ps with HiResPagesToMap := ps.HiResPagesToMap ++
            [⟨r.CardIndex, r.ResLevel, r.LocalPageIndex⟩] }
      else ps
    else ps

/-- Translation of the request loop of
`ProcessLumenSurfaceCacheRequests`, including the budget break
`if (CardPagesToRender.Num() + HiResPagesToMap.Num() >= MaxTileCapturesPerFrame) break;`
evaluated after each request. -/
def ProcessRequests (maxTileCapturesPerFrame : Nat) :
    List FSurfaceCacheRequest → CapturePassState → CapturePassState
  | [], ps => ps
  | r :: rest, ps =>
    let ps2 := ProcessOneRequest r ps
    if maxTileCapturesPerFrame ≤ ps2.CardPagesToRender.length + ps2.HiResPagesToMap.length then
      ps2
    else ProcessRequests maxTileCapturesPerFrame rest ps2

/-- Translation of the commit tail of the hi-res mapping loop body
(the body of `if (bCanAlloc && UpdateStaticMeshes(...))`): reallocate
unlocked at the level and map-and-capture the single requested page;
the card is recorded dirty only when a page was actually captured
(`DirtyCards.Add` sits inside the `if (!PageTableEntry.IsMapped())`
block). -/
def HiResCommit (v : FVirtualPageIndex) (s1 : FLumenSceneData) (dirty1 : List Nat)
    (ps : CapturePassState) : CapturePassState :=
  let bResampleLastLighting := (s1.GetCard v.CardIndex).IsAllocated
  let s2 := s1.ReallocVirtualSurface v.CardIndex v.ResLevel false
  let ps2 := CapturePage bResampleLastLighting v.CardIndex v.ResLevel v.LocalPageIndex
    { ps with Scene := s2, DirtyCards := dirty1 }
  if ps2.CardPagesToRender.length = ps.CardPagesToRender.length then ps2
  else { ps2 with DirtyCards := AddUnique v.CardIndex ps2.DirtyCards }

/-- Translation of the hi-res mapping loop body
(`for (const FVirtualPageIndex& VirtualPageIndex : HiResPagesToMap)`):
re-check the level against the (possibly changed) min allocated level,
evict with the stricter hi-res max-age for a single page, veto on
missing capture-atlas space or unprepared meshes, and on success run
`HiResCommit`. -/
def ProcessHiResPage (v : FVirtualPageIndex) (ps : CapturePassState) :
    CapturePassState :=
  let card := ps.Scene.GetCard v.CardIndex
  if card.MinAllocatedResLevel < v.ResLevel then
    let evictRes := RunEvictLoop HiResMaxFramesSinceLastUsed v.CardIndex v.ResLevel true
      ps.Scene ps.DirtyCards
    let s1 := evictRes.2.1
    let dirty1 := evictRes.2.2
    let bCanAlloc := evictRes.1 &&
      CaptureAtlasIsSpaceAvailable ps.CaptureAtlasFreeTexels (s1.GetCard v.CardIndex)
        v.ResLevel true
    let meshCardsElement := s1.MeshCards.getD (s1.GetCard v.CardIndex).MeshCardsIndex {}
    let groupReady :=
      (s1.PrimitiveGroups.getD meshCardsElement.PrimitiveGroupIndex {}).bReadyToRender
    if bCanAlloc && groupReady then
      HiResCommit v s1 dirty1 ps
    else
      { ps with Scene := s1, DirtyCards := dirty1 }
  else ps

/-- Translation of `2^32`, the modulus of the `uint32` frame index. -/
def UINT32_MOD : Nat := 2 ^ 32

/-- Translation of the capture step of the refresh loop: allocate the
transient region, append the render job (with
`bResampleLastLighting = true`), stamp the page's last-captured frame
to the current frame on every GPU of the mask, and account the
captured texels. -/
def RefreshCapture (e : FHeapEntry) (ps : CapturePassState) : CapturePassState :=
  let card := ps.Scene.GetCard e.CardIndex
  let texels := card.PageTexelsAt e.ResLevel
  let newHeap := HeapUpdate ps.Scene.SurfaceCacheUpdateFrameIndex e.Page
    ps.Scene.LastCapturedPageHeap
  { ps with
    Scene := { ps.Scene with LastCapturedPageHeap := newHeap }
    CaptureAtlasFreeTexels := ps.CaptureAtlasFreeTexels - texels
    CardPagesToRender := ps.CardPagesToRender ++
      [⟨e.CardIndex, e.ResLevel, e.LocalPageIndex, texels, true⟩]
    NumCardTexelsToCapture := ps.NumCardTexelsToCapture + texels }

/-- Translation of the refresh loop (`SceneCardCaptureRefresh`): while
the last-captured heap is non-empty, look at its oldest page; the
`uint32` test `FramesSinceLastUpdated > 0` is the inequality
`frame != key (mod 2^32)`; decrement the texel and page sub-budgets by
the page's cost and capture only while both remain non-negative and
the transient capture atlas has room, stopping at the first failure
(`bCanCapture` stays false).  The multi-GPU exemption for
never-captured pages (`#if WITH_MGPU`) is outside the single-GPU model
(with one GPU the source takes the budget-decrement path
unconditionally).  The C++ loop terminates because each capture stamps
the oldest page to the current frame; the fuel makes that measure
explicit (`RefreshFuel` below is always sufficient). -/
def RefreshLoop :
    Nat → Int → Int → CapturePassState → CapturePassState
  | 0, _, _, ps => ps
  | fuel + 1, texelsLeft, pagesLeft, ps =>
    match FindMinEntry ps.Scene.LastCapturedPageHeap with
    | none => ps
    | some e =>
      if ps.Scene.SurfaceCacheUpdateFrameIndex % UINT32_MOD ≠ e.Key % UINT32_MOD then
        let card := ps.Scene.GetCard e.CardIndex
        let texels := card.PageTexelsAt e.ResLevel
        let texelsLeft2 := texelsLeft - texels
        let pagesLeft2 := pagesLeft - 1
        if 0 ≤ texelsLeft2 ∧ 0 ≤ pagesLeft2 then
          if CaptureAtlasIsSpaceAvailable ps.CaptureAtlasFreeTexels card e.ResLevel true then
            RefreshLoop fuel texelsLeft2 pagesLeft2 (RefreshCapture e ps)
          else ps
        else ps
      else ps

/-- Sufficient fuel for `RefreshLoop`: the number of heap entries not
yet stamped with the current frame, plus one. -/
def RefreshFuel (s : FLumenSceneData) : Nat :=
  (s.LastCapturedPageHeap.filter
    (fun e => s.SurfaceCacheUpdateFrameIndex % UINT32_MOD ≠ e.Key % UINT32_MOD)).length + 1

/-- Translation of the trailing eviction sweep
`while (EvictOldestAllocation(MaxFramesSinceLastUsed, DirtyCards)) {}`.
Fuel as in `EvictLoop`. -/
def FinalEvictLoop (maxAge : Nat) :
    Nat → FLumenSceneData → List Nat → FLumenSceneData × List Nat
  | 0, s, dirty => (s, dirty)
  | fuel + 1, s, dirty =>
    match s.EvictOldestAllocation maxAge with
    | some (s2, d) => FinalEvictLoop maxAge fuel s2 (AddUnique d dirty)
    | none => (s, dirty)

/-- The console-variable derived inputs of one scheduling pass:
`MaxTileCapturesPerFrame` (from `GetMaxTileCapturesPerFrame`), the
refresh sub-budgets (`GetCardCaptureRefreshNumTexels/NumPages`), the
transient capture-atlas capacity in texels (from
`GetCardCaptureAtlasSizeInPages`), `Lumen::IsSurfaceCacheFrozen()`
and `GSurfaceCacheNumFramesToKeepUnusedPages`. -/
structure FProcessRequestsParams where
  MaxTileCapturesPerFrame : Nat
  CardCaptureRefreshNumTexels : Nat
  CardCaptureRefreshNumPages : Nat
  CaptureAtlasTexels : Nat
  SurfaceCacheFrozen : Bool
  NumFramesToKeepUnusedPages : Nat
deriving DecidableEq

/-- The empty pass state over a scene, with the transient capture
atlas initialized to its configured capacity
(`CaptureAtlasAllocator.Init(GetCardCaptureAtlasSizeInPages())`). -/
def InitialPassState (p : FProcessRequestsParams) (s : FLumenSceneData) :
    CapturePassState :=
  { Scene := s
    CaptureAtlasFreeTexels := p.CaptureAtlasTexels
    CardPagesToRender := []
    HiResPagesToMap := []
    DirtyCards := []
    NumCardTexelsToCapture := 0 }

/-- Translation of
`for (const FVirtualPageIndex& VirtualPageIndex : HiResPagesToMap)`:
map the admitted hi-res pages in admission order. -/
def RunHiResPhase (ps1 : CapturePassState) : CapturePassState :=
  ps1.HiResPagesToMap.foldl (fun acc v => ProcessHiResPage v acc) ps1

/-- Translation of the refresh phase (`SceneCardCaptureRefresh`):
`NumTexelsLeftToRefresh = GetCardCaptureRefreshNumTexels()` and
`NumPagesLeftToRefesh = min((int32)GetCardCaptureRefreshNumPages(), MaxTileCapturesPerFrame - CardPagesToRender.Num())`,
then the refresh loop. -/
def RunRefreshPhase (p : FProcessRequestsParams) (ps2 : CapturePassState) :
    CapturePassState :=
  let texelsLeft : Int := (p.CardCaptureRefreshNumTexels : Int)
  let pagesLeft : Int := min (p.CardCaptureRefreshNumPages : Int)
    ((p.MaxTileCapturesPerFrame : Int) - (ps2.CardPagesToRender.length : Int))
  RefreshLoop (RefreshFuel ps2.Scene) texelsLeft pagesLeft ps2

/-- Translation of the trailing
`if (!Lumen::IsSurfaceCacheFrozen()) { while (EvictOldestAllocation(...)) {} }`
sweep of pages unused for `GSurfaceCacheNumFramesToKeepUnusedPages`. -/
def RunFinalEvictPhase (p : FProcessRequestsParams) (ps3 : CapturePassState) :
    CapturePassState :=
  if ¬ p.SurfaceCacheFrozen then
    let res := FinalEvictLoop p.NumFramesToKeepUnusedPages
      (ps3.Scene.UnlockedAllocationHeap.length + 1) ps3.Scene ps3.DirtyCards
    { ps3 with Scene := res.1, DirtyCards := res.2 }
  else ps3

/-- Translation of
`for (int32 CardIndex : DirtyCards.Array) { UpdateCardMipMapHierarchy(Card); ... }`
(the `CardIndicesToUpdateInBuffer` upload bookkeeping is omitted). -/
def RunHierarchyUpdatePhase (ps4 : CapturePassState) : CapturePassState :=
  let finalScene := ps4.DirtyCards.foldl
    (fun sc c => sc.UpdateCardMipMapHierarchy c) ps4.Scene
  { ps4 with Scene := finalScene }

/-- Translation of `FLumenSceneData::ProcessLumenSurfaceCacheRequests`:
initialize the transient capture-atlas allocator, run the budgeted
request loop (locked allocations and hi-res admissions), map the
admitted hi-res pages, run the refresh loop, sweep old unused pages
unless the surface cache is frozen, and update the mip hierarchy of
every dirty card. -/
def ProcessLumenSurfaceCacheRequestsModel (p : FProcessRequestsParams)
    (s : FLumenSceneData) (surfaceCacheRequests : List FSurfaceCacheRequest) :
    CapturePassState :=
  RunHierarchyUpdatePhase
    (RunFinalEvictPhase p
      (RunRefreshPhase p
        (RunHiResPhase
          (ProcessRequests p.MaxTileCapturesPerFrame surfaceCacheRequests
            (InitialPassState p s)))))

/-- Translation of `FLumenSceneData::GetSurfaceCacheUpdateFrameIndex`. -/
def FLumenSceneData.GetSurfaceCacheUpdateFrameIndex (s : FLumenSceneData) : Nat :=
  s.SurfaceCacheUpdateFrameIndex

/-- Translation of
`FLumenSceneData::IncrementSurfaceCacheUpdateFrameIndex`: unless the
update frame is frozen, increment the `uint32` counter and skip over
zero when it wraps around. -/
def IncrementSurfaceCacheUpdateFrameIndex (bUpdateFrameFrozen : Bool) (idx : Nat) : Nat :=
  if bUpdateFrameFrozen then idx
  else
    let idx2 := (idx + 1) % UINT32_MOD
    if idx2 = 0 then (idx2 + 1) % UINT32_MOD else idx2

/-- Translation of the member initializer
`uint32 SurfaceCacheUpdateFrameIndex = 1` ("0 is a special value, and
means that surface contains default data"). -/
def InitialSurfaceCacheUpdateFrameIndex : Nat := 1

/-- The frame indices reachable from the initializer by any sequence
of `IncrementSurfaceCacheUpdateFrameIndex` calls. -/
inductive ReachableFrameIndex : Nat → Prop
  | init : ReachableFrameIndex InitialSurfaceCacheUpdateFrameIndex
  | step (b : Bool) {n : Nat} (h : ReachableFrameIndex n) :
      ReachableFrameIndex (IncrementSurfaceCacheUpdateFrameIndex b n)

/-! ### Basic list lemmas -/

theorem getD_set_self {α : Type _} (l : List α) (i : Nat) (a d : α) (h : i < l.length) :
    (l.set i a).getD i d = a := by
  induction l generalizing i with
  | nil => simp at h
  | cons x xs ih =>
    cases i with
    | zero => simp [List.getD]
    | succ n =>
      simp only [List.set, List.getD_cons_succ]
      exact ih n (by simpa using h)

theorem getD_set_ne {α : Type _} (l : List α) (i j : Nat) (a d : α) (h : i ≠ j) :
    (l.set i a).getD j d = l.getD j d := by
  induction l generalizing i j with
  | nil => simp [List.getD]
  | cons x xs ih =>
    cases i with
    | zero =>
      cases j with
      | zero => exact absurd rfl h
      | succ m => simp [List.getD]
    | succ n =>
      cases j with
      | zero => simp [List.getD]
      | succ m =>
        simp only [List.set, List.getD_cons_succ]
        exact ih n m (fun hnm => h (by omega))

theorem getD_eq_of_mem_or {α : Type _} (l : List α) (i : Nat) (d : α) :
    l.getD i d ∈ l ∨ l.getD i d = d := by
  induction l generalizing i with
  | nil => simp [List.getD]
  | cons x xs ih =>
    cases i with
    | zero => simp [List.getD]
    | succ n =>
      simp only [List.getD_cons_succ]
      rcases ih n with h | h
      · exact Or.inl (List.mem_cons_of_mem _ h)
      · exact Or.inr h

theorem mem_of_mem_set {α : Type _} {l : List α} {i : Nat} {a x : α}
    (h : x ∈ l.set i a) : x ∈ l ∨ x = a := by
  induction l generalizing i with
  | nil => simp at h
  | cons y ys ih =>
    cases i with
    | zero =>
      rcases List.mem_cons.mp h with h | h
      · exact Or.inr h
      · exact Or.inl (List.mem_cons_of_mem _ h)
    | succ n =>
      rcases List.mem_cons.mp h with h | h
      · exact Or.inl (h ▸ List.mem_cons_self _ _)
      · rcases ih h with h | h
        · exact Or.inl (List.mem_cons_of_mem _ h)
        · exact Or.inr h

/-! ### `FindMinEntry` lemmas -/

theorem FindMinEntry_eq_none {l : List FHeapEntry} :
    FindMinEntry l = none ↔ l = [] := by
  cases l with
  | nil => simp [FindMinEntry]
  | cons x xs =>
    simp only [FindMinEntry]
    constructor
    · intro h
      cases hm : FindMinEntry xs with
      | none => rw [hm] at h; simp at h
      | some m => rw [hm] at h; by_cases hk : m.Key < x.Key <;> simp [hk] at h
    · intro h; simp at h

theorem FindMinEntry_mem {l : List FHeapEntry} {e : FHeapEntry}
    (h : FindMinEntry l = some e) : e ∈ l := by
  induction l with
  | nil => simp [FindMinEntry] at h
  | cons x xs ih =>
    simp only [FindMinEntry] at h
    cases hm : FindMinEntry xs with
    | none =>
      rw [hm] at h
      simp only [Option.some.injEq] at h
      exact h ▸ List.mem_cons_self _ _
    | some m =>
      rw [hm] at h
      by_cases hk : m.Key < x.Key
      · simp only [if_pos hk, Option.some.injEq] at h
        exact List.mem_cons_of_mem _ (ih (h ▸ hm))
      · simp only [if_neg hk, Option.some.injEq] at h
        exact h ▸ List.mem_cons_self _ _

theorem FindMinEntry_min {l : List FHeapEntry} {e : FHeapEntry}
    (h : FindMinEntry l = some e) : ∀ x ∈ l, e.Key ≤ x.Key := by
  induction l generalizing e with
  | nil => simp [FindMinEntry] at h
  | cons x xs ih =>
    simp only [FindMinEntry] at h
    intro y hy
    cases hm : FindMinEntry xs with
    | none =>
      rw [hm] at h
      simp only [Option.some.injEq] at h
      rw [FindMinEntry_eq_none.mp hm] at hy
      rcases List.mem_cons.mp hy with hy | hy
      · rw [← h, hy]
      · simp at hy
    | some m =>
      rw [hm] at h
      by_cases hk : m.Key < x.Key
      · simp only [if_pos hk, Option.some.injEq] at h
        have hm2 : FindMinEntry xs = some e := h ▸ hm
        rcases List.mem_cons.mp hy with hy | hy
        · rw [hy, ← h]; exact Nat.le_of_lt hk
        · exact ih hm2 y hy
      · simp only [if_neg hk, Option.some.injEq] at h
        rcases List.mem_cons.mp hy with hy | hy
        · rw [hy, ← h]
        · rw [← h]
          exact Nat.le_trans (Nat.le_of_not_lt hk) (ih hm y hy)

/-! ### Generic fold induction -/

theorem foldl_induction {α : Type _} {β : Type _} (f : α → β → α) (P : α → Prop) :
    ∀ (l : List β) (a : α), P a → (∀ a b, P a → P (f a b)) → P (l.foldl f a)
  | [], _, ha, _ => ha
  | b :: l, a, ha, hstep => foldl_induction f P l (f a b) (hstep a b ha) hstep

/-! ### Frame and heap effect lemmas for the scene operations -/

/-- Scene transitions that keep the frame index, only drop entries from
the last-captured heap, and keep every card's modelled geometry.  All
non-capturing operations of the pass are of this shape. -/
def SceneShrinks (s s2 : FLumenSceneData) : Prop :=
  s2.SurfaceCacheUpdateFrameIndex = s.SurfaceCacheUpdateFrameIndex ∧
  (∀ e ∈ s2.LastCapturedPageHeap, e ∈ s.LastCapturedPageHeap)

theorem SceneShrinks.srefl (s : FLumenSceneData) : SceneShrinks s s :=
  ⟨rfl, fun _ he => he⟩

theorem SceneShrinks.strans {a b c : FLumenSceneData}
    (h12 : SceneShrinks a b) (h23 : SceneShrinks b c) : SceneShrinks a c :=
  ⟨h23.1.trans h12.1, fun e he => h12.2 e (h23.2 e he)⟩

theorem SceneShrinks_SetCard (s : FLumenSceneData) (i : Nat) (c : FLumenCard) :
    SceneShrinks s (s.SetCard i c) :=
  ⟨rfl, fun _ he => he⟩

theorem SceneShrinks_UnmapPage (s : FLumenSceneData) (i lvl p : Nat) :
    SceneShrinks s (s.UnmapPage i lvl p) := by
  refine ⟨rfl, fun e he => ?_⟩
  simp only [FLumenSceneData.UnmapPage] at he
  exact List.mem_of_mem_filter he

theorem SceneShrinks_EvictOldestAllocation {s s2 : FLumenSceneData} {maxAge d : Nat}
    (h : s.EvictOldestAllocation maxAge = some (s2, d)) : SceneShrinks s s2 := by
  unfold FLumenSceneData.EvictOldestAllocation at h
  cases hm : FindMinEntry s.UnlockedAllocationHeap with
  | none => rw [hm] at h; simp at h
  | some e =>
    rw [hm] at h
    by_cases hage : maxAge < s.SurfaceCacheUpdateFrameIndex - e.Key
    · simp only [if_pos hage, Option.some.injEq, Prod.mk.injEq] at h
      exact h.1 ▸ SceneShrinks_UnmapPage s e.CardIndex e.ResLevel e.LocalPageIndex
    · simp [if_neg hage] at h

theorem SceneShrinks_FreeMipLevel (s : FLumenSceneData) (i lvl : Nat) :
    SceneShrinks s (s.FreeMipLevel i lvl) := by
  unfold FLumenSceneData.FreeMipLevel
  refine SceneShrinks.strans (b := (List.range (((s.GetCard i).GetMipMap lvl).mapped.length)).foldl
    (fun acc p => acc.UnmapPage i lvl p) s) ?_ (SceneShrinks_SetCard _ _ _)
  exact foldl_induction _ (SceneShrinks s) _ s (SceneShrinks.srefl s)
    (fun a b ha => ha.strans (SceneShrinks_UnmapPage a i lvl b))

theorem SceneShrinks_FreeVirtualSurface (s : FLumenSceneData) (i fromLvl toLvl : Nat) :
    SceneShrinks s (s.FreeVirtualSurface i fromLvl toLvl) := by
  unfold FLumenSceneData.FreeVirtualSurface
  refine SceneShrinks.strans (b := (List.range NumResLevels).foldl
    (fun acc j =>
      if fromLvl ≤ MinResLevel + j ∧ MinResLevel + j ≤ toLvl then acc.FreeMipLevel i (MinResLevel + j)
      else acc) s) ?_ (SceneShrinks_SetCard _ _ _)
  refine foldl_induction _ (SceneShrinks s) _ s (SceneShrinks.srefl s) (fun a b ha => ?_)
  by_cases hb : fromLvl ≤ MinResLevel + b ∧ MinResLevel + b ≤ toLvl
  · simpa [hb] using ha.strans (SceneShrinks_FreeMipLevel a i (MinResLevel + b))
  · simpa [hb] using ha

theorem SceneShrinks_ReallocVirtualSurface (s : FLumenSceneData) (i lvl : Nat) (bLock : Bool) :
    SceneShrinks s (s.ReallocVirtualSurface i lvl bLock) := by
  unfold FLumenSceneData.ReallocVirtualSurface
  constructor
  · by_cases hab : ((s.GetCard i).GetMipMap lvl).bAllocated = true <;>
      by_cases hl : bLock = true <;>
      simp [hab, hl, FLumenSceneData.SetCard]
  · intro e he
    by_cases hab : ((s.GetCard i).GetMipMap lvl).bAllocated = true <;>
      by_cases hl : bLock = true <;>
      simp [hab, hl, FLumenSceneData.SetCard] at he <;>
      exact he

theorem SceneShrinks_UpdateCardMipMapHierarchy (s : FLumenSceneData) (i : Nat) :
    SceneShrinks s (s.UpdateCardMipMapHierarchy i) := by
  unfold FLumenSceneData.UpdateCardMipMapHierarchy
  exact ⟨rfl, fun _ he => he⟩

theorem SceneShrinks_EvictLoop {maxAge i lvl : Nat} {b : Bool} :
    ∀ (fuel : Nat) (s : FLumenSceneData) (dirty : List Nat),
      SceneShrinks s (EvictLoop maxAge i lvl b fuel s dirty).2.1 := by
  intro fuel
  induction fuel with
  | zero => intro s dirty; exact SceneShrinks.srefl s
  | succ n ih =>
    intro s dirty
    unfold EvictLoop
    by_cases hav : s.IsPhysicalSpaceAvailable i lvl b = true
    · simp only [hav, if_true]; exact SceneShrinks.srefl s
    · simp only [Bool.not_eq_true] at hav
      simp only [hav, Bool.false_eq_true, if_false]
      cases hev : s.EvictOldestAllocation maxAge with
      | none => exact SceneShrinks.srefl s
      | some pr =>
        exact (SceneShrinks_EvictOldestAllocation (d := pr.2) (by rw [hev])).strans (ih pr.1 _)

theorem SceneShrinks_FinalEvictLoop {maxAge : Nat} :
    ∀ (fuel : Nat) (s : FLumenSceneData) (dirty : List Nat),
      SceneShrinks s (FinalEvictLoop maxAge fuel s dirty).1 := by
  intro fuel
  induction fuel with
  | zero => intro s dirty; exact SceneShrinks.srefl s
  | succ n ih =>
    intro s dirty
    unfold FinalEvictLoop
    cases hev : s.EvictOldestAllocation maxAge with
    | none => exact SceneShrinks.srefl s
    | some pr =>
      exact (SceneShrinks_EvictOldestAllocation (d := pr.2) (by rw [hev])).strans (ih pr.1 _)

/-! ### Zero-key provenance through the pass (for the frame-index claim) -/

/-- Relative to the scene `s0` at the start of a pass: the frame index
is unchanged, and every last-captured heap entry with key 0 descends
from a key-0 entry for the same page in `s0` and its page is not among
the capture jobs emitted so far. -/
def ZeroKeyOK (s0 : FLumenSceneData) (ps : CapturePassState) : Prop :=
  ps.Scene.SurfaceCacheUpdateFrameIndex = s0.SurfaceCacheUpdateFrameIndex ∧
  ∀ e ∈ ps.Scene.LastCapturedPageHeap, e.Key = 0 →
    ((∃ e0 ∈ s0.LastCapturedPageHeap, e0.Key = 0 ∧ e0.Page = e.Page) ∧
     ∀ j ∈ ps.CardPagesToRender, j.Page ≠ e.Page)

theorem ZeroKeyOK_of_shrink {s0 : FLumenSceneData} (ps ps2 : CapturePassState)
    (hsh : SceneShrinks ps.Scene ps2.Scene)
    (hjobs : ps2.CardPagesToRender = ps.CardPagesToRender)
    (h : ZeroKeyOK s0 ps) : ZeroKeyOK s0 ps2 := by
  refine ⟨hsh.1.trans h.1, fun e he hk => ?_⟩
  have h2 := h.2 e (hsh.2 e he) hk
  exact ⟨h2.1, by rw [hjobs]; exact h2.2⟩

theorem ZeroKeyOK_captureStep {s0 : FLumenSceneData}
    (hframe : s0.SurfaceCacheUpdateFrameIndex ≠ 0)
    (ps ps2 : CapturePassState) (pg : FVirtualPageIndex)
    (job : FCardPageRenderData) (extra : List FHeapEntry)
    (hfr : ps2.Scene.SurfaceCacheUpdateFrameIndex = ps.Scene.SurfaceCacheUpdateFrameIndex)
    (hheap : ps2.Scene.LastCapturedPageHeap =
      HeapUpdate ps.Scene.SurfaceCacheUpdateFrameIndex pg
        (ps.Scene.LastCapturedPageHeap ++ extra))
    (hextra : ∀ e ∈ extra, e.Page = pg)
    (hjobs : ps2.CardPagesToRender = ps.CardPagesToRender ++ [job])
    (hjpg : job.Page = pg)
    (h : ZeroKeyOK s0 ps) : ZeroKeyOK s0 ps2 := by
  obtain ⟨hf, hz⟩ := h
  refine ⟨hfr.trans hf, fun e he hk => ?_⟩
  rw [hheap] at he
  unfold HeapUpdate at he
  obtain ⟨u, hu, heq⟩ := List.mem_map.mp he
  by_cases hupg : u.Page = pg
  · exfalso
    rw [if_pos hupg] at heq
    apply hframe
    rw [← hf, ← hk, ← heq]
  · rw [if_neg hupg] at heq
    subst heq
    rcases List.mem_append.mp hu with hu2 | hu2
    · have h2 := hz u hu2 hk
      refine ⟨h2.1, fun j hj => ?_⟩
      rw [hjobs] at hj
      rcases List.mem_append.mp hj with hj2 | hj2
      · exact h2.2 j hj2
      · have : j = job := by simpa using hj2
        subst this
        rw [hjpg]
        exact fun hcon => hupg hcon.symm
    · exact absurd (hextra u hu2) hupg

theorem MapSurfaceCachePage_unmapped_heap (s : FLumenSceneData) (i lvl p : Nat)
    (hm : ((s.GetCard i).GetMipMap lvl).mapped.getD p false = false) :
    (s.MapSurfaceCachePage i lvl p).LastCapturedPageHeap
        = s.LastCapturedPageHeap ++ [⟨0, i, lvl, p⟩] ∧
    (s.MapSurfaceCachePage i lvl p).SurfaceCacheUpdateFrameIndex
        = s.SurfaceCacheUpdateFrameIndex := by
  constructor <;>
    simp only [FLumenSceneData.MapSurfaceCachePage, hm, Bool.false_eq_true, if_false,
      FLumenSceneData.SetCard]

theorem ZeroKeyOK_CapturePage {s0 : FLumenSceneData}
    (hframe : s0.SurfaceCacheUpdateFrameIndex ≠ 0)
    (b : Bool) (i lvl p : Nat) (ps : CapturePassState) (h : ZeroKeyOK s0 ps) :
    ZeroKeyOK s0 (CapturePage b i lvl p ps) := by
  unfold CapturePage
  by_cases hm : ((ps.Scene.GetCard i).GetMipMap lvl).mapped.getD p false = true
  · simp only [hm, if_true]; exact h
  · have hm2 : ((ps.Scene.GetCard i).GetMipMap lvl).mapped.getD p false = false := by
      simpa using hm
    simp only [hm2, Bool.false_eq_true, if_false]
    by_cases hsp : (ps.Scene.GetCard i).PageTexelsAt lvl ≤ ps.CaptureAtlasFreeTexels
    · simp only [if_pos hsp]
      refine ZeroKeyOK_captureStep hframe ps _ ⟨i, lvl, p⟩
        ⟨i, lvl, p, (ps.Scene.GetCard i).PageTexelsAt lvl, b⟩
        [⟨0, i, lvl, p⟩] ?_ ?_ ?_ ?_ rfl h
      · exact (MapSurfaceCachePage_unmapped_heap ps.Scene i lvl p hm2).2
      · show HeapUpdate (ps.Scene.MapSurfaceCachePage i lvl p).SurfaceCacheUpdateFrameIndex
          ⟨i, lvl, p⟩ (ps.Scene.MapSurfaceCachePage i lvl p).LastCapturedPageHeap = _
        rw [(MapSurfaceCachePage_unmapped_heap ps.Scene i lvl p hm2).1,
          (MapSurfaceCachePage_unmapped_heap ps.Scene i lvl p hm2).2]
      · intro e he
        have he2 : e = (⟨0, i, lvl, p⟩ : FHeapEntry) := by simpa using he
        rw [he2]; rfl
      · rfl
    · simp only [if_neg hsp]; exact h

theorem ZeroKeyOK_RefreshCapture {s0 : FLumenSceneData}
    (hframe : s0.SurfaceCacheUpdateFrameIndex ≠ 0)
    (e : FHeapEntry) (ps : CapturePassState) (h : ZeroKeyOK s0 ps) :
    ZeroKeyOK s0 (RefreshCapture e ps) := by
  refine ZeroKeyOK_captureStep hframe ps (RefreshCapture e ps) e.Page
    ⟨e.CardIndex, e.ResLevel, e.LocalPageIndex,
      (ps.Scene.GetCard e.CardIndex).PageTexelsAt e.ResLevel, true⟩
    [] rfl ?_ (by intro x hx; simp at hx) rfl rfl h
  show HeapUpdate ps.Scene.SurfaceCacheUpdateFrameIndex e.Page ps.Scene.LastCapturedPageHeap = _
  rw [List.append_nil]

theorem SceneShrinks_RunEvictLoop (maxAge i lvl : Nat) (b : Bool)
    (s : FLumenSceneData) (dirty : List Nat) :
    SceneShrinks s (RunEvictLoop maxAge i lvl b s dirty).2.1 :=
  SceneShrinks_EvictLoop _ _ _

theorem ZeroKeyOK_withDirty {s0 : FLumenSceneData} {ps : CapturePassState} {d : List Nat}
    (h : ZeroKeyOK s0 ps) : ZeroKeyOK s0 { ps with DirtyCards := d } := h

theorem SceneShrinks_LockedCommitScene (r : FSurfaceCacheRequest) (newLvl : Nat)
    (s1 : FLumenSceneData) : SceneShrinks s1 (LockedCommitScene r newLvl s1) := by
  unfold LockedCommitScene
  exact (((SceneShrinks_SetCard _ _ _).strans
    (SceneShrinks_FreeVirtualSurface _ _ _ _)).strans
    (SceneShrinks_FreeVirtualSurface _ _ _ _)).strans
    (SceneShrinks_ReallocVirtualSurface _ _ _ _)

theorem ZeroKeyOK_LockedCommit {s0 : FLumenSceneData}
    (hframe : s0.SurfaceCacheUpdateFrameIndex ≠ 0)
    (r : FSurfaceCacheRequest) (newLvl : Nat) (s1 : FLumenSceneData)
    (dirty1 : List Nat) (ps : CapturePassState)
    (hsh : SceneShrinks ps.Scene s1) (h : ZeroKeyOK s0 ps) :
    ZeroKeyOK s0 (LockedCommit r newLvl s1 dirty1 ps) := by
  have hbase : ZeroKeyOK s0
      { ps with Scene := LockedCommitScene r newLvl s1, DirtyCards := dirty1 } :=
    ZeroKeyOK_of_shrink ps _ (hsh.strans (SceneShrinks_LockedCommitScene r newLvl s1)) rfl h
  have hfold := foldl_induction
    (fun acc p => CapturePage (LockedCommitCard r s1).IsAllocated r.CardIndex
      ((LockedCommitScene r newLvl s1).GetCard r.CardIndex).MinAllocatedResLevel p acc)
    (ZeroKeyOK s0)
    (List.range (((LockedCommitScene r newLvl s1).GetCard r.CardIndex).GetMipMap
      ((LockedCommitScene r newLvl s1).GetCard r.CardIndex).MinAllocatedResLevel).mapped.length)
    { ps with Scene := LockedCommitScene r newLvl s1, DirtyCards := dirty1 }
    hbase
    (fun a p ha => ZeroKeyOK_CapturePage hframe _ _ _ _ a ha)
  exact ZeroKeyOK_withDirty hfold

set_option maxHeartbeats 2000000 in
theorem ZeroKeyOK_ProcessLockedRequest {s0 : FLumenSceneData}
    (hframe : s0.SurfaceCacheUpdateFrameIndex ≠ 0)
    (r : FSurfaceCacheRequest) (ps : CapturePassState) (h : ZeroKeyOK s0 ps) :
    ZeroKeyOK s0 (ProcessLockedRequest r ps) := by
  simp only [ProcessLockedRequest]
  split
  · split <;> split
    · exact ZeroKeyOK_LockedCommit hframe r _ _ _ ps (SceneShrinks_RunEvictLoop _ _ _ _ _ _) h
    · exact ZeroKeyOK_of_shrink ps _ (SceneShrinks_RunEvictLoop _ _ _ _ _ _) rfl h
    · exact ZeroKeyOK_LockedCommit hframe r _ _ _ ps (SceneShrinks_RunEvictLoop _ _ _ _ _ _) h
    · exact ZeroKeyOK_of_shrink ps _ (SceneShrinks_RunEvictLoop _ _ _ _ _ _) rfl h
  · exact h

theorem ZeroKeyOK_HiResCommit {s0 : FLumenSceneData}
    (hframe : s0.SurfaceCacheUpdateFrameIndex ≠ 0)
    (v : FVirtualPageIndex) (s1 : FLumenSceneData) (dirty1 : List Nat)
    (ps : CapturePassState) (hsh : SceneShrinks ps.Scene s1) (h : ZeroKeyOK s0 ps) :
    ZeroKeyOK s0 (HiResCommit v s1 dirty1 ps) := by
  simp only [HiResCommit]
  have hbase : ZeroKeyOK s0
      { ps with
        Scene := s1.ReallocVirtualSurface v.CardIndex v.ResLevel false
        DirtyCards := dirty1 } :=
    ZeroKeyOK_of_shrink ps _
      (hsh.strans (SceneShrinks_ReallocVirtualSurface _ _ _ _)) rfl h
  have hcap := ZeroKeyOK_CapturePage hframe (s1.GetCard v.CardIndex).IsAllocated
    v.CardIndex v.ResLevel v.LocalPageIndex _ hbase
  split
  · exact hcap
  · exact ZeroKeyOK_withDirty hcap

set_option maxHeartbeats 2000000 in
theorem ZeroKeyOK_ProcessHiResPage {s0 : FLumenSceneData}
    (hframe : s0.SurfaceCacheUpdateFrameIndex ≠ 0)
    (v : FVirtualPageIndex) (ps : CapturePassState) (h : ZeroKeyOK s0 ps) :
    ZeroKeyOK s0 (ProcessHiResPage v ps) := by
  simp only [ProcessHiResPage]
  split
  · split
    · exact ZeroKeyOK_HiResCommit hframe v _ _ ps (SceneShrinks_RunEvictLoop _ _ _ _ _ _) h
    · exact ZeroKeyOK_of_shrink ps _ (SceneShrinks_RunEvictLoop _ _ _ _ _ _) rfl h
  · exact h

theorem ZeroKeyOK_ProcessOneRequest {s0 : FLumenSceneData}
    (hframe : s0.SurfaceCacheUpdateFrameIndex ≠ 0)
    (r : FSurfaceCacheRequest) (ps : CapturePassState) (h : ZeroKeyOK s0 ps) :
    ZeroKeyOK s0 (ProcessOneRequest r ps) := by
  simp only [ProcessOneRequest]
  split
  · exact ZeroKeyOK_ProcessLockedRequest hframe r ps h
  · split
    · split
      · exact h
      · exact h
    · exact h

theorem ZeroKeyOK_ProcessRequests {s0 : FLumenSceneData}
    (hframe : s0.SurfaceCacheUpdateFrameIndex ≠ 0) (maxTile : Nat) :
    ∀ (reqs : List FSurfaceCacheRequest) (ps : CapturePassState),
      ZeroKeyOK s0 ps → ZeroKeyOK s0 (ProcessRequests maxTile reqs ps)
  | [], ps, h => h
  | r :: rest, ps, h => by
    simp only [ProcessRequests]
    split
    · exact ZeroKeyOK_ProcessOneRequest hframe r ps h
    · exact ZeroKeyOK_ProcessRequests hframe maxTile rest _
        (ZeroKeyOK_ProcessOneRequest hframe r ps h)

theorem ZeroKeyOK_RefreshLoop {s0 : FLumenSceneData}
    (hframe : s0.SurfaceCacheUpdateFrameIndex ≠ 0) :
    ∀ (fuel : Nat) (tex pag : Int) (ps : CapturePassState),
      ZeroKeyOK s0 ps → ZeroKeyOK s0 (RefreshLoop fuel tex pag ps)
  | 0, _, _, _, h => h
  | fuel + 1, tex, pag, ps, h => by
    simp only [RefreshLoop]
    cases hm : FindMinEntry ps.Scene.LastCapturedPageHeap with
    | none => exact h
    | some e =>
      simp only []
      split
      · split
        · split
          · exact ZeroKeyOK_RefreshLoop hframe fuel _ _ _
              (ZeroKeyOK_RefreshCapture hframe e ps h)
          · exact h
        · exact h
      · exact h

theorem ZeroKeyOK_RunHiResPhase {s0 : FLumenSceneData}
    (hframe : s0.SurfaceCacheUpdateFrameIndex ≠ 0)
    (ps : CapturePassState) (h : ZeroKeyOK s0 ps) :
    ZeroKeyOK s0 (RunHiResPhase ps) :=
  foldl_induction _ (ZeroKeyOK s0) _ _ h
    (fun a v ha => ZeroKeyOK_ProcessHiResPage hframe v a ha)

theorem ZeroKeyOK_RunRefreshPhase {s0 : FLumenSceneData}
    (hframe : s0.SurfaceCacheUpdateFrameIndex ≠ 0)
    (p : FProcessRequestsParams) (ps : CapturePassState) (h : ZeroKeyOK s0 ps) :
    ZeroKeyOK s0 (RunRefreshPhase p ps) :=
  ZeroKeyOK_RefreshLoop hframe _ _ _ ps h

theorem ZeroKeyOK_RunFinalEvictPhase {s0 : FLumenSceneData}
    (p : FProcessRequestsParams) (ps : CapturePassState) (h : ZeroKeyOK s0 ps) :
    ZeroKeyOK s0 (RunFinalEvictPhase p ps) := by
  simp only [RunFinalEvictPhase]
  split
  · exact ZeroKeyOK_of_shrink ps _ (SceneShrinks_FinalEvictLoop _ _ _) rfl h
  · exact h

theorem ZeroKeyOK_RunHierarchyUpdatePhase {s0 : FLumenSceneData}
    (ps : CapturePassState) (h : ZeroKeyOK s0 ps) :
    ZeroKeyOK s0 (RunHierarchyUpdatePhase ps) := by
  refine ZeroKeyOK_of_shrink ps (RunHierarchyUpdatePhase ps) ?_ rfl h
  exact foldl_induction _ (SceneShrinks ps.Scene) _ _ (SceneShrinks.srefl _)
    (fun a c ha => ha.strans (SceneShrinks_UpdateCardMipMapHierarchy a c))

theorem ZeroKeyOK_pass (p : FProcessRequestsParams) (s : FLumenSceneData)
    (reqs : List FSurfaceCacheRequest) (hframe : s.SurfaceCacheUpdateFrameIndex ≠ 0) :
    ZeroKeyOK s (ProcessLumenSurfaceCacheRequestsModel p s reqs) := by
  have h0 : ZeroKeyOK s (InitialPassState p s) := by
    refine ⟨rfl, fun e he hk => ⟨⟨e, he, hk, rfl⟩, ?_⟩⟩
    intro j hj
    simp [InitialPassState] at hj
  exact ZeroKeyOK_RunHierarchyUpdatePhase _
    (ZeroKeyOK_RunFinalEvictPhase p _
      (ZeroKeyOK_RunRefreshPhase hframe p _
        (ZeroKeyOK_RunHiResPhase hframe _
          (ZeroKeyOK_ProcessRequests hframe p.MaxTileCapturesPerFrame reqs _ h0))))

end LumenSurfaceCacheProof

namespace LumenSurfaceCacheProof

/-! ### Claim C10: the surface-cache update frame index is never zero -/

theorem IncrementSurfaceCacheUpdateFrameIndex_ne_zero (b : Bool) (n : Nat) (hn : n ≠ 0) :
    IncrementSurfaceCacheUpdateFrameIndex b n ≠ 0 := by
  unfold IncrementSurfaceCacheUpdateFrameIndex
  split
  · exact hn
  · by_cases h2 : (n + 1) % UINT32_MOD = 0
    · simp only [h2, if_true]
      intro hcon
      rw [Nat.mod_eq_of_lt (by norm_num [UINT32_MOD])] at hcon
      exact Nat.one_ne_zero hcon
    · simp only [h2, if_false]
      exact h2

/-- C10: the surface-cache update frame index is never zero at any
observable point: it is initialized to 1,
`IncrementSurfaceCacheUpdateFrameIndex` skips zero on unsigned
wrap-around (so every reachable frame index is nonzero), and therefore
a zero captured-frame key in the per-GPU last-captured page heap after
a scheduling pass can only descend from a pre-existing zero-key entry
for a page that was not captured during the pass: it unambiguously
identifies a page that has never been captured on that GPU. -/
theorem C10_frame_index_never_zero :
    InitialSurfaceCacheUpdateFrameIndex = 1 ∧
    (∀ (b : Bool) (n : Nat), n ≠ 0 → IncrementSurfaceCacheUpdateFrameIndex b n ≠ 0) ∧
    (∀ n, ReachableFrameIndex n → n ≠ 0) ∧
    (∀ (p : FProcessRequestsParams) (s : FLumenSceneData)
       (reqs : List FSurfaceCacheRequest),
      s.SurfaceCacheUpdateFrameIndex ≠ 0 →
      ∀ e ∈ (ProcessLumenSurfaceCacheRequestsModel p s reqs).Scene.LastCapturedPageHeap,
        e.Key = 0 →
        (∃ e0 ∈ s.LastCapturedPageHeap, e0.Key = 0 ∧ e0.Page = e.Page) ∧
        ∀ j ∈ (ProcessLumenSurfaceCacheRequestsModel p s reqs).CardPagesToRender,
          j.Page ≠ e.Page) := by
  refine ⟨rfl, IncrementSurfaceCacheUpdateFrameIndex_ne_zero, ?_, ?_⟩
  · intro n h
    induction h with
    | init => exact Nat.one_ne_zero
    | step b _ ih => exact IncrementSurfaceCacheUpdateFrameIndex_ne_zero b _ ih
  · intro p s reqs hframe e he hk
    exact (ZeroKeyOK_pass p s reqs hframe).2 e he hk

theorem C10_witness :
    IncrementSurfaceCacheUpdateFrameIndex false 4294967295 ≠ 0 ∧ (1 : Nat) ≠ 0 :=
  ⟨C10_frame_index_never_zero.2.1 false 4294967295 (by decide),
   C10_frame_index_never_zero.2.2.1 1 ReachableFrameIndex.init⟩

end LumenSurfaceCacheProof

namespace LumenSurfaceCacheProof

/-! ### Eviction loop and downgrade loop characterizations (claim C2) -/

/-- Scenes reachable by a sequence of successful
`EvictOldestAllocation` steps at a fixed max-age. -/
inductive EvictReach (maxAge : Nat) : FLumenSceneData → FLumenSceneData → Prop
  | refl (s : FLumenSceneData) : EvictReach maxAge s s
  | step {s s2 s3 : FLumenSceneData} {d : Nat}
      (h : s.EvictOldestAllocation maxAge = some (s2, d))
      (h2 : EvictReach maxAge s2 s3) : EvictReach maxAge s s3

theorem length_filter_lt {α : Type _} (p : α → Bool) (l : List α) (x : α)
    (hx : x ∈ l) (hpx : p x = false) : (l.filter p).length < l.length := by
  induction l with
  | nil => simp at hx
  | cons y ys ih =>
    rcases List.mem_cons.mp hx with hxy | hxy
    · subst hxy
      simp only [List.filter, hpx]
      exact Nat.lt_succ_of_le (List.length_filter_le p ys)
    · by_cases hpy : p y = true
      · simp only [List.filter, hpy, List.length_cons]
        exact Nat.succ_lt_succ (ih hxy)
      · have hpy2 : p y = false := by simpa using hpy
        simp only [List.filter, hpy2]
        exact Nat.lt_succ_of_lt (ih hxy)

theorem UnmapPage_heap_length_lt {s : FLumenSceneData} {e : FHeapEntry}
    (he : e ∈ s.UnlockedAllocationHeap) :
    (s.UnmapPage e.CardIndex e.ResLevel e.LocalPageIndex).UnlockedAllocationHeap.length <
      s.UnlockedAllocationHeap.length := by
  simp only [FLumenSceneData.UnmapPage]
  refine length_filter_lt _ _ e he ?_
  simp [FHeapEntry.Page]

theorem EvictOldestAllocation_heap_lt {s s2 : FLumenSceneData} {maxAge d : Nat}
    (h : s.EvictOldestAllocation maxAge = some (s2, d)) :
    s2.UnlockedAllocationHeap.length < s.UnlockedAllocationHeap.length := by
  unfold FLumenSceneData.EvictOldestAllocation at h
  cases hm : FindMinEntry s.UnlockedAllocationHeap with
  | none => rw [hm] at h; simp at h
  | some e =>
    rw [hm] at h
    by_cases hage : maxAge < s.SurfaceCacheUpdateFrameIndex - e.Key
    · simp only [if_pos hage, Option.some.injEq, Prod.mk.injEq] at h
      rw [← h.1]
      exact UnmapPage_heap_length_lt (FindMinEntry_mem hm)
    · simp [if_neg hage] at h

theorem EvictLoop_spec (maxAge i lvl : Nat) (b : Bool) :
    ∀ (fuel : Nat) (s : FLumenSceneData) (dirty : List Nat),
      s.UnlockedAllocationHeap.length < fuel →
      EvictReach maxAge s (EvictLoop maxAge i lvl b fuel s dirty).2.1 ∧
      ((EvictLoop maxAge i lvl b fuel s dirty).1 = true →
        (EvictLoop maxAge i lvl b fuel s dirty).2.1.IsPhysicalSpaceAvailable i lvl b = true) ∧
      ((EvictLoop maxAge i lvl b fuel s dirty).1 = false →
        (EvictLoop maxAge i lvl b fuel s dirty).2.1.IsPhysicalSpaceAvailable i lvl b = false ∧
        (EvictLoop maxAge i lvl b fuel s dirty).2.1.EvictOldestAllocation maxAge = none) := by
  intro fuel
  induction fuel with
  | zero => intro s dirty hlen; omega
  | succ n ih =>
    intro s dirty hlen
    unfold EvictLoop
    split
    case isTrue hav =>
      exact ⟨EvictReach.refl s, fun _ => hav, fun hcon => by simp at hcon⟩
    case isFalse hav =>
      have hav2 : s.IsPhysicalSpaceAvailable i lvl b = false := by simpa using hav
      cases hev : s.EvictOldestAllocation maxAge with
      | none =>
        simp only [hev]
        exact ⟨EvictReach.refl s, fun hcon => by simp at hcon, fun _ => ⟨hav2, by simp [hev]⟩⟩
      | some pr =>
        simp only [hev]
        have hlt : pr.1.UnlockedAllocationHeap.length < n := by
          have hdec := EvictOldestAllocation_heap_lt (d := pr.2) (h := by rw [hev])
          omega
        have hrec := ih pr.1 (AddUnique pr.2 dirty) hlt
        exact ⟨EvictReach.step (d := pr.2) (by rw [hev]) hrec.1, hrec.2.1, hrec.2.2⟩

theorem RunEvictLoop_spec (maxAge i lvl : Nat) (b : Bool)
    (s : FLumenSceneData) (dirty : List Nat) :
    EvictReach maxAge s (RunEvictLoop maxAge i lvl b s dirty).2.1 ∧
    ((RunEvictLoop maxAge i lvl b s dirty).1 = true →
      (RunEvictLoop maxAge i lvl b s dirty).2.1.IsPhysicalSpaceAvailable i lvl b = true) ∧
    ((RunEvictLoop maxAge i lvl b s dirty).1 = false →
      (RunEvictLoop maxAge i lvl b s dirty).2.1.IsPhysicalSpaceAvailable i lvl b = false ∧
      (RunEvictLoop maxAge i lvl b s dirty).2.1.EvictOldestAllocation maxAge = none) :=
  EvictLoop_spec maxAge i lvl b _ s dirty (Nat.lt_succ_self _)

theorem DecreaseResLevelLoop_spec (s : FLumenSceneData) (i : Nat) :
    ∀ (fuel lvl : Nat), lvl ≤ fuel →
      ((DecreaseResLevelLoop s i fuel lvl).1 = true →
        MinResLevel ≤ (DecreaseResLevelLoop s i fuel lvl).2 ∧
        (DecreaseResLevelLoop s i fuel lvl).2 < lvl ∧
        s.IsPhysicalSpaceAvailable i (DecreaseResLevelLoop s i fuel lvl).2 false = true ∧
        ∀ l, (DecreaseResLevelLoop s i fuel lvl).2 < l → l < lvl →
          s.IsPhysicalSpaceAvailable i l false = false) ∧
      ((DecreaseResLevelLoop s i fuel lvl).1 = false →
        ∀ l, MinResLevel ≤ l → l < lvl →
          s.IsPhysicalSpaceAvailable i l false = false) := by
  intro fuel
  induction fuel with
  | zero =>
    intro lvl hle
    have : lvl = 0 := Nat.le_zero.mp hle
    subst this
    unfold DecreaseResLevelLoop
    exact ⟨fun hcon => by simp at hcon, fun _ l _ hl => by omega⟩
  | succ n ih =>
    intro lvl hle
    unfold DecreaseResLevelLoop
    split
    case isFalse hmin =>
      exact ⟨fun hcon => by simp at hcon, fun _ l hl1 hl2 => by omega⟩
    case isTrue hmin =>
      split
      case isTrue hav =>
        refine ⟨fun _ => ⟨by omega, by omega, hav, fun l hl1 hl2 => by omega⟩,
          fun hcon => by simp at hcon⟩
      case isFalse hav =>
        have hav2 : s.IsPhysicalSpaceAvailable i (lvl - 1) false = false := by simpa using hav
        have hrec := ih (lvl - 1) (by omega)
        refine ⟨fun ht => ?_, fun hf => ?_⟩
        · obtain ⟨h1, h2, h3, h4⟩ := hrec.1 ht
          refine ⟨h1, by omega, h3, fun l hl1 hl2 => ?_⟩
          by_cases hll : l < lvl - 1
          · exact h4 l hl1 hll
          · have : l = lvl - 1 := by omega
            rw [this]; exact hav2
        · intro l hl1 hl2
          by_cases hll : l < lvl - 1
          · exact hrec.2 hf l hl1 hll
          · have : l = lvl - 1 := by omega
            rw [this]; exact hav2

end LumenSurfaceCacheProof

namespace LumenSurfaceCacheProof

/-! ### Allocation-structure preservation under eviction -/

/-- Two scenes agree on every card's visibility, desired locked level,
min/max allocated levels and every mip slot's allocation and lock
flags.  Eviction only unmaps pages, so it relates scenes this way. -/
def SameAllocation (s s2 : FLumenSceneData) : Prop :=
  ∀ i : Nat,
    (s2.GetCard i).bVisible = (s.GetCard i).bVisible ∧
    (s2.GetCard i).DesiredLockedResLevel = (s.GetCard i).DesiredLockedResLevel ∧
    (s2.GetCard i).MinAllocatedResLevel = (s.GetCard i).MinAllocatedResLevel ∧
    (s2.GetCard i).MaxAllocatedResLevel = (s.GetCard i).MaxAllocatedResLevel ∧
    ∀ lvl : Nat,
      ((s2.GetCard i).GetMipMap lvl).bAllocated = ((s.GetCard i).GetMipMap lvl).bAllocated ∧
      ((s2.GetCard i).GetMipMap lvl).bLocked = ((s.GetCard i).GetMipMap lvl).bLocked

theorem SameAllocation.arefl (s : FLumenSceneData) : SameAllocation s s :=
  fun _ => ⟨rfl, rfl, rfl, rfl, fun _ => ⟨rfl, rfl⟩⟩

theorem SameAllocation.atrans {a b c : FLumenSceneData}
    (h1 : SameAllocation a b) (h2 : SameAllocation b c) : SameAllocation a c := by
  intro i
  obtain ⟨x1, x2, x3, x4, x5⟩ := h1 i
  obtain ⟨y1, y2, y3, y4, y5⟩ := h2 i
  refine ⟨y1.trans x1, y2.trans x2, y3.trans x3, y4.trans x4, fun lvl => ?_⟩
  exact ⟨(y5 lvl).1.trans (x5 lvl).1, (y5 lvl).2.trans (x5 lvl).2⟩

theorem set_out_of_range {α : Type _} (l : List α) (i : Nat) (a : α)
    (h : l.length ≤ i) : l.set i a = l := by
  induction l generalizing i with
  | nil => simp
  | cons x xs ih =>
    cases i with
    | zero => simp at h
    | succ n =>
      simp only [List.set]
      rw [ih n (by simpa using h)]

theorem GetCard_SetCard_ne (s : FLumenSceneData) (i j : Nat) (c : FLumenCard)
    (h : i ≠ j) : (s.SetCard i c).GetCard j = s.GetCard j := by
  simp only [FLumenSceneData.SetCard, FLumenSceneData.GetCard]
  exact getD_set_ne _ i j c _ h

theorem GetCard_SetCard_self (s : FLumenSceneData) (i : Nat) (c : FLumenCard)
    (h : i < s.Cards.length) : (s.SetCard i c).GetCard i = c := by
  simp only [FLumenSceneData.SetCard, FLumenSceneData.GetCard]
  exact getD_set_self _ i c _ h

theorem GetCard_SetCard_out (s : FLumenSceneData) (i : Nat) (c : FLumenCard)
    (h : ¬ i < s.Cards.length) : (s.SetCard i c).GetCard i = s.GetCard i := by
  simp only [FLumenSceneData.SetCard, FLumenSceneData.GetCard]
  rw [set_out_of_range _ _ _ (by omega)]

theorem GetMipMap_SetMipMap (c : FLumenCard) (lvl lvl2 : Nat) (m : FLumenSurfaceMipMap) :
    (c.SetMipMap lvl m).GetMipMap lvl2 =
      if lvl - MinResLevel = lvl2 - MinResLevel ∧ lvl - MinResLevel < c.SurfaceMipMaps.length
      then m else c.GetMipMap lvl2 := by
  simp only [FLumenCard.SetMipMap, FLumenCard.GetMipMap]
  by_cases he : lvl - MinResLevel = lvl2 - MinResLevel
  · by_cases hr : lvl - MinResLevel < c.SurfaceMipMaps.length
    · rw [if_pos ⟨he, hr⟩, ← he]
      exact getD_set_self _ _ _ _ hr
    · rw [if_neg (by tauto), ← he, set_out_of_range _ _ _ (by omega)]
  · rw [if_neg (by tauto)]
    exact getD_set_ne _ _ _ _ _ he

theorem SameAllocation_UnmapPage (s : FLumenSceneData) (i lvl p : Nat) :
    SameAllocation s (s.UnmapPage i lvl p) := by
  intro j
  have hcards : ∀ k : Nat, ((s.UnmapPage i lvl p).GetCard k) =
      (s.SetCard i ((s.GetCard i).SetMipMap lvl
        { (s.GetCard i).GetMipMap lvl with
          mapped := ((s.GetCard i).GetMipMap lvl).mapped.set p false })).GetCard k := by
    intro k
    simp [FLumenSceneData.UnmapPage, FLumenSceneData.SetCard, FLumenSceneData.GetCard]
  rw [hcards j]
  by_cases hij : i = j
  · subst hij
    by_cases hin : i < s.Cards.length
    · rw [GetCard_SetCard_self s i _ hin]
      refine ⟨rfl, rfl, rfl, rfl, fun lvl2 => ?_⟩
      rw [GetMipMap_SetMipMap]
      by_cases he : lvl - MinResLevel = lvl2 - MinResLevel ∧
          lvl - MinResLevel < (s.GetCard i).SurfaceMipMaps.length
      · rw [if_pos he]
        have hsame : (s.GetCard i).GetMipMap lvl = (s.GetCard i).GetMipMap lvl2 := by
          simp only [FLumenCard.GetMipMap, he.1]
        rw [← hsame]
        exact ⟨rfl, rfl⟩
      · rw [if_neg he]
        exact ⟨rfl, rfl⟩
    · rw [GetCard_SetCard_out s i _ hin]
      exact ⟨rfl, rfl, rfl, rfl, fun _ => ⟨rfl, rfl⟩⟩
  · rw [GetCard_SetCard_ne s i j _ hij]
    exact ⟨rfl, rfl, rfl, rfl, fun _ => ⟨rfl, rfl⟩⟩

theorem SameAllocation_EvictOldestAllocation {s s2 : FLumenSceneData} {maxAge d : Nat}
    (h : s.EvictOldestAllocation maxAge = some (s2, d)) : SameAllocation s s2 := by
  unfold FLumenSceneData.EvictOldestAllocation at h
  cases hm : FindMinEntry s.UnlockedAllocationHeap with
  | none => rw [hm] at h; simp at h
  | some e =>
    rw [hm] at h
    by_cases hage : maxAge < s.SurfaceCacheUpdateFrameIndex - e.Key
    · simp only [if_pos hage, Option.some.injEq, Prod.mk.injEq] at h
      exact h.1 ▸ SameAllocation_UnmapPage s e.CardIndex e.ResLevel e.LocalPageIndex
    · simp [if_neg hage] at h

theorem SameAllocation_EvictReach {maxAge : Nat} {s s2 : FLumenSceneData}
    (h : EvictReach maxAge s s2) : SameAllocation s s2 := by
  induction h with
  | refl s => exact SameAllocation.arefl s
  | step h1 _ ih => exact (SameAllocation_EvictOldestAllocation h1).atrans ih

end LumenSurfaceCacheProof

namespace LumenSurfaceCacheProof

theorem ProcessLockedRequest_skip (r : FSurfaceCacheRequest) (ps : CapturePassState)
    (hEF : (RunEvictLoop LockedMaxFramesSinceLastUsed r.CardIndex (r.ResLevel % 256) false
      ps.Scene ps.DirtyCards).1 = false)
    (hDF : (DecreaseResLevelLoop
      (RunEvictLoop LockedMaxFramesSinceLastUsed r.CardIndex (r.ResLevel % 256) false
        ps.Scene ps.DirtyCards).2.1 r.CardIndex (r.ResLevel % 256) (r.ResLevel % 256)).1
      = false) :
    ProcessLockedRequest r ps = ps ∨
    ProcessLockedRequest r ps =
      { ps with
        Scene := (RunEvictLoop LockedMaxFramesSinceLastUsed r.CardIndex (r.ResLevel % 256)
          false ps.Scene ps.DirtyCards).2.1
        DirtyCards := (RunEvictLoop LockedMaxFramesSinceLastUsed r.CardIndex (r.ResLevel % 256)
          false ps.Scene ps.DirtyCards).2.2 } := by
  simp only [ProcessLockedRequest]
  split
  · split
    next hER =>
      exact absurd hER (by simp [hEF])
    next hER =>
      split
      next hcan => exact absurd hcan (by simp [hDF])
      next hcan => right; rfl
  · left; rfl

/-- C2: for each locked add/reallocate request whose level differs from
the card's current desired locked level, the scheduler attempts
allocation at the requested level: while physical space is unavailable
it evicts oldest allocations (`EvictReach` is the eviction cascade);
if eviction can free nothing more (`EvictOldestAllocation` returns
none with space still unavailable), it steps the requested level down
one at a time until an allocation succeeds (the resulting level is the
largest level below the requested one with space, and not below
`Lumen::MinResLevel`) or the platform minimum is reached with every
level in `[MinResLevel, requested)` failing; in that case the request
is skipped this frame with no allocation made: no capture job is
emitted and the card's desired level, allocation flags and lock flags
are unchanged. -/
theorem C2_locked_allocation_strategy (r : FSurfaceCacheRequest) (ps : CapturePassState) :
    EvictReach LockedMaxFramesSinceLastUsed ps.Scene
      (RunEvictLoop LockedMaxFramesSinceLastUsed r.CardIndex (r.ResLevel % 256) false
        ps.Scene ps.DirtyCards).2.1 ∧
    ((RunEvictLoop LockedMaxFramesSinceLastUsed r.CardIndex (r.ResLevel % 256) false
        ps.Scene ps.DirtyCards).1 = true →
      (RunEvictLoop LockedMaxFramesSinceLastUsed r.CardIndex (r.ResLevel % 256) false
        ps.Scene ps.DirtyCards).2.1.IsPhysicalSpaceAvailable r.CardIndex (r.ResLevel % 256)
        false = true) ∧
    ((RunEvictLoop LockedMaxFramesSinceLastUsed r.CardIndex (r.ResLevel % 256) false
        ps.Scene ps.DirtyCards).1 = false →
      (RunEvictLoop LockedMaxFramesSinceLastUsed r.CardIndex (r.ResLevel % 256) false
        ps.Scene ps.DirtyCards).2.1.IsPhysicalSpaceAvailable r.CardIndex (r.ResLevel % 256)
        false = false ∧
      (RunEvictLoop LockedMaxFramesSinceLastUsed r.CardIndex (r.ResLevel % 256) false
        ps.Scene ps.DirtyCards).2.1.EvictOldestAllocation LockedMaxFramesSinceLastUsed
        = none ∧
      ((DecreaseResLevelLoop
          (RunEvictLoop LockedMaxFramesSinceLastUsed r.CardIndex (r.ResLevel % 256) false
            ps.Scene ps.DirtyCards).2.1 r.CardIndex (r.ResLevel % 256) (r.ResLevel % 256)).1
          = true →
        MinResLevel ≤ (DecreaseResLevelLoop
          (RunEvictLoop LockedMaxFramesSinceLastUsed r.CardIndex (r.ResLevel % 256) false
            ps.Scene ps.DirtyCards).2.1 r.CardIndex (r.ResLevel % 256) (r.ResLevel % 256)).2 ∧
        (DecreaseResLevelLoop
          (RunEvictLoop LockedMaxFramesSinceLastUsed r.CardIndex (r.ResLevel % 256) false
            ps.Scene ps.DirtyCards).2.1 r.CardIndex (r.ResLevel % 256) (r.ResLevel % 256)).2
          < r.ResLevel % 256 ∧
        (RunEvictLoop LockedMaxFramesSinceLastUsed r.CardIndex (r.ResLevel % 256) false
          ps.Scene ps.DirtyCards).2.1.IsPhysicalSpaceAvailable r.CardIndex
          (DecreaseResLevelLoop
            (RunEvictLoop LockedMaxFramesSinceLastUsed r.CardIndex (r.ResLevel % 256) false
              ps.Scene ps.DirtyCards).2.1 r.CardIndex (r.ResLevel % 256) (r.ResLevel % 256)).2
          false = true ∧
        ∀ l, (DecreaseResLevelLoop
            (RunEvictLoop LockedMaxFramesSinceLastUsed r.CardIndex (r.ResLevel % 256) false
              ps.Scene ps.DirtyCards).2.1 r.CardIndex (r.ResLevel % 256) (r.ResLevel % 256)).2
            < l → l < r.ResLevel % 256 →
          (RunEvictLoop LockedMaxFramesSinceLastUsed r.CardIndex (r.ResLevel % 256) false
            ps.Scene ps.DirtyCards).2.1.IsPhysicalSpaceAvailable r.CardIndex l false
            = false) ∧
      ((DecreaseResLevelLoop
          (RunEvictLoop LockedMaxFramesSinceLastUsed r.CardIndex (r.ResLevel % 256) false
            ps.Scene ps.DirtyCards).2.1 r.CardIndex (r.ResLevel % 256) (r.ResLevel % 256)).1
          = false →
        (∀ l, MinResLevel ≤ l → l < r.ResLevel % 256 →
          (RunEvictLoop LockedMaxFramesSinceLastUsed r.CardIndex (r.ResLevel % 256) false
            ps.Scene ps.DirtyCards).2.1.IsPhysicalSpaceAvailable r.CardIndex l false
            = false) ∧
        (ProcessLockedRequest r ps).CardPagesToRender = ps.CardPagesToRender ∧
        ((ProcessLockedRequest r ps).Scene.GetCard r.CardIndex).DesiredLockedResLevel
          = (ps.Scene.GetCard r.CardIndex).DesiredLockedResLevel ∧
        ∀ lvl : Nat,
          (((ProcessLockedRequest r ps).Scene.GetCard r.CardIndex).GetMipMap lvl).bAllocated
            = ((ps.Scene.GetCard r.CardIndex).GetMipMap lvl).bAllocated ∧
          (((ProcessLockedRequest r ps).Scene.GetCard r.CardIndex).GetMipMap lvl).bLocked
            = ((ps.Scene.GetCard r.CardIndex).GetMipMap lvl).bLocked)) := by
  obtain ⟨hreach, hok, hfail⟩ := RunEvictLoop_spec LockedMaxFramesSinceLastUsed r.CardIndex
    (r.ResLevel % 256) false ps.Scene ps.DirtyCards
  refine ⟨hreach, hok, fun hEF => ?_⟩
  obtain ⟨hunav, hnone⟩ := hfail hEF
  obtain ⟨hdt, hdf⟩ := DecreaseResLevelLoop_spec
    (RunEvictLoop LockedMaxFramesSinceLastUsed r.CardIndex (r.ResLevel % 256) false
      ps.Scene ps.DirtyCards).2.1 r.CardIndex (r.ResLevel % 256) (r.ResLevel % 256)
    (Nat.le_refl _)
  refine ⟨hunav, hnone, hdt, fun hDF => ⟨hdf hDF, ?_⟩⟩
  have hsame : SameAllocation ps.Scene (ProcessLockedRequest r ps).Scene ∧
      (ProcessLockedRequest r ps).CardPagesToRender = ps.CardPagesToRender := by
    rcases ProcessLockedRequest_skip r ps hEF hDF with hcase | hcase
    · rw [hcase]; exact ⟨SameAllocation.arefl _, rfl⟩
    · rw [hcase]
      exact ⟨SameAllocation_EvictReach hreach, rfl⟩
  obtain ⟨hsa, hjobs⟩ := hsame
  obtain ⟨_, hdes, _, _, hmips⟩ := hsa r.CardIndex
  exact ⟨hjobs, hdes, hmips⟩

end LumenSurfaceCacheProof

namespace LumenSurfaceCacheProof

/-- A card with a locked level-3 mip (2 pages mapped), an unlocked
level-4 mip with one mapped page, and 2-page mips at every level. -/
def c2Card : FLumenCard :=
  { bVisible := true
    MinAllocatedResLevel := 3
    MaxAllocatedResLevel := 4
    DesiredLockedResLevel := 3
    MeshCardsIndex := 0
    SurfaceMipMaps :=
      [⟨true, true, [true, true]⟩, ⟨true, false, [true, false]⟩, {}, {}, {}, {}, {}, {}, {}]
    MipNumPages := [2, 2, 2, 2, 2, 2, 2, 2, 2]
    MipPageTexels := [64, 64, 64, 64, 64, 64, 64, 64, 64] }

/-- A scene with no free physical pages and one evictable page, so a
2-page allocation fails at every level even after eviction. -/
def c2Scene : FLumenSceneData :=
  { Cards := [c2Card]
    MeshCards := [{}]
    PrimitiveGroups := [{}]
    FreePhysicalPages := 0
    UnlockedAllocationHeap := [⟨1, 0, 4, 0⟩]
    LastCapturedPageHeap := [⟨2, 0, 3, 0⟩, ⟨2, 0, 3, 1⟩, ⟨1, 0, 4, 0⟩]
    SurfaceCacheUpdateFrameIndex := 10 }

def c2ps : CapturePassState :=
  { Scene := c2Scene
    CaptureAtlasFreeTexels := 100000
    CardPagesToRender := []
    HiResPagesToMap := []
    DirtyCards := []
    NumCardTexelsToCapture := 0 }

def c2req : FSurfaceCacheRequest :=
  { CardIndex := 0, ResLevel := 5, LocalPageIndex := UINT16_MAX, Distance := 0 }

theorem C2_witness :
    (ProcessLockedRequest c2req c2ps).CardPagesToRender = c2ps.CardPagesToRender :=
  (((C2_locked_allocation_strategy c2req c2ps).2.2 (by decide)).2.2.2 (by decide)).2.1

end LumenSurfaceCacheProof

namespace LumenSurfaceCacheProof

/-! ## C5: hi-res page admission, single-page granularity, stricter max-age -/

/-- Characterization of `MinAllocatedIdx = some i`: the slot exists and
is allocated. -/
theorem MinAllocatedIdx_some {mips : List FLumenSurfaceMipMap} {i : Nat}
    (h : MinAllocatedIdx mips = some i) :
    i < mips.length ∧ (mips.getD i default).bAllocated = true := by
  induction mips generalizing i with
  | nil => simp [MinAllocatedIdx] at h
  | cons m rest ih =>
    by_cases hm : m.bAllocated = true
    · have hi : i = 0 := by simp [MinAllocatedIdx, hm] at h; omega
      subst hi
      exact ⟨Nat.succ_pos _, hm⟩
    · simp only [Bool.not_eq_true] at hm
      simp [MinAllocatedIdx, hm, Option.map_eq_some'] at h
      obtain ⟨i0, hi0, hii⟩ := h
      obtain ⟨hlt, halloc⟩ := ih hi0
      subst hii
      refine ⟨by simpa using Nat.succ_lt_succ hlt, ?_⟩
      simpa using halloc

/-- A first allocated slot is never finer than the last one. -/
theorem MinIdx_le_MaxIdx {mips : List FLumenSurfaceMipMap} {i : Nat}
    (h : MinAllocatedIdx mips = some i) :
    ∃ j, MaxAllocatedIdx mips = some j ∧ i ≤ j := by
  induction mips generalizing i with
  | nil => simp [MinAllocatedIdx] at h
  | cons m rest ih =>
    by_cases hm : m.bAllocated = true
    · have hi : i = 0 := by simp [MinAllocatedIdx, hm] at h; omega
      subst hi
      cases hr : MaxAllocatedIdx rest with
      | some j => exact ⟨j + 1, by simp [MaxAllocatedIdx, hr], by omega⟩
      | none => exact ⟨0, by simp [MaxAllocatedIdx, hr, hm], Nat.le_refl 0⟩
    · simp only [Bool.not_eq_true] at hm
      simp [MinAllocatedIdx, hm, Option.map_eq_some'] at h
      obtain ⟨i0, hi0, hii⟩ := h
      obtain ⟨j, hj, hij⟩ := ih hi0
      refine ⟨j + 1, by simp [MaxAllocatedIdx, hj], by omega⟩

/-- Modelled from the spec: per-card slot consistency maintained by the
allocator operations — the three per-level arrays span the full level
range, an allocated slot's mapped vector spans its page count, and the
cached min/max fields agree with the slots. -/
def CardWF (c : FLumenCard) : Prop :=
  c.SurfaceMipMaps.length = NumResLevels ∧
  c.MipNumPages.length = NumResLevels ∧
  c.MipPageTexels.length = NumResLevels ∧
  (∀ i ∈ List.range NumResLevels,
    (c.SurfaceMipMaps.getD i default).bAllocated = true →
      (c.SurfaceMipMaps.getD i default).mapped.length = c.MipNumPages.getD i 0) ∧
  c.MinAllocatedResLevel = MinAllocatedLevelOf c.SurfaceMipMaps ∧
  c.MaxAllocatedResLevel = MaxAllocatedLevelOf c.SurfaceMipMaps

/-- Modelled from the spec (5.2, 7): the locked-floor invariant of a
steady-state card — whenever any mip is allocated, the coarsest
allocated level is itself a locked allocation (the locked low-res mip
installed by `ReallocVirtualSurface` with `bLockPages = true`). -/
def CardLockedFloor (c : FLumenCard) : Prop :=
  (∃ m ∈ c.SurfaceMipMaps, m.bAllocated = true) →
    ((c.GetMipMap c.MinAllocatedResLevel).bAllocated = true ∧
     (c.GetMipMap c.MinAllocatedResLevel).bLocked = true)

instance instDecCardWF (c : FLumenCard) : Decidable (CardWF c) := by
  unfold CardWF; infer_instance

instance instDecCardLockedFloor (c : FLumenCard) : Decidable (CardLockedFloor c) := by
  unfold CardLockedFloor; infer_instance

/-- A card whose min allocated level lies strictly below some level of
the `uint8` range is genuinely allocated, and its coarsest level is a
locked resident mip. -/
theorem Card_allocated_of_min_lt (c : FLumenCard) (lvl : Nat) (hwf : CardWF c)
    (hfl : CardLockedFloor c) (hlvl : lvl ≤ UINT8_MAX)
    (hmin : c.MinAllocatedResLevel < lvl) :
    c.IsAllocated = true ∧
    (c.GetMipMap c.MinAllocatedResLevel).bAllocated = true ∧
    (c.GetMipMap c.MinAllocatedResLevel).bLocked = true := by
  obtain ⟨-, -, -, -, hminEq, hmaxEq⟩ := hwf
  cases hmi : MinAllocatedIdx c.SurfaceMipMaps with
  | none =>
    rw [hminEq, MinAllocatedLevelOf, hmi] at hmin
    exact absurd hmin (by simp only [UINT8_MAX] at hlvl ⊢; omega)
  | some i =>
    obtain ⟨hlen, halloc⟩ := MinAllocatedIdx_some hmi
    have hex : ∃ m ∈ c.SurfaceMipMaps, m.bAllocated = true := by
      rcases getD_eq_of_mem_or c.SurfaceMipMaps i default with hm | hm
      · exact ⟨_, hm, halloc⟩
      · rw [hm] at halloc; exact absurd halloc (by decide)
    obtain ⟨j, hmj, hij⟩ := MinIdx_le_MaxIdx hmi
    refine ⟨?_, (hfl hex).1, (hfl hex).2⟩
    simp only [FLumenCard.IsAllocated, hminEq, hmaxEq, MinAllocatedLevelOf,
      MaxAllocatedLevelOf, hmi, hmj, decide_eq_true_eq]
    omega

/-- Behavior of the request loop on a hi-res (non-locked) request: the
scene and render jobs are untouched and the page is admitted to
`HiResPagesToMap` exactly under the source's test. -/
theorem ProcessOneRequest_hiRes (r : FSurfaceCacheRequest) (ps : CapturePassState)
    (h : r.IsLockedMip = false) :
    (ProcessOneRequest r ps).Scene = ps.Scene ∧
    (ProcessOneRequest r ps).CardPagesToRender = ps.CardPagesToRender ∧
    (ProcessOneRequest r ps).HiResPagesToMap =
      (if r.CardIndex < ps.Scene.Cards.length ∧
          (ps.Scene.GetCard r.CardIndex).bVisible = true ∧
          (ps.Scene.GetCard r.CardIndex).MinAllocatedResLevel < r.ResLevel
       then ps.HiResPagesToMap ++ [⟨r.CardIndex, r.ResLevel, r.LocalPageIndex⟩]
       else ps.HiResPagesToMap) := by
  by_cases h1 : r.CardIndex < ps.Scene.Cards.length
  · by_cases h2 : (ps.Scene.GetCard r.CardIndex).bVisible = true ∧
        (ps.Scene.GetCard r.CardIndex).MinAllocatedResLevel < r.ResLevel
    · simp [ProcessOneRequest, h, h1, h2]
    · simp [ProcessOneRequest, h, h1, h2]
  · simp [ProcessOneRequest, h, h1]

/-- `CapturePage` appends at most the one requested page. -/
theorem CapturePage_render_append (b : Bool) (i lvl p : Nat) (ps : CapturePassState) :
    (CapturePage b i lvl p ps).CardPagesToRender = ps.CardPagesToRender ∨
    (CapturePage b i lvl p ps).CardPagesToRender = ps.CardPagesToRender ++
      [⟨i, lvl, p, (ps.Scene.GetCard i).PageTexelsAt lvl, b⟩] := by
  simp only [CapturePage]
  split
  · exact Or.inl rfl
  · split
    · exact Or.inr rfl
    · exact Or.inl rfl

/-- The hi-res commit appends at most one render job, and that job
captures exactly the requested virtual page. -/
theorem HiResCommit_render (v : FVirtualPageIndex) (s1 : FLumenSceneData)
    (dirty1 : List Nat) (ps : CapturePassState) :
    (HiResCommit v s1 dirty1 ps).CardPagesToRender = ps.CardPagesToRender ∨
    ∃ job : FCardPageRenderData,
      (HiResCommit v s1 dirty1 ps).CardPagesToRender = ps.CardPagesToRender ++ [job] ∧
      job.Page = v := by
  simp only [HiResCommit]
  rcases CapturePage_render_append ((s1.GetCard v.CardIndex).IsAllocated) v.CardIndex
      v.ResLevel v.LocalPageIndex
      { ps with Scene := s1.ReallocVirtualSurface v.CardIndex v.ResLevel false
                DirtyCards := dirty1 } with hc | hc
  · split
    · exact Or.inl hc
    · exact Or.inl hc
  · refine Or.inr ⟨?_, ?_, ?_⟩
    · exact ⟨v.CardIndex, v.ResLevel, v.LocalPageIndex,
        ((s1.ReallocVirtualSurface v.CardIndex v.ResLevel false).GetCard
          v.CardIndex).PageTexelsAt v.ResLevel,
        (s1.GetCard v.CardIndex).IsAllocated⟩
    · split
      · exact hc
      · exact hc
    · rfl

/-- The hi-res mapping loop body captures at most the one requested
page (single-page granularity). -/
theorem ProcessHiResPage_single_page (v : FVirtualPageIndex) (ps : CapturePassState) :
    (ProcessHiResPage v ps).CardPagesToRender = ps.CardPagesToRender ∨
    ∃ job : FCardPageRenderData,
      (ProcessHiResPage v ps).CardPagesToRender = ps.CardPagesToRender ++ [job] ∧
      job.Page = v := by
  simp only [ProcessHiResPage]
  split
  · split
    · exact HiResCommit_render v _ _ ps
    · exact Or.inl rfl
  · exact Or.inl rfl

/-- **C5.** A hi-res page request is admitted exactly when the card
slot is valid, the card is visible and the requested level is strictly
finer than the card's min allocated level (scene and render jobs
untouched by admission); under the allocator well-formedness and
locked-floor invariants such a card indeed already holds a locked
allocation; the mapping loop then captures at most the one requested
page per entry (single-page, not whole-mip, granularity); and its
eviction max-age (16 frames) is strictly larger than the locked pass's
max-age (2 frames), so recently used pages are protected. -/
theorem C5_hi_res_admission :
    (∀ (r : FSurfaceCacheRequest) (ps : CapturePassState), r.IsLockedMip = false →
      (ProcessOneRequest r ps).Scene = ps.Scene ∧
      (ProcessOneRequest r ps).CardPagesToRender = ps.CardPagesToRender ∧
      (ProcessOneRequest r ps).HiResPagesToMap =
        (if r.CardIndex < ps.Scene.Cards.length ∧
            (ps.Scene.GetCard r.CardIndex).bVisible = true ∧
            (ps.Scene.GetCard r.CardIndex).MinAllocatedResLevel < r.ResLevel
         then ps.HiResPagesToMap ++ [⟨r.CardIndex, r.ResLevel, r.LocalPageIndex⟩]
         else ps.HiResPagesToMap)) ∧
    (∀ (c : FLumenCard) (lvl : Nat), CardWF c → CardLockedFloor c →
      lvl ≤ UINT8_MAX → c.MinAllocatedResLevel < lvl →
      c.IsAllocated = true ∧
      (c.GetMipMap c.MinAllocatedResLevel).bAllocated = true ∧
      (c.GetMipMap c.MinAllocatedResLevel).bLocked = true) ∧
    (∀ (v : FVirtualPageIndex) (ps : CapturePassState),
      (ProcessHiResPage v ps).CardPagesToRender = ps.CardPagesToRender ∨
      ∃ job : FCardPageRenderData,
        (ProcessHiResPage v ps).CardPagesToRender = ps.CardPagesToRender ++ [job] ∧
        job.Page = v) ∧
    LockedMaxFramesSinceLastUsed < HiResMaxFramesSinceLastUsed :=
  ⟨ProcessOneRequest_hiRes, Card_allocated_of_min_lt, ProcessHiResPage_single_page,
    by decide⟩

/-- A concrete visible card holding a locked level-3 allocation. -/
def c5Card : FLumenCard :=
  { bVisible := true
    MinAllocatedResLevel := 3
    MaxAllocatedResLevel := 3
    DesiredLockedResLevel := 3
    SurfaceMipMaps := { bAllocated := true, bLocked := true, mapped := [true] } ::
      List.replicate 8 {}
    MipNumPages := List.replicate 9 1
    MipPageTexels := List.replicate 9 1 }

/-- Witness: the admission consequence of C5 evaluated on `c5Card` with
a level-4 hi-res request. -/
theorem C5_witness :
    c5Card.IsAllocated = true ∧
    (c5Card.GetMipMap c5Card.MinAllocatedResLevel).bLocked = true :=
  ⟨(C5_hi_res_admission.2.1 c5Card 4 (by decide) (by decide) (by decide) (by decide)).1,
   (C5_hi_res_admission.2.1 c5Card 4 (by decide) (by decide) (by decide) (by decide)).2.2⟩

end LumenSurfaceCacheProof

namespace LumenSurfaceCacheProof

/-! ## C7: a locked reallocation frees every coarser slot -/

theorem getD_out_of_range {α : Type _} (l : List α) (i : Nat) (d : α)
    (h : l.length ≤ i) : l.getD i d = d := by
  induction l generalizing i with
  | nil => simp
  | cons x xs ih =>
    cases i with
    | zero => simp at h
    | succ n => simpa using ih n (by simpa using h)

/-- Out-of-range card access yields the default (empty) card. -/
theorem GetCard_out (s : FLumenSceneData) (i : Nat) (h : s.Cards.length ≤ i) :
    s.GetCard i = default := by
  simp only [FLumenSceneData.GetCard]
  exact getD_out_of_range _ _ _ h

theorem Cards_length_SetCard (s : FLumenSceneData) (i : Nat) (c : FLumenCard) :
    (s.SetCard i c).Cards.length = s.Cards.length := by
  simp [FLumenSceneData.SetCard]

theorem mipsLen_SetCard (s : FLumenSceneData) (i : Nat) (c : FLumenCard)
    (hc : c.SurfaceMipMaps.length = ((s.GetCard i).SurfaceMipMaps).length) (j : Nat) :
    (((s.SetCard i c).GetCard j).SurfaceMipMaps).length =
      ((s.GetCard j).SurfaceMipMaps).length := by
  by_cases hij : i = j
  · subst hij
    by_cases hin : i < s.Cards.length
    · rw [GetCard_SetCard_self s i c hin]; exact hc
    · rw [GetCard_SetCard_out s i c hin]
  · rw [GetCard_SetCard_ne s i j c hij]

theorem shape_UnmapPage (s : FLumenSceneData) (i lvl p : Nat) :
    (s.UnmapPage i lvl p).Cards.length = s.Cards.length ∧
    ∀ j : Nat, (((s.UnmapPage i lvl p).GetCard j).SurfaceMipMaps).length =
      ((s.GetCard j).SurfaceMipMaps).length := by
  constructor
  · simp [FLumenSceneData.UnmapPage, FLumenSceneData.SetCard]
  · intro j
    have hcards : (s.UnmapPage i lvl p).GetCard j =
        (s.SetCard i ((s.GetCard i).SetMipMap lvl
          { (s.GetCard i).GetMipMap lvl with
            mapped := ((s.GetCard i).GetMipMap lvl).mapped.set p false })).GetCard j := by
      simp [FLumenSceneData.UnmapPage, FLumenSceneData.SetCard, FLumenSceneData.GetCard]
    rw [hcards]
    exact mipsLen_SetCard s i _ (by simp [FLumenCard.SetMipMap]) j

theorem shape_unmapFold (s : FLumenSceneData) (i lvl n : Nat) :
    ((List.range n).foldl (fun acc p => acc.UnmapPage i lvl p) s).Cards.length
      = s.Cards.length ∧
    ∀ j : Nat,
      ((((List.range n).foldl (fun acc p => acc.UnmapPage i lvl p) s).GetCard j
        ).SurfaceMipMaps).length = ((s.GetCard j).SurfaceMipMaps).length := by
  refine foldl_induction (fun acc p => FLumenSceneData.UnmapPage acc i lvl p)
    (fun x => x.Cards.length = s.Cards.length ∧ ∀ j : Nat,
      ((x.GetCard j).SurfaceMipMaps).length = ((s.GetCard j).SurfaceMipMaps).length) _ _
    ⟨rfl, fun _ => rfl⟩ ?_
  rintro a b ⟨h1, h2⟩
  exact ⟨((shape_UnmapPage a i lvl b).1).trans h1,
    fun j => (((shape_UnmapPage a i lvl b).2 j)).trans (h2 j)⟩

theorem shape_FreeMipLevel (s : FLumenSceneData) (i lvl : Nat) :
    (s.FreeMipLevel i lvl).Cards.length = s.Cards.length ∧
    ∀ j : Nat, (((s.FreeMipLevel i lvl).GetCard j).SurfaceMipMaps).length =
      ((s.GetCard j).SurfaceMipMaps).length := by
  simp only [FLumenSceneData.FreeMipLevel]
  constructor
  · exact (Cards_length_SetCard _ _ _).trans (shape_unmapFold s i lvl _).1
  · intro j
    exact (mipsLen_SetCard _ i _ (by simp [FLumenCard.SetMipMap]) j).trans
      ((shape_unmapFold s i lvl _).2 j)


theorem shape_freeFold (s : FLumenSceneData) (i lo hi : Nat) (idxs : List Nat) :
    ((idxs.foldl (fun acc k =>
      if lo ≤ MinResLevel + k ∧ MinResLevel + k ≤ hi
      then acc.FreeMipLevel i (MinResLevel + k) else acc) s).Cards.length
      = s.Cards.length) ∧
    ∀ j : Nat,
      ((((idxs.foldl (fun acc k =>
        if lo ≤ MinResLevel + k ∧ MinResLevel + k ≤ hi
        then acc.FreeMipLevel i (MinResLevel + k) else acc) s).GetCard j
        ).SurfaceMipMaps).length = ((s.GetCard j).SurfaceMipMaps).length) := by
  refine foldl_induction (fun (acc : FLumenSceneData) k =>
      if lo ≤ MinResLevel + k ∧ MinResLevel + k ≤ hi
      then acc.FreeMipLevel i (MinResLevel + k) else acc)
    (fun x => x.Cards.length = s.Cards.length ∧ ∀ j : Nat,
      ((x.GetCard j).SurfaceMipMaps).length = ((s.GetCard j).SurfaceMipMaps).length) _ _
    ⟨rfl, fun _ => rfl⟩ ?_
  rintro a b ⟨h1, h2⟩
  dsimp only
  by_cases hw : lo ≤ MinResLevel + b ∧ MinResLevel + b ≤ hi
  · rw [if_pos hw]
    exact ⟨((shape_FreeMipLevel a i (MinResLevel + b)).1).trans h1,
      fun j => (((shape_FreeMipLevel a i (MinResLevel + b)).2 j)).trans (h2 j)⟩
  · rw [if_neg hw]
    exact ⟨h1, h2⟩

theorem shape_FreeVirtualSurface (s : FLumenSceneData) (i lo hi : Nat) :
    (s.FreeVirtualSurface i lo hi).Cards.length = s.Cards.length ∧
    ∀ j : Nat, (((s.FreeVirtualSurface i lo hi).GetCard j).SurfaceMipMaps).length =
      ((s.GetCard j).SurfaceMipMaps).length := by
  simp only [FLumenSceneData.FreeVirtualSurface]
  constructor
  · exact (Cards_length_SetCard _ _ _).trans (shape_freeFold s i lo hi _).1
  · intro j
    exact (mipsLen_SetCard _ i _ (by simp [FLumenCard.UpdateMinMaxAllocatedLevel]) j).trans
      ((shape_freeFold s i lo hi _).2 j)

/-- Setting the unlocked heap leaves every card unchanged. -/
theorem GetCard_heapSet (s : FLumenSceneData) (h : List FHeapEntry) (j : Nat) :
    ({ s with UnlockedAllocationHeap := h }).GetCard j = s.GetCard j := rfl

theorem shape_ReallocVirtualSurface (s : FLumenSceneData) (i lvl : Nat) (b : Bool) :
    (s.ReallocVirtualSurface i lvl b).Cards.length = s.Cards.length ∧
    ∀ j : Nat, (((s.ReallocVirtualSurface i lvl b).GetCard j).SurfaceMipMaps).length =
      ((s.GetCard j).SurfaceMipMaps).length := by
  simp only [FLumenSceneData.ReallocVirtualSurface]
  split
  · split
    · constructor
      · exact ((Cards_length_SetCard _ _ _).trans ((Cards_length_SetCard _ _ _)))
      · intro j
        refine (mipsLen_SetCard _ i _ (by simp [FLumenCard.UpdateMinMaxAllocatedLevel]) j).trans ?_
        rw [GetCard_heapSet]
        exact mipsLen_SetCard _ i _ (by simp [FLumenCard.SetMipMap]) j
    · constructor
      · exact ((Cards_length_SetCard _ _ _).trans ((Cards_length_SetCard _ _ _)))
      · intro j
        exact (mipsLen_SetCard _ i _ (by simp [FLumenCard.UpdateMinMaxAllocatedLevel]) j).trans
          (mipsLen_SetCard _ i _ (by simp [FLumenCard.SetMipMap]) j)
  · constructor
    · exact ((Cards_length_SetCard _ _ _).trans ((Cards_length_SetCard _ _ _)))
    · intro j
      exact (mipsLen_SetCard _ i _ (by simp [FLumenCard.UpdateMinMaxAllocatedLevel]) j).trans
        (mipsLen_SetCard _ i _ (by simp [FLumenCard.SetMipMap]) j)

theorem SameAllocation_unmapFold (s : FLumenSceneData) (i lvl n : Nat) :
    SameAllocation s ((List.range n).foldl (fun acc p => acc.UnmapPage i lvl p) s) :=
  foldl_induction (fun acc p => FLumenSceneData.UnmapPage acc i lvl p)
    (SameAllocation s) _ _ (SameAllocation.arefl s)
    (fun a b ha => ha.atrans (SameAllocation_UnmapPage a i lvl b))

/-- Replacing one mip slot leaves the allocation flags of slots at any
other index, and of all slots when the card index is invalid,
unchanged (stated against any allocation-equal base scene). -/
theorem AllocLocked_SetMipTail (s s2 : FLumenSceneData) (i lvl lvl2 : Nat)
    (m : FLumenSurfaceMipMap) (hsa : SameAllocation s s2)
    (h : ¬ lvl - MinResLevel = lvl2 - MinResLevel) :
    ((((s2.SetCard i ((s2.GetCard i).SetMipMap lvl m)).GetCard i).GetMipMap lvl2
      ).bAllocated = ((s.GetCard i).GetMipMap lvl2).bAllocated) ∧
    ((((s2.SetCard i ((s2.GetCard i).SetMipMap lvl m)).GetCard i).GetMipMap lvl2
      ).bLocked = ((s.GetCard i).GetMipMap lvl2).bLocked) := by
  by_cases hin : i < s2.Cards.length
  · rw [GetCard_SetCard_self _ _ _ hin, GetMipMap_SetMipMap, if_neg (by tauto)]
    exact ⟨((hsa i).2.2.2.2 lvl2).1, ((hsa i).2.2.2.2 lvl2).2⟩
  · rw [GetCard_SetCard_out _ _ _ hin]
    exact ⟨((hsa i).2.2.2.2 lvl2).1, ((hsa i).2.2.2.2 lvl2).2⟩

/-- Clearing one mip slot makes that slot unallocated, irrespective of
range validity. -/
theorem Alloc_SetMipTail_self (s2 : FLumenSceneData) (i lvl : Nat)
    (m : FLumenSurfaceMipMap) (hm : m.bAllocated = false) :
    (((s2.SetCard i ((s2.GetCard i).SetMipMap lvl m)).GetCard i).GetMipMap lvl
      ).bAllocated = false := by
  by_cases hin : i < s2.Cards.length
  · rw [GetCard_SetCard_self _ _ _ hin, GetMipMap_SetMipMap]
    split
    · exact hm
    next hcond =>
      rw [not_and] at hcond
      simp only [FLumenCard.GetMipMap]
      rw [getD_out_of_range _ _ _ (by have := hcond rfl; omega)]
      rfl
  · rw [GetCard_SetCard_out _ _ _ hin, GetCard_out _ _ (by omega)]
    rfl

theorem Alloc_FreeMipLevel_self (s : FLumenSceneData) (i lvl : Nat) :
    (((s.FreeMipLevel i lvl).GetCard i).GetMipMap lvl).bAllocated = false := by
  simp only [FLumenSceneData.FreeMipLevel]
  exact Alloc_SetMipTail_self _ i lvl {} rfl

theorem AllocLocked_FreeMipLevel_other (s : FLumenSceneData) (i lvl lvl2 : Nat)
    (h : ¬ lvl - MinResLevel = lvl2 - MinResLevel) :
    ((((s.FreeMipLevel i lvl).GetCard i).GetMipMap lvl2).bAllocated =
      ((s.GetCard i).GetMipMap lvl2).bAllocated) ∧
    ((((s.FreeMipLevel i lvl).GetCard i).GetMipMap lvl2).bLocked =
      ((s.GetCard i).GetMipMap lvl2).bLocked) := by
  simp only [FLumenSceneData.FreeMipLevel]
  exact AllocLocked_SetMipTail s _ i lvl lvl2 {} (SameAllocation_unmapFold s i lvl _) h


/-- The free fold leaves a level untouched when its index is either not
processed or outside the freed window. -/
theorem AllocLocked_freeFold_preserve (i lo hi lvl : Nat) (h3 : MinResLevel ≤ lvl) :
    ∀ (idxs : List Nat) (s : FLumenSceneData),
      (lvl - MinResLevel ∈ idxs → ¬ (lo ≤ lvl ∧ lvl ≤ hi)) →
      ((((idxs.foldl (fun acc k =>
          if lo ≤ MinResLevel + k ∧ MinResLevel + k ≤ hi
          then acc.FreeMipLevel i (MinResLevel + k) else acc) s).GetCard i
          ).GetMipMap lvl).bAllocated = ((s.GetCard i).GetMipMap lvl).bAllocated) ∧
      ((((idxs.foldl (fun acc k =>
          if lo ≤ MinResLevel + k ∧ MinResLevel + k ≤ hi
          then acc.FreeMipLevel i (MinResLevel + k) else acc) s).GetCard i
          ).GetMipMap lvl).bLocked = ((s.GetCard i).GetMipMap lvl).bLocked)
  | [], s, _ => ⟨rfl, rfl⟩
  | k :: rest, s, hnw => by
    simp only [List.foldl_cons]
    by_cases hw : lo ≤ MinResLevel + k ∧ MinResLevel + k ≤ hi
    · rw [if_pos hw]
      by_cases hk : k = lvl - MinResLevel
      · exfalso
        have hlvl : MinResLevel + k = lvl := by omega
        exact hnw (by simp [hk]) (hlvl ▸ hw)
      · have hstep := AllocLocked_FreeMipLevel_other s i (MinResLevel + k) lvl (by omega)
        have ih := AllocLocked_freeFold_preserve i lo hi lvl h3 rest
          (s.FreeMipLevel i (MinResLevel + k)) (fun hm => hnw (by simp [hm]))
        exact ⟨ih.1.trans hstep.1, ih.2.trans hstep.2⟩
    · rw [if_neg hw]
      exact AllocLocked_freeFold_preserve i lo hi lvl h3 rest s
        (fun hm => hnw (by simp [hm]))

/-- The free fold clears a processed level inside the freed window. -/
theorem Alloc_freeFold_free (i lo hi lvl : Nat) (h3 : MinResLevel ≤ lvl)
    (hlo : lo ≤ lvl) (hhi : lvl ≤ hi) :
    ∀ (idxs : List Nat) (s : FLumenSceneData), idxs.Nodup →
      lvl - MinResLevel ∈ idxs →
      (((idxs.foldl (fun acc k =>
        if lo ≤ MinResLevel + k ∧ MinResLevel + k ≤ hi
        then acc.FreeMipLevel i (MinResLevel + k) else acc) s).GetCard i
        ).GetMipMap lvl).bAllocated = false
  | [], _, _, hmem => by simp at hmem
  | k :: rest, s, hnd, hmem => by
    simp only [List.foldl_cons]
    by_cases hk : k = lvl - MinResLevel
    · subst hk
      have hl : MinResLevel + (lvl - MinResLevel) = lvl := by omega
      rw [hl, if_pos ⟨hlo, hhi⟩]
      have hnotin : ¬ lvl - MinResLevel ∈ rest := by
        have hnd2 := List.nodup_cons.mp hnd
        exact hnd2.1
      have hpres := AllocLocked_freeFold_preserve i lo hi lvl h3 rest
        (s.FreeMipLevel i lvl) (fun hm => absurd hm hnotin)
      rw [hpres.1]
      exact Alloc_FreeMipLevel_self s i lvl
    · have hmem2 : lvl - MinResLevel ∈ rest := by
        rcases List.mem_cons.mp hmem with h | h
        · exact absurd h.symm hk
        · exact h
      by_cases hw : lo ≤ MinResLevel + k ∧ MinResLevel + k ≤ hi
      · rw [if_pos hw]
        exact Alloc_freeFold_free i lo hi lvl h3 hlo hhi rest _
          (List.Nodup.of_cons hnd) hmem2
      · rw [if_neg hw]
        exact Alloc_freeFold_free i lo hi lvl h3 hlo hhi rest s
          (List.Nodup.of_cons hnd) hmem2

/-- The final min/max refresh of the allocator operations does not move
mip slots. -/
theorem GetMipMap_updateTail (s2 : FLumenSceneData) (i lvl : Nat) :
    (((s2.SetCard i (s2.GetCard i).UpdateMinMaxAllocatedLevel).GetCard i
      ).GetMipMap lvl) = ((s2.GetCard i).GetMipMap lvl) := by
  by_cases hin : i < s2.Cards.length
  · rw [GetCard_SetCard_self _ _ _ hin]; rfl
  · rw [GetCard_SetCard_out _ _ _ hin]

/-- After the final min/max refresh the cached min level agrees with
the slots. -/
theorem Min_updateTail (s2 : FLumenSceneData) (i : Nat) :
    ((s2.SetCard i (s2.GetCard i).UpdateMinMaxAllocatedLevel).GetCard i
      ).MinAllocatedResLevel =
    MinAllocatedLevelOf
      (((s2.SetCard i (s2.GetCard i).UpdateMinMaxAllocatedLevel).GetCard i
        ).SurfaceMipMaps) := by
  by_cases hin : i < s2.Cards.length
  · rw [GetCard_SetCard_self _ _ _ hin]; rfl
  · rw [GetCard_SetCard_out _ _ _ hin, GetCard_out _ _ (by omega)]
    rfl

/-- `FreeVirtualSurface` clears every slot of the freed window. -/
theorem Alloc_FreeVirtualSurface_in (s : FLumenSceneData) (i lo hi lvl : Nat)
    (h3 : MinResLevel ≤ lvl) (h11 : lvl ≤ MaxResLevel)
    (hlo : lo ≤ lvl) (hhi : lvl ≤ hi) :
    (((s.FreeVirtualSurface i lo hi).GetCard i).GetMipMap lvl).bAllocated = false := by
  simp only [FLumenSceneData.FreeVirtualSurface]
  rw [GetMipMap_updateTail]
  exact Alloc_freeFold_free i lo hi lvl h3 hlo hhi (List.range NumResLevels) s
    (List.nodup_range _) (by simp only [List.mem_range, NumResLevels, MinResLevel,
      MaxResLevel] at h3 h11 ⊢; omega)

/-- `FreeVirtualSurface` leaves slots outside the freed window as they
were. -/
theorem AllocLocked_FreeVirtualSurface_out (s : FLumenSceneData) (i lo hi lvl : Nat)
    (h3 : MinResLevel ≤ lvl) (hw : ¬ (lo ≤ lvl ∧ lvl ≤ hi)) :
    ((((s.FreeVirtualSurface i lo hi).GetCard i).GetMipMap lvl).bAllocated =
      ((s.GetCard i).GetMipMap lvl).bAllocated) ∧
    ((((s.FreeVirtualSurface i lo hi).GetCard i).GetMipMap lvl).bLocked =
      ((s.GetCard i).GetMipMap lvl).bLocked) := by
  simp only [FLumenSceneData.FreeVirtualSurface]
  rw [GetMipMap_updateTail]
  exact AllocLocked_freeFold_preserve i lo hi lvl h3 (List.range NumResLevels) s
    (fun _ => hw)

/-- After `FreeVirtualSurface` the cached min level agrees with the
slots. -/
theorem Min_FreeVirtualSurface (s : FLumenSceneData) (i lo hi : Nat) :
    ((s.FreeVirtualSurface i lo hi).GetCard i).MinAllocatedResLevel =
      MinAllocatedLevelOf (((s.FreeVirtualSurface i lo hi).GetCard i).SurfaceMipMaps) := by
  simp only [FLumenSceneData.FreeVirtualSurface]
  exact Min_updateTail _ i

/-- After `ReallocVirtualSurface` the cached min level agrees with the
slots. -/
theorem Min_ReallocVirtualSurface (s : FLumenSceneData) (i lvl : Nat) (b : Bool) :
    ((s.ReallocVirtualSurface i lvl b).GetCard i).MinAllocatedResLevel =
      MinAllocatedLevelOf
        (((s.ReallocVirtualSurface i lvl b).GetCard i).SurfaceMipMaps) := by
  simp only [FLumenSceneData.ReallocVirtualSurface]
  exact Min_updateTail _ i

/-- `ReallocVirtualSurface` leaves slots at other indices as they
were. -/
theorem AllocLocked_Realloc_other (s : FLumenSceneData) (i lvl lvl2 : Nat) (b : Bool)
    (h : ¬ lvl - MinResLevel = lvl2 - MinResLevel) :
    ((((s.ReallocVirtualSurface i lvl b).GetCard i).GetMipMap lvl2).bAllocated =
      ((s.GetCard i).GetMipMap lvl2).bAllocated) ∧
    ((((s.ReallocVirtualSurface i lvl b).GetCard i).GetMipMap lvl2).bLocked =
      ((s.GetCard i).GetMipMap lvl2).bLocked) := by
  simp only [FLumenSceneData.ReallocVirtualSurface]
  rw [GetMipMap_updateTail]
  split
  · split
    · rw [GetCard_heapSet]
      exact AllocLocked_SetMipTail s s i lvl lvl2 _ (SameAllocation.arefl s) h
    · exact AllocLocked_SetMipTail s s i lvl lvl2 _ (SameAllocation.arefl s) h
  · exact AllocLocked_SetMipTail s s i lvl lvl2 _ (SameAllocation.arefl s) h

/-- A locked `ReallocVirtualSurface` leaves the requested slot
allocated and locked. -/
theorem Alloc_Realloc_self (s : FLumenSceneData) (i lvl : Nat)
    (hin : i < s.Cards.length)
    (hlen : lvl - MinResLevel < ((s.GetCard i).SurfaceMipMaps).length) :
    ((((s.ReallocVirtualSurface i lvl true).GetCard i).GetMipMap lvl).bAllocated
      = true) ∧
    ((((s.ReallocVirtualSurface i lvl true).GetCard i).GetMipMap lvl).bLocked
      = true) := by
  simp only [FLumenSceneData.ReallocVirtualSurface]
  rw [GetMipMap_updateTail]
  split
  next hm =>
    rw [if_pos trivial, GetCard_heapSet, GetCard_SetCard_self _ _ _ hin,
      GetMipMap_SetMipMap, if_pos ⟨rfl, hlen⟩]
    exact ⟨hm, rfl⟩
  next hm =>
    rw [GetCard_SetCard_self _ _ _ hin, GetMipMap_SetMipMap, if_pos ⟨rfl, hlen⟩]
    exact ⟨rfl, rfl⟩

/-- The first allocated index bounds every allocated index from
below. -/
theorem MinAllocatedIdx_below {mips : List FLumenSurfaceMipMap} {j : Nat}
    (hj : j < mips.length) (halloc : (mips.getD j default).bAllocated = true) :
    ∃ i, MinAllocatedIdx mips = some i ∧ i ≤ j := by
  induction mips generalizing j with
  | nil => simp at hj
  | cons m rest ih =>
    by_cases hm : m.bAllocated = true
    · exact ⟨0, by simp [MinAllocatedIdx, hm], Nat.zero_le j⟩
    · simp only [Bool.not_eq_true] at hm
      cases j with
      | zero =>
        simp only [List.getD_cons_zero] at halloc
        rw [hm] at halloc
        exact absurd halloc (by decide)
      | succ j0 =>
        obtain ⟨i0, hi0, hle⟩ := ih (by simpa using Nat.lt_of_succ_lt_succ (by simpa using hj))
          (by simpa using halloc)
        exact ⟨i0 + 1, by simp [MinAllocatedIdx, hm, hi0], by omega⟩

/-- The first allocated index is the unique index that is allocated
with everything below it unallocated. -/
theorem MinAllocatedIdx_eq {mips : List FLumenSurfaceMipMap} {k : Nat}
    (hk : k < mips.length) (halloc : (mips.getD k default).bAllocated = true)
    (hbelow : ∀ j, j < k → (mips.getD j default).bAllocated = false) :
    MinAllocatedIdx mips = some k := by
  induction mips generalizing k with
  | nil => simp at hk
  | cons m rest ih =>
    cases k with
    | zero =>
      simp only [List.getD_cons_zero] at halloc
      simp [MinAllocatedIdx, halloc]
    | succ k0 =>
      have hm : m.bAllocated = false := by
        have h0 := hbelow 0 (Nat.succ_pos k0)
        simpa using h0
      have hidx := ih (by simpa using Nat.lt_of_succ_lt_succ (by simpa using hk))
        (by simpa using halloc)
        (fun j hj => by simpa using hbelow (j + 1) (by omega))
      simp [MinAllocatedIdx, hm, hidx]


/-- Combined effect of the free-free-realloc sequence of the locked
commit: every level strictly coarser than the committed one ends up
unallocated, the old min slot (when distinct) is freed, the committed
level is a locked allocation, and the card's min level lands exactly on
the committed level. -/
theorem FreeFreeRealloc_effect (ri newLvl oldMin : Nat) (s2 s3 s4 s5 : FLumenSceneData)
    (hOM : oldMin = (s2.GetCard ri).MinAllocatedResLevel)
    (hs3 : s3 = s2.FreeVirtualSurface ri oldMin oldMin)
    (hs4 : s4 = s3.FreeVirtualSurface ri
      ((s3.GetCard ri).MinAllocatedResLevel) (newLvl - 1))
    (hs5 : s5 = s4.ReallocVirtualSurface ri newLvl true)
    (hri : ri < s2.Cards.length)
    (hlen : ((s2.GetCard ri).SurfaceMipMaps).length = NumResLevels)
    (hmin : (s2.GetCard ri).MinAllocatedResLevel =
      MinAllocatedLevelOf ((s2.GetCard ri).SurfaceMipMaps))
    (hlo : MinResLevel ≤ newLvl) (hhi : newLvl ≤ MaxResLevel) :
    (∀ lvl, MinResLevel ≤ lvl → lvl < newLvl →
      ((s5.GetCard ri).GetMipMap lvl).bAllocated = false) ∧
    (oldMin ≠ newLvl →
      ((s5.GetCard ri).GetMipMap oldMin).bAllocated = false) ∧
    ((s5.GetCard ri).GetMipMap newLvl).bAllocated = true ∧
    ((s5.GetCard ri).GetMipMap newLvl).bLocked = true ∧
    (s5.GetCard ri).MinAllocatedResLevel = newLvl := by
  have hc1 : MinResLevel = 3 := rfl
  have hc2 : MaxResLevel = 11 := rfl
  have hc3 : NumResLevels = 9 := rfl
  have hc4 : UINT8_MAX = 255 := rfl
  have hmin3 : (s3.GetCard ri).MinAllocatedResLevel =
      MinAllocatedLevelOf ((s3.GetCard ri).SurfaceMipMaps) := by
    rw [hs3]; exact Min_FreeVirtualSurface s2 ri oldMin oldMin
  have hlen3 : ((s3.GetCard ri).SurfaceMipMaps).length = NumResLevels := by
    rw [hs3]; exact ((shape_FreeVirtualSurface s2 ri oldMin oldMin).2 ri).trans hlen
  have hlen4 : ((s4.GetCard ri).SurfaceMipMaps).length = NumResLevels := by
    rw [hs4]
    exact ((shape_FreeVirtualSurface s3 ri _ _).2 ri).trans hlen3
  have hlen5 : ((s5.GetCard ri).SurfaceMipMaps).length = NumResLevels := by
    rw [hs5]
    exact ((shape_ReallocVirtualSurface s4 ri newLvl true).2 ri).trans hlen4
  have hri4 : ri < s4.Cards.length := by
    rw [hs4, (shape_FreeVirtualSurface s3 ri _ _).1, hs3,
      (shape_FreeVirtualSurface s2 ri oldMin oldMin).1]
    exact hri
  have hS5eq : ∀ lvl2, MinResLevel ≤ lvl2 → lvl2 ≠ newLvl →
      ((s5.GetCard ri).GetMipMap lvl2).bAllocated =
        ((s4.GetCard ri).GetMipMap lvl2).bAllocated := by
    intro lvl2 h3 hne
    rw [hs5]
    exact (AllocLocked_Realloc_other s4 ri newLvl lvl2 true (by omega)).1
  have ha : ∀ lvl, MinResLevel ≤ lvl → lvl < newLvl →
      ((s5.GetCard ri).GetMipMap lvl).bAllocated = false := by
    intro lvl h3 hlt
    rw [hS5eq lvl h3 (by omega)]
    by_cases hmw : (s3.GetCard ri).MinAllocatedResLevel ≤ lvl
    · rw [hs4]
      exact Alloc_FreeVirtualSurface_in s3 ri
        ((s3.GetCard ri).MinAllocatedResLevel) (newLvl - 1) lvl h3 (by omega) hmw
        (by omega)
    · rw [hs4, (AllocLocked_FreeVirtualSurface_out s3 ri
        ((s3.GetCard ri).MinAllocatedResLevel) (newLvl - 1) lvl h3
        (fun hcc => hmw hcc.1)).1]
      by_contra hcon
      simp only [Bool.not_eq_false] at hcon
      by_cases hr : lvl - MinResLevel < ((s3.GetCard ri).SurfaceMipMaps).length
      · obtain ⟨i0, hi0, hle⟩ := MinAllocatedIdx_below hr hcon
        have hEq : MinAllocatedLevelOf ((s3.GetCard ri).SurfaceMipMaps) =
            MinResLevel + i0 := by
          simp only [MinAllocatedLevelOf, hi0]
        rw [hEq] at hmin3
        omega
      · rw [FLumenCard.GetMipMap, getD_out_of_range _ _ _ (by omega)] at hcon
        exact absurd hcon (by decide)
  have hcNew : ((s5.GetCard ri).GetMipMap newLvl).bAllocated = true ∧
      ((s5.GetCard ri).GetMipMap newLvl).bLocked = true := by
    rw [hs5]
    exact Alloc_Realloc_self s4 ri newLvl hri4 (by omega)
  refine ⟨ha, ?_, hcNew.1, hcNew.2, ?_⟩
  · intro hneq
    cases hmi : MinAllocatedIdx ((s2.GetCard ri).SurfaceMipMaps) with
    | none =>
      have hz : oldMin = UINT8_MAX := by
        rw [hOM, hmin]
        simp only [MinAllocatedLevelOf, hmi]
      simp only [FLumenCard.GetMipMap]
      rw [getD_out_of_range _ _ _ (by omega)]
      rfl
    | some i0 =>
      have hi0len := (MinAllocatedIdx_some hmi).1
      have hOMv : oldMin = MinResLevel + i0 := by
        rw [hOM, hmin]
        simp only [MinAllocatedLevelOf, hmi]
      rw [hS5eq oldMin (by omega) hneq]
      by_cases hmw : (s3.GetCard ri).MinAllocatedResLevel ≤ oldMin ∧
          oldMin ≤ newLvl - 1
      · rw [hs4]
        exact Alloc_FreeVirtualSurface_in s3 ri
          ((s3.GetCard ri).MinAllocatedResLevel) (newLvl - 1) oldMin
          (by omega) (by omega) hmw.1 hmw.2
      · rw [hs4, (AllocLocked_FreeVirtualSurface_out s3 ri
          ((s3.GetCard ri).MinAllocatedResLevel) (newLvl - 1) oldMin
          (by omega) hmw).1, hs3]
        exact Alloc_FreeVirtualSurface_in s2 ri oldMin oldMin oldMin
          (by omega) (by omega) (Nat.le_refl oldMin) (Nat.le_refl oldMin)
  · have h9 : (s5.GetCard ri).MinAllocatedResLevel =
        MinAllocatedLevelOf ((s5.GetCard ri).SurfaceMipMaps) := by
      rw [hs5]; exact Min_ReallocVirtualSurface s4 ri newLvl true
    have hbelow : ∀ j, j < newLvl - MinResLevel →
        (((s5.GetCard ri).SurfaceMipMaps).getD j default).bAllocated = false := by
      intro j hj
      have hone := ha (MinResLevel + j) (by omega) (by omega)
      have hjj : MinResLevel + j - MinResLevel = j := by omega
      rw [FLumenCard.GetMipMap, hjj] at hone
      exact hone
    have hidx : MinAllocatedIdx ((s5.GetCard ri).SurfaceMipMaps) =
        some (newLvl - MinResLevel) :=
      MinAllocatedIdx_eq (by omega) hcNew.1 hbelow
    rw [h9]
    simp only [MinAllocatedLevelOf, hidx]
    omega


/-- **C7.** When the locked commit reallocates a card at a (different)
level `newLvl`, the committed scene leaves every level strictly coarser
than `newLvl` unallocated, frees the slot at the card's previous
minimum allocated level, installs a locked allocation at `newLvl`, and
sets the card's minimum allocated level to exactly `newLvl` — so the
card never ends up holding two overlapping lowest-resident levels. -/
theorem C7_realloc_frees_coarser (r : FSurfaceCacheRequest) (newLvl : Nat)
    (s1 : FLumenSceneData)
    (hri : r.CardIndex < s1.Cards.length)
    (hlen : ((s1.GetCard r.CardIndex).SurfaceMipMaps).length = NumResLevels)
    (hmin : (s1.GetCard r.CardIndex).MinAllocatedResLevel =
      MinAllocatedLevelOf ((s1.GetCard r.CardIndex).SurfaceMipMaps))
    (hlo : MinResLevel ≤ newLvl) (hhi : newLvl ≤ MaxResLevel) :
    (∀ lvl, MinResLevel ≤ lvl → lvl < newLvl →
      (((LockedCommitScene r newLvl s1).GetCard r.CardIndex).GetMipMap lvl
        ).bAllocated = false) ∧
    ((s1.GetCard r.CardIndex).MinAllocatedResLevel ≠ newLvl →
      (((LockedCommitScene r newLvl s1).GetCard r.CardIndex).GetMipMap
        ((s1.GetCard r.CardIndex).MinAllocatedResLevel)).bAllocated = false) ∧
    (((LockedCommitScene r newLvl s1).GetCard r.CardIndex).GetMipMap newLvl
      ).bAllocated = true ∧
    (((LockedCommitScene r newLvl s1).GetCard r.CardIndex).GetMipMap newLvl
      ).bLocked = true ∧
    ((LockedCommitScene r newLvl s1).GetCard r.CardIndex).MinAllocatedResLevel
      = newLvl := by
  have h2c : (s1.SetCard r.CardIndex (LockedCommitCard r s1)).GetCard r.CardIndex
      = LockedCommitCard r s1 := GetCard_SetCard_self _ _ _ hri
  exact FreeFreeRealloc_effect r.CardIndex newLvl
    ((LockedCommitCard r s1).MinAllocatedResLevel)
    (s1.SetCard r.CardIndex (LockedCommitCard r s1)) _ _ _
    (by rw [h2c]) rfl rfl rfl
    (by rw [Cards_length_SetCard]; exact hri)
    (by rw [h2c]; exact hlen)
    (by rw [h2c]; exact hmin)
    hlo hhi

/-- A one-card scene holding a locked level-3 allocation, about to be
reallocated at level 4. -/
def c7Card : FLumenCard :=
  { bVisible := true
    MinAllocatedResLevel := 3
    MaxAllocatedResLevel := 3
    DesiredLockedResLevel := 3
    SurfaceMipMaps := { bAllocated := true, bLocked := true, mapped := [true] } ::
      List.replicate 8 {}
    MipNumPages := [1, 2, 4, 8, 16, 32, 64, 128, 256]
    MipPageTexels := List.replicate 9 1 }

def c7Scene : FLumenSceneData :=
  { Cards := [c7Card]
    FreePhysicalPages := 16
    SurfaceCacheUpdateFrameIndex := 5 }

def c7req : FSurfaceCacheRequest :=
  { CardIndex := 0, ResLevel := 4 }

/-- Witness: C7 evaluated on a concrete level-3-to-level-4 locked
reallocation. -/
theorem C7_witness :
    (((LockedCommitScene c7req 4 c7Scene).GetCard 0).GetMipMap 3).bAllocated = false ∧
    ((LockedCommitScene c7req 4 c7Scene).GetCard 0).MinAllocatedResLevel = 4 :=
  ⟨(C7_realloc_frees_coarser c7req 4 c7Scene (by decide) (by decide) (by decide)
      (by decide) (by decide)).1 3 (by decide) (by decide),
   (C7_realloc_frees_coarser c7req 4 c7Scene (by decide) (by decide) (by decide)
      (by decide) (by decide)).2.2.2.2⟩

end LumenSurfaceCacheProof

namespace LumenSurfaceCacheProof

/-! ## C1: capture budgets -/

/-- Bound on the page counts of one card: every mip span consists of at
most `P` pages, both in the modelled geometry and in the resident page
flags. -/
def CardPageBound (P : Nat) (c : FLumenCard) : Prop :=
  (∀ n ∈ c.MipNumPages, n ≤ P) ∧ (∀ m ∈ c.SurfaceMipMaps, m.mapped.length ≤ P)

/-- Bound on the page counts of every card of a scene. -/
def ScenePageBound (P : Nat) (s : FLumenSceneData) : Prop :=
  ∀ c ∈ s.Cards, CardPageBound P c

instance instDecCardPageBound (P : Nat) (c : FLumenCard) :
    Decidable (CardPageBound P c) := by
  unfold CardPageBound; infer_instance

instance instDecScenePageBound (P : Nat) (s : FLumenSceneData) :
    Decidable (ScenePageBound P s) := by
  unfold ScenePageBound; infer_instance

theorem SPB_GetCard {P : Nat} {s : FLumenSceneData} (h : ScenePageBound P s)
    (i : Nat) : CardPageBound P (s.GetCard i) := by
  simp only [FLumenSceneData.GetCard]
  rcases getD_eq_of_mem_or s.Cards i default with hm | hm
  · exact h _ hm
  · rw [hm]
    exact ⟨by simp [default], by simp [default]⟩

theorem CPB_getD_mip {P : Nat} {c : FLumenCard} (h : CardPageBound P c) (lvl : Nat) :
    ((c.GetMipMap lvl).mapped).length ≤ P := by
  simp only [FLumenCard.GetMipMap]
  rcases getD_eq_of_mem_or c.SurfaceMipMaps (lvl - MinResLevel) default with hm | hm
  · exact h.2 _ hm
  · rw [hm]; simp [default]

theorem CPB_numPages {P : Nat} {c : FLumenCard} (h : CardPageBound P c) (lvl : Nat) :
    c.NumPagesAt lvl ≤ P := by
  simp only [FLumenCard.NumPagesAt]
  rcases getD_eq_of_mem_or c.MipNumPages (lvl - MinResLevel) 0 with hm | hm
  · exact h.1 _ hm
  · rw [hm]; exact Nat.zero_le P

theorem CPB_SetMipMap {P : Nat} {c : FLumenCard} {m : FLumenSurfaceMipMap}
    (h : CardPageBound P c) (hm : m.mapped.length ≤ P) (lvl : Nat) :
    CardPageBound P (c.SetMipMap lvl m) := by
  refine ⟨h.1, fun m2 hm2 => ?_⟩
  rcases mem_of_mem_set hm2 with h2 | h2
  · exact h.2 m2 h2
  · rw [h2]; exact hm

theorem SPB_SetCard {P : Nat} {s : FLumenSceneData} {c : FLumenCard} {i : Nat}
    (h : ScenePageBound P s) (hc : CardPageBound P c) :
    ScenePageBound P (s.SetCard i c) := by
  intro c2 hc2
  rcases mem_of_mem_set hc2 with h2 | h2
  · exact h c2 h2
  · rw [h2]; exact hc

theorem SPB_UnmapPage {P : Nat} {s : FLumenSceneData} (h : ScenePageBound P s)
    (i lvl p : Nat) : ScenePageBound P (s.UnmapPage i lvl p) :=
  SPB_SetCard h (CPB_SetMipMap (SPB_GetCard h i)
    (by simpa using CPB_getD_mip (SPB_GetCard h i) lvl) lvl)

theorem SPB_unmapFold {P : Nat} {s : FLumenSceneData} (h : ScenePageBound P s)
    (i lvl n : Nat) :
    ScenePageBound P ((List.range n).foldl (fun acc p => acc.UnmapPage i lvl p) s) :=
  foldl_induction (fun acc p => FLumenSceneData.UnmapPage acc i lvl p)
    (ScenePageBound P) _ _ h (fun _ b ha => SPB_UnmapPage ha i lvl b)

theorem SPB_FreeMipLevel {P : Nat} {s : FLumenSceneData} (h : ScenePageBound P s)
    (i lvl : Nat) : ScenePageBound P (s.FreeMipLevel i lvl) := by
  simp only [FLumenSceneData.FreeMipLevel]
  exact SPB_SetCard (SPB_unmapFold h i lvl _)
    (CPB_SetMipMap (SPB_GetCard (SPB_unmapFold h i lvl _) i) (by simp) lvl)

theorem SPB_freeFold {P : Nat} (i lo hi : Nat) :
    ∀ (idxs : List Nat) (s : FLumenSceneData), ScenePageBound P s →
      ScenePageBound P (idxs.foldl (fun acc k =>
        if lo ≤ MinResLevel + k ∧ MinResLevel + k ≤ hi
        then acc.FreeMipLevel i (MinResLevel + k) else acc) s)
  | [], _, h => h
  | k :: rest, s, h => by
    simp only [List.foldl_cons]
    by_cases hw : lo ≤ MinResLevel + k ∧ MinResLevel + k ≤ hi
    · rw [if_pos hw]
      exact SPB_freeFold i lo hi rest _ (SPB_FreeMipLevel h i (MinResLevel + k))
    · rw [if_neg hw]
      exact SPB_freeFold i lo hi rest s h

theorem SPB_FreeVirtualSurface {P : Nat} {s : FLumenSceneData} (h : ScenePageBound P s)
    (i lo hi : Nat) : ScenePageBound P (s.FreeVirtualSurface i lo hi) := by
  simp only [FLumenSceneData.FreeVirtualSurface]
  exact SPB_SetCard (SPB_freeFold i lo hi _ s h)
    (SPB_GetCard (SPB_freeFold i lo hi _ s h) i)

theorem SPB_ReallocVirtualSurface {P : Nat} {s : FLumenSceneData}
    (h : ScenePageBound P s) (i lvl : Nat) (b : Bool) :
    ScenePageBound P (s.ReallocVirtualSurface i lvl b) := by
  simp only [FLumenSceneData.ReallocVirtualSurface]
  split
  · split
    · refine SPB_SetCard ?_ (SPB_GetCard ?_ i) <;>
        exact SPB_SetCard h (CPB_SetMipMap (SPB_GetCard h i)
          (by simpa using CPB_getD_mip (SPB_GetCard h i) lvl) lvl)
    · refine SPB_SetCard ?_ (SPB_GetCard ?_ i) <;>
        exact SPB_SetCard h (CPB_SetMipMap (SPB_GetCard h i)
          (by simpa using CPB_getD_mip (SPB_GetCard h i) lvl) lvl)
  · refine SPB_SetCard ?_ (SPB_GetCard ?_ i) <;>
      exact SPB_SetCard h (CPB_SetMipMap (SPB_GetCard h i)
        (by simpa using CPB_numPages (SPB_GetCard h i) lvl) lvl)

theorem SPB_MapSurfaceCachePage {P : Nat} {s : FLumenSceneData}
    (h : ScenePageBound P s) (i lvl p : Nat) :
    ScenePageBound P (s.MapSurfaceCachePage i lvl p) := by
  simp only [FLumenSceneData.MapSurfaceCachePage]
  split
  · exact h
  · exact SPB_SetCard h (CPB_SetMipMap (SPB_GetCard h i)
      (by simpa using CPB_getD_mip (SPB_GetCard h i) lvl) lvl)

theorem SPB_CapturePage {P : Nat} (b : Bool) (i lvl p : Nat) (ps : CapturePassState)
    (h : ScenePageBound P ps.Scene) :
    ScenePageBound P (CapturePage b i lvl p ps).Scene := by
  simp only [CapturePage]
  split
  · exact h
  · split
    · exact SPB_MapSurfaceCachePage h i lvl p
    · exact h

theorem SPB_EvictOldestAllocation {P : Nat} {s s2 : FLumenSceneData} {maxAge d : Nat}
    (h : ScenePageBound P s) (hev : s.EvictOldestAllocation maxAge = some (s2, d)) :
    ScenePageBound P s2 := by
  unfold FLumenSceneData.EvictOldestAllocation at hev
  cases hm : FindMinEntry s.UnlockedAllocationHeap with
  | none => rw [hm] at hev; simp at hev
  | some e =>
    rw [hm] at hev
    by_cases hage : maxAge < s.SurfaceCacheUpdateFrameIndex - e.Key
    · simp only [if_pos hage, Option.some.injEq, Prod.mk.injEq] at hev
      exact hev.1 ▸ SPB_UnmapPage h e.CardIndex e.ResLevel e.LocalPageIndex
    · simp [if_neg hage] at hev

theorem SPB_EvictLoop {P maxAge i lvl : Nat} {b : Bool} :
    ∀ (fuel : Nat) (s : FLumenSceneData) (dirty : List Nat), ScenePageBound P s →
      ScenePageBound P (EvictLoop maxAge i lvl b fuel s dirty).2.1
  | 0, _, _, h => h
  | fuel + 1, s, dirty, h => by
    simp only [EvictLoop]
    split
    · exact h
    · cases hev : s.EvictOldestAllocation maxAge with
      | none => exact h
      | some pr =>
        exact SPB_EvictLoop fuel pr.1 _ (SPB_EvictOldestAllocation h (by rw [hev]))

theorem SPB_RunEvictLoop {P : Nat} (maxAge i lvl : Nat) (b : Bool)
    {s : FLumenSceneData} (dirty : List Nat) (h : ScenePageBound P s) :
    ScenePageBound P (RunEvictLoop maxAge i lvl b s dirty).2.1 :=
  SPB_EvictLoop _ s dirty h


theorem SPB_LockedCommitScene {P : Nat} (r : FSurfaceCacheRequest) (newLvl : Nat)
    {s1 : FLumenSceneData} (h : ScenePageBound P s1) :
    ScenePageBound P (LockedCommitScene r newLvl s1) := by
  simp only [LockedCommitScene]
  refine SPB_ReallocVirtualSurface (SPB_FreeVirtualSurface
    (SPB_FreeVirtualSurface (SPB_SetCard h ?_) _ _ _) _ _ _) _ _ _
  exact SPB_GetCard h r.CardIndex

theorem SPB_captureFold {P : Nat} (bR : Bool) (i lvl : Nat) :
    ∀ (l : List Nat) (ps : CapturePassState), ScenePageBound P ps.Scene →
      ScenePageBound P ((l.foldl (fun acc p => CapturePage bR i lvl p acc) ps).Scene)
  | [], _, h => h
  | p :: rest, ps, h => by
    simp only [List.foldl_cons]
    exact SPB_captureFold bR i lvl rest _ (SPB_CapturePage bR i lvl p ps h)

theorem SPB_LockedCommit {P : Nat} (r : FSurfaceCacheRequest) (newLvl : Nat)
    {s1 : FLumenSceneData} (dirty1 : List Nat) (ps : CapturePassState)
    (h : ScenePageBound P s1) :
    ScenePageBound P (LockedCommit r newLvl s1 dirty1 ps).Scene := by
  simp only [LockedCommit]
  exact SPB_captureFold _ _ _ _ _ (SPB_LockedCommitScene r newLvl h)

theorem SPB_ProcessLockedRequest {P : Nat} (r : FSurfaceCacheRequest)
    (ps : CapturePassState) (h : ScenePageBound P ps.Scene) :
    ScenePageBound P (ProcessLockedRequest r ps).Scene := by
  simp only [ProcessLockedRequest]
  split
  · split <;> split
    · exact SPB_LockedCommit r _ _ ps (SPB_RunEvictLoop _ _ _ _ _ h)
    · exact SPB_RunEvictLoop _ _ _ _ _ h
    · exact SPB_LockedCommit r _ _ ps (SPB_RunEvictLoop _ _ _ _ _ h)
    · exact SPB_RunEvictLoop _ _ _ _ _ h
  · exact h

theorem SPB_ProcessOneRequest {P : Nat} (r : FSurfaceCacheRequest)
    (ps : CapturePassState) (h : ScenePageBound P ps.Scene) :
    ScenePageBound P (ProcessOneRequest r ps).Scene := by
  simp only [ProcessOneRequest]
  split
  · exact SPB_ProcessLockedRequest r ps h
  · split
    · split
      · exact h
      · exact h
    · exact h

/-- `CapturePage` never touches the hi-res admission list. -/
theorem hiRes_CapturePage (b : Bool) (i lvl p : Nat) (ps : CapturePassState) :
    (CapturePage b i lvl p ps).HiResPagesToMap = ps.HiResPagesToMap := by
  simp only [CapturePage]
  split
  · rfl
  · split
    · rfl
    · rfl

/-- A fold of page captures appends at most one render job per page and
keeps the hi-res admission list. -/
theorem jobs_captureFold (bR : Bool) (i lvl : Nat) :
    ∀ (l : List Nat) (ps : CapturePassState),
      (((l.foldl (fun acc p => CapturePage bR i lvl p acc) ps
        ).CardPagesToRender).length ≤ ps.CardPagesToRender.length + l.length) ∧
      ((l.foldl (fun acc p => CapturePage bR i lvl p acc) ps).HiResPagesToMap =
        ps.HiResPagesToMap)
  | [], ps => ⟨by simp, rfl⟩
  | p :: rest, ps => by
    simp only [List.foldl_cons, List.length_cons]
    have hstep : (CapturePage bR i lvl p ps).CardPagesToRender.length ≤
        ps.CardPagesToRender.length + 1 := by
      rcases CapturePage_render_append bR i lvl p ps with hc | hc
      · rw [hc]; omega
      · rw [hc]; simp
    have ih := jobs_captureFold bR i lvl rest (CapturePage bR i lvl p ps)
    refine ⟨by omega, ih.2.trans (hiRes_CapturePage bR i lvl p ps)⟩

/-- The locked commit appends at most `P` render jobs (one per page of
the committed mip span) and keeps the hi-res admission list. -/
theorem jobs_LockedCommit {P : Nat} (r : FSurfaceCacheRequest) (newLvl : Nat)
    {s1 : FLumenSceneData} (dirty1 : List Nat) (ps : CapturePassState)
    (h : ScenePageBound P s1) :
    ((LockedCommit r newLvl s1 dirty1 ps).CardPagesToRender.length ≤
      ps.CardPagesToRender.length + P) ∧
    ((LockedCommit r newLvl s1 dirty1 ps).HiResPagesToMap = ps.HiResPagesToMap) := by
  simp only [LockedCommit]
  have hP : (((LockedCommitScene r newLvl s1).GetCard r.CardIndex).GetMipMap
      (((LockedCommitScene r newLvl s1).GetCard r.CardIndex).MinAllocatedResLevel)
      ).mapped.length ≤ P :=
    CPB_getD_mip (SPB_GetCard (SPB_LockedCommitScene r newLvl h) r.CardIndex) _
  have hfold := jobs_captureFold ((LockedCommitCard r s1).IsAllocated) r.CardIndex
    (((LockedCommitScene r newLvl s1).GetCard r.CardIndex).MinAllocatedResLevel)
    (List.range ((((LockedCommitScene r newLvl s1).GetCard r.CardIndex).GetMipMap
      (((LockedCommitScene r newLvl s1).GetCard r.CardIndex).MinAllocatedResLevel)
      ).mapped.length))
    { ps with Scene := LockedCommitScene r newLvl s1, DirtyCards := dirty1 }
  refine ⟨?_, hfold.2⟩
  have hlenr := hfold.1
  simp only [List.length_range] at hlenr
  omega


/-- The locked branch of the request loop appends at most `P` render
jobs and keeps the hi-res admission list. -/
theorem jobs_ProcessLockedRequest {P : Nat} (r : FSurfaceCacheRequest)
    (ps : CapturePassState) (h : ScenePageBound P ps.Scene) :
    ((ProcessLockedRequest r ps).CardPagesToRender.length ≤
      ps.CardPagesToRender.length + P) ∧
    ((ProcessLockedRequest r ps).HiResPagesToMap = ps.HiResPagesToMap) := by
  simp only [ProcessLockedRequest]
  split
  · split <;> split
    · exact jobs_LockedCommit r _ _ ps (SPB_RunEvictLoop _ _ _ _ _ h)
    · exact ⟨Nat.le_add_right _ _, rfl⟩
    · exact jobs_LockedCommit r _ _ ps (SPB_RunEvictLoop _ _ _ _ _ h)
    · exact ⟨Nat.le_add_right _ _, rfl⟩
  · exact ⟨Nat.le_add_right _ _, rfl⟩

/-- One request grows `jobs + admitted hi-res pages` by at most `P`. -/
theorem sum_ProcessOneRequest {P : Nat} (hP : 1 ≤ P) (r : FSurfaceCacheRequest)
    (ps : CapturePassState) (h : ScenePageBound P ps.Scene) :
    (ProcessOneRequest r ps).CardPagesToRender.length +
      (ProcessOneRequest r ps).HiResPagesToMap.length ≤
      ps.CardPagesToRender.length + ps.HiResPagesToMap.length + P := by
  simp only [ProcessOneRequest]
  split
  · have hj := jobs_ProcessLockedRequest r ps h
    rw [hj.2]
    have := hj.1
    omega
  · split
    · split
      · simp only [List.length_append, List.length_cons, List.length_nil]
        omega
      · omega
    · omega

/-- The budgeted request loop: the scene bound is preserved and the
total of render jobs and admitted hi-res pages overshoots the
per-frame limit by less than one request's contribution. -/
theorem ProcessRequests_bound {P : Nat} (hP : 1 ≤ P) (maxTile : Nat) :
    ∀ (rs : List FSurfaceCacheRequest) (ps : CapturePassState),
      ScenePageBound P ps.Scene →
      ScenePageBound P (ProcessRequests maxTile rs ps).Scene ∧
      (ProcessRequests maxTile rs ps).CardPagesToRender.length +
        (ProcessRequests maxTile rs ps).HiResPagesToMap.length ≤
        max (ps.CardPagesToRender.length + ps.HiResPagesToMap.length + P)
            (maxTile - 1 + P)
  | [], ps, h => ⟨h, (Nat.le_add_right _ _).trans (le_max_left _ _)⟩
  | r :: rest, ps, h => by
    simp only [ProcessRequests]
    have h2 := SPB_ProcessOneRequest r ps h
    have hsum := sum_ProcessOneRequest hP r ps h
    split
    next hbr => exact ⟨h2, hsum.trans (le_max_left _ _)⟩
    next hbr =>
      have ih := ProcessRequests_bound hP maxTile rest (ProcessOneRequest r ps) h2
      refine ⟨ih.1, ?_⟩
      have hih := ih.2
      omega

/-- The hi-res mapping loop appends at most one render job per admitted
page. -/
theorem jobs_hiResFold :
    ∀ (l : List FVirtualPageIndex) (ps : CapturePassState),
      ((l.foldl (fun acc v => ProcessHiResPage v acc) ps).CardPagesToRender.length ≤
        ps.CardPagesToRender.length + l.length)
  | [], ps => by simp
  | v :: rest, ps => by
    simp only [List.foldl_cons, List.length_cons]
    have hstep : (ProcessHiResPage v ps).CardPagesToRender.length ≤
        ps.CardPagesToRender.length + 1 := by
      rcases ProcessHiResPage_single_page v ps with hc | ⟨job, hc, hpage⟩
      · rw [hc]; omega
      · rw [hc]; simp
    have ih := jobs_hiResFold rest (ProcessHiResPage v ps)
    omega

/-- The refresh loop appends at most `pagesLeft` render jobs. -/
theorem jobs_RefreshLoop :
    ∀ (fuel : Nat) (tx pg : Int) (ps : CapturePassState),
      (RefreshLoop fuel tx pg ps).CardPagesToRender.length ≤
        ps.CardPagesToRender.length + pg.toNat
  | 0, _, _, _ => by simp [RefreshLoop]
  | fuel + 1, tx, pg, ps => by
    simp only [RefreshLoop]
    cases hm : FindMinEntry ps.Scene.LastCapturedPageHeap with
    | none => simp
    | some e =>
      simp only []
      split
      · split
        next hbud =>
          split
          · have ih := jobs_RefreshLoop fuel
              (tx - ((ps.Scene.GetCard e.CardIndex).PageTexelsAt e.ResLevel : Int))
              (pg - 1) (RefreshCapture e ps)
            have hcap : (RefreshCapture e ps).CardPagesToRender.length =
                ps.CardPagesToRender.length + 1 := by
              simp [RefreshCapture]
            omega
          · omega
        next hbud => omega
      · omega

/-- The refresh phase cannot push the job count beyond the per-frame
limit (its page sub-budget is clamped to the remaining headroom). -/
theorem jobs_RunRefreshPhase (p : FProcessRequestsParams) (ps2 : CapturePassState) :
    (RunRefreshPhase p ps2).CardPagesToRender.length ≤
      max ps2.CardPagesToRender.length p.MaxTileCapturesPerFrame := by
  have h := jobs_RefreshLoop (RefreshFuel ps2.Scene)
    ((p.CardCaptureRefreshNumTexels : Nat) : Int)
    (min ((p.CardCaptureRefreshNumPages : Nat) : Int)
      (((p.MaxTileCapturesPerFrame : Nat) : Int) -
        ((ps2.CardPagesToRender.length : Nat) : Int))) ps2
  simp only [RunRefreshPhase]
  omega

theorem jobs_RunFinalEvictPhase (p : FProcessRequestsParams) (ps3 : CapturePassState) :
    (RunFinalEvictPhase p ps3).CardPagesToRender = ps3.CardPagesToRender := by
  simp only [RunFinalEvictPhase]
  split
  · rfl
  · rfl

theorem jobs_RunHierarchyUpdatePhase (ps4 : CapturePassState) :
    (RunHierarchyUpdatePhase ps4).CardPagesToRender = ps4.CardPagesToRender := rfl


/-- Captured texels plus remaining transient-atlas texels: constant
over one scheduling pass. -/
def TexelSum (ps : CapturePassState) : Nat :=
  ps.NumCardTexelsToCapture + ps.CaptureAtlasFreeTexels

theorem TexelSum_CapturePage (b : Bool) (i lvl p : Nat) (ps : CapturePassState) :
    TexelSum (CapturePage b i lvl p ps) = TexelSum ps := by
  simp only [CapturePage]
  split
  · rfl
  · split
    next ht =>
      show (ps.NumCardTexelsToCapture + (ps.Scene.GetCard i).PageTexelsAt lvl) +
        (ps.CaptureAtlasFreeTexels - (ps.Scene.GetCard i).PageTexelsAt lvl) =
        ps.NumCardTexelsToCapture + ps.CaptureAtlasFreeTexels
      omega
    · rfl

theorem TexelSum_captureFold (bR : Bool) (i lvl : Nat) :
    ∀ (l : List Nat) (ps : CapturePassState),
      TexelSum (l.foldl (fun acc p => CapturePage bR i lvl p acc) ps) = TexelSum ps
  | [], _ => rfl
  | p :: rest, ps => by
    simp only [List.foldl_cons]
    exact (TexelSum_captureFold bR i lvl rest _).trans (TexelSum_CapturePage bR i lvl p ps)

theorem TexelSum_withDirty (x : CapturePassState) (d : List Nat) :
    TexelSum { x with DirtyCards := d } = TexelSum x := rfl

theorem TexelSum_LockedCommit (r : FSurfaceCacheRequest) (newLvl : Nat)
    (s1 : FLumenSceneData) (dirty1 : List Nat) (ps : CapturePassState) :
    TexelSum (LockedCommit r newLvl s1 dirty1 ps) = TexelSum ps := by
  simp only [LockedCommit]
  rw [TexelSum_withDirty, TexelSum_captureFold]
  rfl

theorem TexelSum_ProcessLockedRequest (r : FSurfaceCacheRequest)
    (ps : CapturePassState) :
    TexelSum (ProcessLockedRequest r ps) = TexelSum ps := by
  simp only [ProcessLockedRequest]
  split
  · split <;> split
    · exact TexelSum_LockedCommit r _ _ _ ps
    · rfl
    · exact TexelSum_LockedCommit r _ _ _ ps
    · rfl
  · rfl

theorem TexelSum_HiResCommit (v : FVirtualPageIndex) (s1 : FLumenSceneData)
    (dirty1 : List Nat) (ps : CapturePassState) :
    TexelSum (HiResCommit v s1 dirty1 ps) = TexelSum ps := by
  simp only [HiResCommit]
  split
  · exact TexelSum_CapturePage _ _ _ _ _
  · exact TexelSum_CapturePage _ _ _ _ _

theorem TexelSum_ProcessHiResPage (v : FVirtualPageIndex) (ps : CapturePassState) :
    TexelSum (ProcessHiResPage v ps) = TexelSum ps := by
  simp only [ProcessHiResPage]
  split
  · split
    · exact TexelSum_HiResCommit v _ _ ps
    · rfl
  · rfl

theorem TexelSum_ProcessOneRequest (r : FSurfaceCacheRequest)
    (ps : CapturePassState) :
    TexelSum (ProcessOneRequest r ps) = TexelSum ps := by
  simp only [ProcessOneRequest]
  split
  · exact TexelSum_ProcessLockedRequest r ps
  · split
    · split
      · rfl
      · rfl
    · rfl

theorem TexelSum_ProcessRequests (maxTile : Nat) :
    ∀ (rs : List FSurfaceCacheRequest) (ps : CapturePassState),
      TexelSum (ProcessRequests maxTile rs ps) = TexelSum ps
  | [], _ => rfl
  | r :: rest, ps => by
    simp only [ProcessRequests]
    split
    · exact TexelSum_ProcessOneRequest r ps
    · exact (TexelSum_ProcessRequests maxTile rest _).trans
        (TexelSum_ProcessOneRequest r ps)

theorem TexelSum_hiResFold :
    ∀ (l : List FVirtualPageIndex) (ps : CapturePassState),
      TexelSum (l.foldl (fun acc v => ProcessHiResPage v acc) ps) = TexelSum ps
  | [], _ => rfl
  | v :: rest, ps => by
    simp only [List.foldl_cons]
    exact (TexelSum_hiResFold rest _).trans (TexelSum_ProcessHiResPage v ps)

theorem TexelSum_RunHiResPhase (ps1 : CapturePassState) :
    TexelSum (RunHiResPhase ps1) = TexelSum ps1 := by
  simp only [RunHiResPhase]
  exact TexelSum_hiResFold _ ps1

theorem TexelSum_RefreshLoop :
    ∀ (fuel : Nat) (tx pg : Int) (ps : CapturePassState),
      TexelSum (RefreshLoop fuel tx pg ps) = TexelSum ps
  | 0, _, _, _ => rfl
  | fuel + 1, tx, pg, ps => by
    simp only [RefreshLoop]
    cases hm : FindMinEntry ps.Scene.LastCapturedPageHeap with
    | none => rfl
    | some e =>
      simp only []
      split
      · split
        · split
          next hatlas =>
            have hcap : TexelSum (RefreshCapture e ps) = TexelSum ps := by
              simp only [CaptureAtlasIsSpaceAvailable, if_pos trivial,
                decide_eq_true_eq] at hatlas
              show (ps.NumCardTexelsToCapture +
                  (ps.Scene.GetCard e.CardIndex).PageTexelsAt e.ResLevel) +
                (ps.CaptureAtlasFreeTexels -
                  (ps.Scene.GetCard e.CardIndex).PageTexelsAt e.ResLevel) =
                ps.NumCardTexelsToCapture + ps.CaptureAtlasFreeTexels
              omega
            exact (TexelSum_RefreshLoop fuel _ _ _).trans hcap
          · rfl
        · rfl
      · rfl

theorem TexelSum_RunRefreshPhase (p : FProcessRequestsParams) (ps2 : CapturePassState) :
    TexelSum (RunRefreshPhase p ps2) = TexelSum ps2 := by
  simp only [RunRefreshPhase]
  exact TexelSum_RefreshLoop _ _ _ ps2

theorem TexelSum_RunFinalEvictPhase (p : FProcessRequestsParams)
    (ps3 : CapturePassState) :
    TexelSum (RunFinalEvictPhase p ps3) = TexelSum ps3 := by
  simp only [RunFinalEvictPhase]
  split
  · rfl
  · rfl

theorem TexelSum_RunHierarchyUpdatePhase (ps4 : CapturePassState) :
    TexelSum (RunHierarchyUpdatePhase ps4) = TexelSum ps4 := rfl


/-- **C1** (amended). One scheduling pass respects the texel budget
exactly as claimed — captured texels never exceed the transient
capture-atlas capacity — but the job-count budget only up to one
request's contribution: with every mip span at most `P` pages, the
render-job list can reach `MaxTileCapturesPerFrame - 1 + P` entries
(the budget is checked only after a whole locked mip was mapped). -/
theorem C1_budget_amended (p : FProcessRequestsParams) (s : FLumenSceneData)
    (rs : List FSurfaceCacheRequest) (P : Nat) (hP : 1 ≤ P)
    (hB : ScenePageBound P s) :
    ((ProcessLumenSurfaceCacheRequestsModel p s rs).CardPagesToRender.length ≤
      p.MaxTileCapturesPerFrame - 1 + P) ∧
    ((ProcessLumenSurfaceCacheRequestsModel p s rs).NumCardTexelsToCapture ≤
      p.CaptureAtlasTexels) := by
  constructor
  · have h1 := ProcessRequests_bound hP p.MaxTileCapturesPerFrame rs
      (InitialPassState p s) hB
    have h2 : (RunHiResPhase (ProcessRequests p.MaxTileCapturesPerFrame rs
        (InitialPassState p s))).CardPagesToRender.length ≤
        (ProcessRequests p.MaxTileCapturesPerFrame rs (InitialPassState p s)
          ).CardPagesToRender.length +
        (ProcessRequests p.MaxTileCapturesPerFrame rs (InitialPassState p s)
          ).HiResPagesToMap.length := by
      simp only [RunHiResPhase]
      exact jobs_hiResFold _ _
    have h3 := jobs_RunRefreshPhase p
      (RunHiResPhase (ProcessRequests p.MaxTileCapturesPerFrame rs
        (InitialPassState p s)))
    simp only [ProcessLumenSurfaceCacheRequestsModel]
    rw [jobs_RunHierarchyUpdatePhase, jobs_RunFinalEvictPhase]
    have h1b := h1.2
    have e1 : (InitialPassState p s).CardPagesToRender.length = 0 := rfl
    have e2 : (InitialPassState p s).HiResPagesToMap.length = 0 := rfl
    rw [e1, e2] at h1b
    omega
  · have ht : TexelSum (ProcessLumenSurfaceCacheRequestsModel p s rs) =
        TexelSum (InitialPassState p s) := by
      simp only [ProcessLumenSurfaceCacheRequestsModel]
      rw [TexelSum_RunHierarchyUpdatePhase, TexelSum_RunFinalEvictPhase,
        TexelSum_RunRefreshPhase, TexelSum_RunHiResPhase, TexelSum_ProcessRequests]
    simp only [TexelSum, InitialPassState] at ht
    omega

/-- A never-allocated card whose every mip span has two pages. -/
def ce1Card : FLumenCard :=
  { bVisible := false
    MinAllocatedResLevel := UINT8_MAX
    MaxAllocatedResLevel := 0
    DesiredLockedResLevel := 0
    MeshCardsIndex := 0
    SurfaceMipMaps := List.replicate NumResLevels {}
    MipNumPages := List.replicate NumResLevels 2
    MipPageTexels := List.replicate NumResLevels 64 }

def ce1Scene : FLumenSceneData :=
  { Cards := [ce1Card]
    MeshCards := [{}]
    PrimitiveGroups := [{}]
    FreePhysicalPages := 10
    UnlockedAllocationHeap := []
    LastCapturedPageHeap := []
    SurfaceCacheUpdateFrameIndex := 5 }

/-- Pass parameters with a one-page-per-frame capture limit. -/
def ce1Params : FProcessRequestsParams :=
  { MaxTileCapturesPerFrame := 1
    CardCaptureRefreshNumTexels := 0
    CardCaptureRefreshNumPages := 0
    CaptureAtlasTexels := 100000
    SurfaceCacheFrozen := false
    NumFramesToKeepUnusedPages := 256 }

/-- A locked level-3 request for the two-page card. -/
def ce1Req : FSurfaceCacheRequest :=
  { CardIndex := 0, ResLevel := 3, LocalPageIndex := UINT16_MAX, Distance := 0 }

/-- **C1** (counterexample). With `MaxTileCapturesPerFrame = 1` a
single locked request for a two-page mip emits two capture jobs: the
budget test `CardPagesToRender.Num() + HiResPagesToMap.Num() >=
MaxTileCapturesPerFrame` runs only after the whole mip was mapped, so
the claimed bound "never exceeds the configured max-pages-per-frame"
fails. -/
theorem C1_counterexample :
    ce1Params.MaxTileCapturesPerFrame = 1 ∧
    (ProcessLumenSurfaceCacheRequestsModel ce1Params ce1Scene [ce1Req]
      ).CardPagesToRender.length = 2 ∧
    ¬ ((ProcessLumenSurfaceCacheRequestsModel ce1Params ce1Scene [ce1Req]
      ).CardPagesToRender.length ≤ ce1Params.MaxTileCapturesPerFrame) := by
  decide

/-- Witness: the amended C1 bound evaluated on the counterexample
scene (`P = 2`, so at most `1 - 1 + 2 = 2` jobs — attained). -/
theorem C1_witness :
    (1 ≤ 2 ∧ ScenePageBound 2 ce1Scene) ∧
    (ProcessLumenSurfaceCacheRequestsModel ce1Params ce1Scene [ce1Req]
      ).CardPagesToRender.length ≤ ce1Params.MaxTileCapturesPerFrame - 1 + 2 :=
  ⟨⟨by decide, by decide⟩,
   (C1_budget_amended ce1Params ce1Scene [ce1Req] 2 (by decide) (by decide)).1⟩

end LumenSurfaceCacheProof

namespace LumenSurfaceCacheProof

/-! ## C4: failed locked requests -/

/-- Every entry of the unlocked-allocation heap points at an unlocked
mip (the heap only ever receives pages of unlocked spans). -/
def UnlockedHeapWF (s : FLumenSceneData) : Prop :=
  ∀ e ∈ s.UnlockedAllocationHeap,
    ((s.GetCard e.CardIndex).GetMipMap e.ResLevel).bLocked = false

instance instDecUnlockedHeapWF (s : FLumenSceneData) :
    Decidable (UnlockedHeapWF s) := by
  unfold UnlockedHeapWF; infer_instance

/-- Resident-page flags of every locked mip are preserved between two
scenes. -/
def LockedMappedPreserved (s s2 : FLumenSceneData) : Prop :=
  ∀ i lvl : Nat, ((s.GetCard i).GetMipMap lvl).bLocked = true →
    ((s2.GetCard i).GetMipMap lvl).mapped = ((s.GetCard i).GetMipMap lvl).mapped

/-- Unmapping one page leaves the resident flags of every other mip
slot unchanged. -/
theorem mapped_UnmapPage_other (s : FLumenSceneData) (i lvl p j lvl2 : Nat)
    (h : ¬ (j = i ∧ lvl2 - MinResLevel = lvl - MinResLevel)) :
    (((s.UnmapPage i lvl p).GetCard j).GetMipMap lvl2).mapped =
      ((s.GetCard j).GetMipMap lvl2).mapped := by
  have hcards : (s.UnmapPage i lvl p).GetCard j =
      (s.SetCard i ((s.GetCard i).SetMipMap lvl
        { (s.GetCard i).GetMipMap lvl with
          mapped := ((s.GetCard i).GetMipMap lvl).mapped.set p false })).GetCard j := by
    simp [FLumenSceneData.UnmapPage, FLumenSceneData.SetCard, FLumenSceneData.GetCard]
  rw [hcards]
  by_cases hij : i = j
  · subst hij
    by_cases hin : i < s.Cards.length
    · rw [GetCard_SetCard_self _ _ _ hin, GetMipMap_SetMipMap]
      have hne : ¬ lvl - MinResLevel = lvl2 - MinResLevel :=
        fun he => h ⟨rfl, he.symm⟩
      rw [if_neg (fun hc => hne hc.1)]
    · rw [GetCard_SetCard_out _ _ _ hin]
  · rw [GetCard_SetCard_ne _ _ _ _ hij]

/-- One eviction step keeps the heap invariant and never touches the
resident pages of a locked mip. -/
theorem evictStep_lockedPreserved {s s2 : FLumenSceneData} {maxAge d : Nat}
    (hWF : UnlockedHeapWF s)
    (hev : s.EvictOldestAllocation maxAge = some (s2, d)) :
    UnlockedHeapWF s2 ∧ LockedMappedPreserved s s2 := by
  unfold FLumenSceneData.EvictOldestAllocation at hev
  cases hm : FindMinEntry s.UnlockedAllocationHeap with
  | none => rw [hm] at hev; simp at hev
  | some e =>
    rw [hm] at hev
    by_cases hage : maxAge < s.SurfaceCacheUpdateFrameIndex - e.Key
    · simp only [if_pos hage, Option.some.injEq, Prod.mk.injEq] at hev
      have hs2 : s2 = s.UnmapPage e.CardIndex e.ResLevel e.LocalPageIndex := hev.1.symm
      subst hs2
      have hemem := FindMinEntry_mem hm
      have helock := hWF e hemem
      constructor
      · intro e2 he2
        have hheap : (s.UnmapPage e.CardIndex e.ResLevel e.LocalPageIndex
            ).UnlockedAllocationHeap = s.UnlockedAllocationHeap.filter
            (fun x => x.Page ≠ ⟨e.CardIndex, e.ResLevel, e.LocalPageIndex⟩) := by
          simp [FLumenSceneData.UnmapPage, FLumenSceneData.SetCard]
        rw [hheap] at he2
        have he2' := (List.mem_filter.mp he2).1
        have hsa := SameAllocation_UnmapPage s e.CardIndex e.ResLevel e.LocalPageIndex
        rw [((hsa e2.CardIndex).2.2.2.2 e2.ResLevel).2]
        exact hWF e2 he2'
      · intro i lvl hlock
        apply mapped_UnmapPage_other
        rintro ⟨hji, hlvl⟩
        subst hji
        have hsame : ((s.GetCard e.CardIndex).GetMipMap lvl) =
            ((s.GetCard e.CardIndex).GetMipMap e.ResLevel) := by
          simp only [FLumenCard.GetMipMap, hlvl]
        rw [hsame] at hlock
        rw [hlock] at helock
        exact absurd helock (by decide)
    · simp [if_neg hage] at hev

/-- A whole eviction cascade never touches the resident pages of a
locked mip. -/
theorem EvictReach_lockedPreserved {maxAge : Nat} {s s2 : FLumenSceneData}
    (h : EvictReach maxAge s s2) :
    UnlockedHeapWF s → LockedMappedPreserved s s2 := by
  induction h with
  | refl s => exact fun _ i lvl _ => rfl
  | step h1 h2 ih =>
    intro hWF
    obtain ⟨hWF2, hpres⟩ := evictStep_lockedPreserved hWF h1
    have hsa := SameAllocation_EvictOldestAllocation h1
    intro i lvl hlock
    have hlockMid := ((hsa i).2.2.2.2 lvl).2
    rw [hlock] at hlockMid
    rw [ih hWF2 i lvl hlockMid]
    exact hpres i lvl hlock

/-- The two possible outcomes of a locked request: either it commits
(success), or the card keeps its desired locked level, its min/max
allocated levels, the allocation and lock flags of every mip, and the
resident pages of every locked mip; no render job is emitted.  Only
unlocked resident pages may have been evicted by the failed attempt. -/
def C4Outcome (r : FSurfaceCacheRequest) (ps : CapturePassState) : Prop :=
  (∃ newLvl : Nat, ∃ s1 : FLumenSceneData, ∃ dirty1 : List Nat,
    ProcessLockedRequest r ps = LockedCommit r newLvl s1 dirty1 ps) ∨
  ((ProcessLockedRequest r ps).CardPagesToRender = ps.CardPagesToRender ∧
   (ProcessLockedRequest r ps).HiResPagesToMap = ps.HiResPagesToMap ∧
   SameAllocation ps.Scene (ProcessLockedRequest r ps).Scene ∧
   LockedMappedPreserved ps.Scene (ProcessLockedRequest r ps).Scene)

/-- **C4.** (amended) A locked request that cannot be satisfied is
dropped with no render job; the card keeps its desired locked level,
its allocation structure (min/max levels and every slot's allocation
and lock flags) and every locked mip's resident pages — but, contrary
to the claim, its page-table entries need not all stay as they were:
the eviction cascade that ran before the failure was detected may have
unmapped the card's own unlocked pages (see the counterexample). -/
theorem C4_failure_leaves_card (r : FSurfaceCacheRequest) (ps : CapturePassState)
    (hWF : UnlockedHeapWF ps.Scene) : C4Outcome r ps := by
  have hreach := (RunEvictLoop_spec LockedMaxFramesSinceLastUsed r.CardIndex
    (r.ResLevel % 256) false ps.Scene ps.DirtyCards).1
  simp only [C4Outcome, ProcessLockedRequest]
  split
  · split <;> split
    · exact Or.inl ⟨_, _, _, rfl⟩
    · exact Or.inr ⟨rfl, rfl, SameAllocation_EvictReach hreach,
        EvictReach_lockedPreserved hreach hWF⟩
    · exact Or.inl ⟨_, _, _, rfl⟩
    · exact Or.inr ⟨rfl, rfl, SameAllocation_EvictReach hreach,
        EvictReach_lockedPreserved hreach hWF⟩
  · exact Or.inr ⟨rfl, rfl, SameAllocation.arefl _, fun i lvl _ => rfl⟩

/-- A card with a locked two-page level-3 mip and an unlocked, aged
level-4 page; no physical pages are free and every candidate level
needs more pages than eviction can recover. -/
def c4Card : FLumenCard :=
  { bVisible := true
    MinAllocatedResLevel := 3
    MaxAllocatedResLevel := 4
    DesiredLockedResLevel := 3
    SurfaceMipMaps := { bAllocated := true, bLocked := true, mapped := [true, true] } ::
      { bAllocated := true, bLocked := false, mapped := [true, false] } ::
      List.replicate 7 {}
    MipNumPages := [2, 2, 9, 9, 9, 9, 9, 9, 9]
    MipPageTexels := List.replicate 9 1 }

def c4Scene : FLumenSceneData :=
  { Cards := [c4Card]
    MeshCards := [{}]
    PrimitiveGroups := [{}]
    FreePhysicalPages := 0
    UnlockedAllocationHeap := [⟨1, 0, 4, 0⟩]
    LastCapturedPageHeap := []
    SurfaceCacheUpdateFrameIndex := 10 }

def c4ps : CapturePassState :=
  { Scene := c4Scene
    CaptureAtlasFreeTexels := 1000
    CardPagesToRender := []
    HiResPagesToMap := []
    DirtyCards := []
    NumCardTexelsToCapture := 0 }

def c4req : FSurfaceCacheRequest :=
  { CardIndex := 0, ResLevel := 5, LocalPageIndex := UINT16_MAX, Distance := 0 }

/-- **C4** (counterexample).  The level-5 locked request fails at every
level (after eviction only one physical page is free, every level needs
two or more), so it is dropped: no render job, desired locked level
still 3.  Yet the card did not stay "as it was": the eviction cascade
unmapped the card's own unlocked level-4 page before the failure was
known. -/
theorem C4_counterexample :
    (ProcessLockedRequest c4req c4ps).CardPagesToRender = [] ∧
    ((ProcessLockedRequest c4req c4ps).Scene.GetCard 0).DesiredLockedResLevel = 3 ∧
    ¬ ((ProcessLockedRequest c4req c4ps).Scene.GetCard 0 = c4ps.Scene.GetCard 0) ∧
    (((ProcessLockedRequest c4req c4ps).Scene.GetCard 0).GetMipMap 4).mapped =
      [false, false] ∧
    ((c4ps.Scene.GetCard 0).GetMipMap 4).mapped = [true, false] := by
  decide

/-- Witness: the amended C4 on the failing concrete request. -/
theorem C4_witness : C4Outcome c4req c4ps :=
  C4_failure_leaves_card c4req c4ps (by decide)

end LumenSurfaceCacheProof

namespace LumenSurfaceCacheProof

/-! ## C8: the refresh pass -/

/-- A virtual page is resident (its page-table entry is mapped). -/
def PageMapped (s : FLumenSceneData) (v : FVirtualPageIndex) : Prop :=
  ((s.GetCard v.CardIndex).GetMipMap v.ResLevel).mapped.getD v.LocalPageIndex false
    = true

/-- Every entry of the last-captured heap refers to a resident page
(pages enter on `MapSurfaceCachePage` and leave on unmap). -/
def CapturedHeapWF (s : FLumenSceneData) : Prop :=
  ∀ e ∈ s.LastCapturedPageHeap, PageMapped s e.Page

instance instDecPageMapped (s : FLumenSceneData) (v : FVirtualPageIndex) :
    Decidable (PageMapped s v) := by
  unfold PageMapped; infer_instance

instance instDecCapturedHeapWF (s : FLumenSceneData) :
    Decidable (CapturedHeapWF s) := by
  unfold CapturedHeapWF; infer_instance

/-- `FBinaryHeap::Update` never changes which pages the heap holds. -/
theorem mem_HeapUpdate {k : Nat} {pg : FVirtualPageIndex} {h : List FHeapEntry}
    {e2 : FHeapEntry} (hmem : e2 ∈ HeapUpdate k pg h) :
    ∃ e0 ∈ h, e0.Page = e2.Page := by
  simp only [HeapUpdate] at hmem
  obtain ⟨e0, he0, heq⟩ := List.mem_map.mp hmem
  refine ⟨e0, he0, ?_⟩
  by_cases hp : e0.Page = pg
  · rw [if_pos hp] at heq
    rw [← heq]
    exact hp.trans (hp.symm.trans rfl)
  · rw [if_neg hp] at heq
    rw [heq]

/-- The refresh loop leaves every card untouched and appends only jobs
for pages that already had a last-captured heap entry. -/
theorem RefreshLoop_extra :
    ∀ (fuel : Nat) (tx pg : Int) (ps : CapturePassState),
      ((RefreshLoop fuel tx pg ps).Scene.Cards = ps.Scene.Cards) ∧
      ∃ extra : List FCardPageRenderData,
        (RefreshLoop fuel tx pg ps).CardPagesToRender =
          ps.CardPagesToRender ++ extra ∧
        ∀ j ∈ extra, ∃ e0 ∈ ps.Scene.LastCapturedPageHeap, e0.Page = j.Page
  | 0, _, _, ps => ⟨rfl, [], by simp [RefreshLoop], by simp⟩
  | fuel + 1, tx, pg, ps => by
    simp only [RefreshLoop]
    cases hm : FindMinEntry ps.Scene.LastCapturedPageHeap with
    | none => exact ⟨rfl, [], by simp, by simp⟩
    | some e =>
      simp only []
      split
      · split
        · split
          · obtain ⟨hcards, extra, hjobs, hall⟩ := RefreshLoop_extra fuel
              (tx - ((ps.Scene.GetCard e.CardIndex).PageTexelsAt e.ResLevel : Int))
              (pg - 1) (RefreshCapture e ps)
            refine ⟨hcards.trans rfl, ⟨e.CardIndex, e.ResLevel, e.LocalPageIndex,
              (ps.Scene.GetCard e.CardIndex).PageTexelsAt e.ResLevel, true⟩ :: extra,
              ?_, ?_⟩
            · rw [hjobs]
              simp [RefreshCapture]
            · intro j hj
              rcases List.mem_cons.mp hj with hj | hj
              · exact ⟨e, FindMinEntry_mem hm, by rw [hj]; rfl⟩
              · obtain ⟨e1, he1, hpage⟩ := hall j hj
                obtain ⟨e0, he0, hpage0⟩ := mem_HeapUpdate he1
                exact ⟨e0, he0, hpage0.trans hpage⟩
          · exact ⟨rfl, [], by simp, by simp⟩
        · exact ⟨rfl, [], by simp, by simp⟩
      · exact ⟨rfl, [], by simp, by simp⟩

/-- If the refresh loop captured anything, the first captured page was
a minimum-key (globally oldest) entry of the heap. -/
theorem RefreshLoop_first_oldest :
    ∀ (fuel : Nat) (tx pg : Int) (ps : CapturePassState)
      (j : FCardPageRenderData) (rest : List FCardPageRenderData),
      (RefreshLoop fuel tx pg ps).CardPagesToRender =
        ps.CardPagesToRender ++ (j :: rest) →
      ∃ e, FindMinEntry ps.Scene.LastCapturedPageHeap = some e ∧ j.Page = e.Page ∧
        ∀ e2 ∈ ps.Scene.LastCapturedPageHeap, e.Key ≤ e2.Key
  | 0, _, _, ps, j, rest => by
    intro h
    have hlen := congrArg List.length h
    simp [RefreshLoop] at hlen
  | fuel + 1, tx, pg, ps, j, rest => by
    intro h
    simp only [RefreshLoop] at h
    cases hm : FindMinEntry ps.Scene.LastCapturedPageHeap with
    | none =>
      rw [hm] at h
      simp only [] at h
      have hlen := congrArg List.length h
      simp at hlen
    | some e =>
      rw [hm] at h
      simp only [] at h
      refine ⟨e, rfl, ?_, FindMinEntry_min hm⟩
      revert h
      split
      · split
        · split
          · intro h
            obtain ⟨hcards, extra, hjobs, hall⟩ := RefreshLoop_extra fuel
              (tx - ((ps.Scene.GetCard e.CardIndex).PageTexelsAt e.ResLevel : Int))
              (pg - 1) (RefreshCapture e ps)
            rw [hjobs] at h
            have hjobs2 : (RefreshCapture e ps).CardPagesToRender =
                ps.CardPagesToRender ++ [⟨e.CardIndex, e.ResLevel, e.LocalPageIndex,
                  (ps.Scene.GetCard e.CardIndex).PageTexelsAt e.ResLevel, true⟩] := rfl
            rw [hjobs2, List.append_assoc] at h
            have hje := List.append_cancel_left h
            simp only [List.singleton_append, List.cons.injEq] at hje
            rw [← hje.1]
            rfl
          · intro h
            have hlen := congrArg List.length h
            simp at hlen
        · intro h
          have hlen := congrArg List.length h
          simp at hlen
      · intro h
        have hlen := congrArg List.length h
        simp at hlen

/-- The refresh loop consumes at most its texel sub-budget. -/
theorem texels_RefreshLoop :
    ∀ (fuel : Nat) (tx pg : Int) (ps : CapturePassState),
      (RefreshLoop fuel tx pg ps).NumCardTexelsToCapture ≤
        ps.NumCardTexelsToCapture + tx.toNat
  | 0, _, _, _ => by simp [RefreshLoop]
  | fuel + 1, tx, pg, ps => by
    simp only [RefreshLoop]
    cases hm : FindMinEntry ps.Scene.LastCapturedPageHeap with
    | none => simp
    | some e =>
      simp only []
      split
      · split
        next hbud =>
          split
          · have ih := texels_RefreshLoop fuel
              (tx - ((ps.Scene.GetCard e.CardIndex).PageTexelsAt e.ResLevel : Int))
              (pg - 1) (RefreshCapture e ps)
            have hcap : (RefreshCapture e ps).NumCardTexelsToCapture =
                ps.NumCardTexelsToCapture +
                (ps.Scene.GetCard e.CardIndex).PageTexelsAt e.ResLevel := rfl
            omega
          · omega
        next hbud => omega
      · omega


/-- **C8.** The refresh phase: (1) it only re-captures pages that had a
last-captured heap entry — under the heap invariant, only
already-resident pages — and leaves every card untouched; (2) the first
page it captures is a minimum-key (globally oldest) heap entry; (3) it
never pushes the render-job list past `MaxTileCapturesPerFrame` (its
page sub-budget is clamped to the remaining headroom), so it cannot
starve allocations emitted earlier in the pass; (4) it captures at most
`CardCaptureRefreshNumPages` pages; and (5) it consumes at most the
separate `CardCaptureRefreshNumTexels` texel sub-budget. -/
theorem C8_refresh_pass (p : FProcessRequestsParams) (ps : CapturePassState)
    (hWF : CapturedHeapWF ps.Scene) :
    ((RunRefreshPhase p ps).Scene.Cards = ps.Scene.Cards ∧
     ∃ extra : List FCardPageRenderData,
       (RunRefreshPhase p ps).CardPagesToRender = ps.CardPagesToRender ++ extra ∧
       ∀ j ∈ extra, PageMapped ps.Scene j.Page) ∧
    (∀ (j : FCardPageRenderData) (rest : List FCardPageRenderData),
      (RunRefreshPhase p ps).CardPagesToRender =
        ps.CardPagesToRender ++ (j :: rest) →
      ∃ e, FindMinEntry ps.Scene.LastCapturedPageHeap = some e ∧ j.Page = e.Page ∧
        ∀ e2 ∈ ps.Scene.LastCapturedPageHeap, e.Key ≤ e2.Key) ∧
    ((RunRefreshPhase p ps).CardPagesToRender.length ≤
      max ps.CardPagesToRender.length p.MaxTileCapturesPerFrame) ∧
    ((RunRefreshPhase p ps).CardPagesToRender.length ≤
      ps.CardPagesToRender.length + p.CardCaptureRefreshNumPages) ∧
    ((RunRefreshPhase p ps).NumCardTexelsToCapture ≤
      ps.NumCardTexelsToCapture + p.CardCaptureRefreshNumTexels) := by
  refine ⟨?_, ?_, jobs_RunRefreshPhase p ps, ?_, ?_⟩
  · obtain ⟨hcards, extra, hjobs, hall⟩ := RefreshLoop_extra (RefreshFuel ps.Scene)
      ((p.CardCaptureRefreshNumTexels : Int))
      (min ((p.CardCaptureRefreshNumPages : Nat) : Int)
        (((p.MaxTileCapturesPerFrame : Nat) : Int) -
          ((ps.CardPagesToRender.length : Nat) : Int))) ps
    refine ⟨hcards, extra, hjobs, fun j hj => ?_⟩
    obtain ⟨e0, he0, hpage⟩ := hall j hj
    have := hWF e0 he0
    rw [hpage] at this
    exact this
  · intro j rest h
    exact RefreshLoop_first_oldest (RefreshFuel ps.Scene) _ _ ps j rest h
  · have h := jobs_RefreshLoop (RefreshFuel ps.Scene)
      ((p.CardCaptureRefreshNumTexels : Int))
      (min ((p.CardCaptureRefreshNumPages : Nat) : Int)
        (((p.MaxTileCapturesPerFrame : Nat) : Int) -
          ((ps.CardPagesToRender.length : Nat) : Int))) ps
    simp only [RunRefreshPhase]
    omega
  · have h := texels_RefreshLoop (RefreshFuel ps.Scene)
      ((p.CardCaptureRefreshNumTexels : Int))
      (min ((p.CardCaptureRefreshNumPages : Nat) : Int)
        (((p.MaxTileCapturesPerFrame : Nat) : Int) -
          ((ps.CardPagesToRender.length : Nat) : Int))) ps
    simp only [RunRefreshPhase]
    omega

/-- A one-card scene with a resident locked page whose last capture is
stale. -/
def c8Card : FLumenCard :=
  { bVisible := true
    MinAllocatedResLevel := 3
    MaxAllocatedResLevel := 3
    DesiredLockedResLevel := 3
    SurfaceMipMaps := { bAllocated := true, bLocked := true, mapped := [true] } ::
      List.replicate 8 {}
    MipNumPages := List.replicate 9 1
    MipPageTexels := List.replicate 9 64 }

def c8Scene : FLumenSceneData :=
  { Cards := [c8Card]
    MeshCards := [{}]
    PrimitiveGroups := [{}]
    FreePhysicalPages := 4
    UnlockedAllocationHeap := []
    LastCapturedPageHeap := [⟨1, 0, 3, 0⟩]
    SurfaceCacheUpdateFrameIndex := 10 }

def c8Params : FProcessRequestsParams :=
  { MaxTileCapturesPerFrame := 8
    CardCaptureRefreshNumTexels := 1000
    CardCaptureRefreshNumPages := 4
    CaptureAtlasTexels := 100000
    SurfaceCacheFrozen := false
    NumFramesToKeepUnusedPages := 256 }

def c8ps : CapturePassState :=
  { Scene := c8Scene
    CaptureAtlasFreeTexels := 100000
    CardPagesToRender := []
    HiResPagesToMap := []
    DirtyCards := []
    NumCardTexelsToCapture := 0 }

/-- Witness: the refresh headroom clamp of C8 on a concrete scene. -/
theorem C8_witness :
    (RunRefreshPhase c8Params c8ps).CardPagesToRender.length ≤
      max c8ps.CardPagesToRender.length c8Params.MaxTileCapturesPerFrame :=
  (C8_refresh_pass c8Params c8ps (by decide)).2.2.1

end LumenSurfaceCacheProof

namespace LumenSurfaceCacheProof

/-! ## C6: request sorting and the reallocation distance penalty -/

/-- Translation of `FMath::Clamp` on rationals. -/
def qclamp (x lo hi : ℚ) : ℚ := min (max x lo) hi

/-- Translation of the reallocation penalty of
`FLumenSurfaceCacheUpdateMeshCardsTask::AnyThreadTask`:
`if (LumenCard.bVisible && LumenCard.DesiredLockedResLevel != ResLevel)
 { ResLevelDelta = abs(Desired - ResLevel);
   Distance += (1 - Clamp((ResLevelDelta + 1) / 3, 0, 1)) * 2500 }`. -/
def SurfaceCacheRequestPenalty (bVisible : Bool) (desiredLockedResLevel resLevel : Nat) :
    ℚ :=
  if bVisible = true ∧ desiredLockedResLevel ≠ resLevel then
    (1 - qclamp ((|(desiredLockedResLevel : ℚ) - (resLevel : ℚ)| + 1) / 3) 0 1) * 2500
  else 0

/-- Modelled from the spec: the comparison of `FSortBySmallerDistance`
(`A.Distance < B.Distance`) extended to insertion-tagged requests, ties
resolved by the original position — the spec describes the sort as
"stable on card-set index" (the `TArray::Sort` implementation is not
among the available sources). -/
def reqBefore (a b : Nat × FSurfaceCacheRequest) : Bool :=
  decide (a.2.Distance < b.2.Distance ∨
    (a.2.Distance = b.2.Distance ∧ a.1 ≤ b.1))

/-- Insert one tagged request into a sorted tail. -/
def insertReq (a : Nat × FSurfaceCacheRequest) :
    List (Nat × FSurfaceCacheRequest) → List (Nat × FSurfaceCacheRequest)
  | [] => [a]
  | b :: rest => if reqBefore a b then a :: b :: rest else b :: insertReq a rest

/-- Modelled from the spec: stable sort of the tagged request list. -/
def sortTagged : List (Nat × FSurfaceCacheRequest) → List (Nat × FSurfaceCacheRequest)
  | [] => []
  | a :: rest => insertReq a (sortTagged rest)

/-- The sort of `UpdateSurfaceCacheMeshCards`
(`SurfaceCacheRequests.Sort(FSortBySmallerDistance())`), modelled as a
stable sort: tag each request with its insertion index, sort, drop the
tags. -/
def SortRequestsByDistance (l : List FSurfaceCacheRequest) :
    List FSurfaceCacheRequest :=
  (sortTagged l.enum).map Prod.snd

theorem reqBefore_total (a b : Nat × FSurfaceCacheRequest)
    (h : ¬ reqBefore a b = true) : reqBefore b a = true := by
  simp only [reqBefore, decide_eq_true_eq] at h ⊢
  rcases lt_trichotomy a.2.Distance b.2.Distance with h1 | h1 | h1
  · exact absurd (Or.inl h1) h
  · right
    refine ⟨h1.symm, ?_⟩
    have h2 : ¬ a.1 ≤ b.1 := fun hle => h (Or.inr ⟨h1, hle⟩)
    omega
  · exact Or.inl h1

theorem reqBefore_trans {a b c : Nat × FSurfaceCacheRequest}
    (h1 : reqBefore a b = true) (h2 : reqBefore b c = true) :
    reqBefore a c = true := by
  simp only [reqBefore, decide_eq_true_eq] at h1 h2 ⊢
  rcases h1 with h1 | ⟨h1e, h1i⟩ <;> rcases h2 with h2 | ⟨h2e, h2i⟩
  · exact Or.inl (h1.trans h2)
  · exact Or.inl (lt_of_lt_of_le h1 (le_of_eq h2e))
  · exact Or.inl (lt_of_le_of_lt (le_of_eq h1e) h2)
  · exact Or.inr ⟨h1e.trans h2e, Nat.le_trans h1i h2i⟩

theorem insertReq_perm (a : Nat × FSurfaceCacheRequest) :
    ∀ l, List.Perm (insertReq a l) (a :: l)
  | [] => List.Perm.refl _
  | b :: rest => by
    simp only [insertReq]
    split
    · exact List.Perm.refl _
    · exact ((insertReq_perm a rest).cons b).trans (List.Perm.swap a b rest)

theorem sortTagged_perm : ∀ l, List.Perm (sortTagged l) l
  | [] => List.Perm.refl _
  | a :: rest => (insertReq_perm a (sortTagged rest)).trans
      ((sortTagged_perm rest).cons a)

theorem insertReq_pairwise (a : Nat × FSurfaceCacheRequest) :
    ∀ l, List.Pairwise (fun x y => reqBefore x y = true) l →
      List.Pairwise (fun x y => reqBefore x y = true) (insertReq a l)
  | [], _ => by simp [insertReq]
  | b :: rest, hp => by
    simp only [insertReq]
    split
    next hab =>
      refine List.Pairwise.cons ?_ hp
      intro x hx
      rcases List.mem_cons.mp hx with hx | hx
      · exact hx ▸ hab
      · exact reqBefore_trans hab (List.rel_of_pairwise_cons hp hx)
    next hab =>
      have hba := reqBefore_total a b (by simpa using hab)
      have ih := insertReq_pairwise a rest (List.Pairwise.of_cons hp)
      refine List.Pairwise.cons ?_ ih
      intro x hx
      have hx2 := (insertReq_perm a rest).mem_iff.mp hx
      rcases List.mem_cons.mp hx2 with hx2 | hx2
      · exact hx2 ▸ hba
      · exact List.rel_of_pairwise_cons hp hx2

theorem sortTagged_pairwise :
    ∀ l, List.Pairwise (fun x y => reqBefore x y = true) (sortTagged l)
  | [] => List.Pairwise.nil
  | a :: rest => insertReq_pairwise a _ (sortTagged_pairwise rest)

/-- Sorting permutes the request list. -/
theorem SortRequests_perm (l : List FSurfaceCacheRequest) :
    List.Perm (SortRequestsByDistance l) l := by
  simp only [SortRequestsByDistance]
  have h := (sortTagged_perm l.enum).map Prod.snd
  rw [List.enum_map_snd] at h
  exact h

/-- The closed form of the reallocation penalty for a visible card:
one-level changes pay `2500/3`, any larger change pays nothing. -/
theorem SurfaceCacheRequestPenalty_closed (d r : Nat) :
    SurfaceCacheRequestPenalty true d r =
      if d = r then 0
      else if d = r + 1 ∨ r = d + 1 then 2500 / 3
      else 0 := by
  simp only [SurfaceCacheRequestPenalty]
  by_cases hdr : d = r
  · simp [hdr]
  · rw [if_pos ⟨by trivial, hdr⟩, if_neg hdr]
    by_cases hadj : d = r + 1 ∨ r = d + 1
    · rw [if_pos hadj]
      have habs : |(d : ℚ) - (r : ℚ)| = 1 := by
        rcases hadj with h | h
        · subst h
          push_cast
          rw [add_sub_cancel_left, abs_one]
        · subst h
          push_cast
          rw [sub_add_cancel_left, abs_neg, abs_one]
      rw [habs]
      norm_num [qclamp]
    · rw [if_neg hadj]
      have h2 : (2 : ℚ) ≤ |(d : ℚ) - (r : ℚ)| := by
        rcases Nat.lt_or_ge d r with h | h
        · have hdd : d + 2 ≤ r := by omega
          have hc : (d : ℚ) + 2 ≤ (r : ℚ) := by exact_mod_cast hdd
          rw [abs_of_nonpos (by linarith)]
          linarith
        · have hdd : r + 2 ≤ d := by omega
          have hc : (r : ℚ) + 2 ≤ (d : ℚ) := by exact_mod_cast hdd
          rw [abs_of_nonneg (by linarith)]
          linarith
      have hclamp : qclamp ((|(d : ℚ) - (r : ℚ)| + 1) / 3) 0 1 = 1 := by
        simp only [qclamp]
        rw [max_eq_left (by positivity), min_eq_right (by linarith)]
      rw [hclamp]
      ring

/-- **C6** (amended).  The modelled sort is a permutation of the merged
request list, sorted by ascending distance, with distance ties keeping
insertion order (stability); and the reallocation penalty of
classification is deterministic and non-negative, but it is `2500/3`
only for one-level changes of a visible card — any change of two or
more levels pays no penalty at all (and invisible cards never pay
one), contrary to the claim that resolution-changing reallocations of
visible cards carry a penalty. -/
theorem C6_sort_and_penalty :
    (∀ l : List FSurfaceCacheRequest, List.Perm (SortRequestsByDistance l) l) ∧
    (∀ l : List FSurfaceCacheRequest,
      List.Pairwise (fun a b : FSurfaceCacheRequest => a.Distance ≤ b.Distance)
        (SortRequestsByDistance l)) ∧
    (∀ l : List FSurfaceCacheRequest,
      List.Pairwise (fun a b : Nat × FSurfaceCacheRequest =>
        a.2.Distance < b.2.Distance ∨
        (a.2.Distance = b.2.Distance ∧ a.1 ≤ b.1)) (sortTagged l.enum)) ∧
    (∀ d r : Nat, SurfaceCacheRequestPenalty true d r =
      if d = r then 0 else if d = r + 1 ∨ r = d + 1 then 2500 / 3 else 0) ∧
    (∀ (v : Bool) (d r : Nat), 0 ≤ SurfaceCacheRequestPenalty v d r) ∧
    (∀ d r : Nat, SurfaceCacheRequestPenalty false d r = 0) := by
  refine ⟨SortRequests_perm, ?_, ?_, SurfaceCacheRequestPenalty_closed, ?_, ?_⟩
  · intro l
    refine List.Pairwise.map Prod.snd ?_ (sortTagged_pairwise l.enum)
    intro a b hab
    simp only [reqBefore, decide_eq_true_eq] at hab
    rcases hab with h | ⟨h, _⟩
    · exact le_of_lt h
    · exact le_of_eq h
  · intro l
    refine List.Pairwise.imp ?_ (sortTagged_pairwise l.enum)
    intro a b hab
    simpa only [reqBefore, decide_eq_true_eq] using hab
  · intro v d r
    cases v with
    | false => simp [SurfaceCacheRequestPenalty]
    | true =>
      rw [SurfaceCacheRequestPenalty_closed]
      split
      · exact le_refl 0
      · split
        · norm_num
        · exact le_refl 0
  · intro d r
    simp [SurfaceCacheRequestPenalty]

/-- **C6** (counterexample).  A two-level reallocation of a visible
card (`DesiredLockedResLevel = 3`, new `ResLevel = 5`) is
resolution-changing yet pays zero penalty — only one-level changes pay
(`3` to `4` pays `2500/3`). -/
theorem C6_counterexample :
    (3 : Nat) ≠ 5 ∧
    SurfaceCacheRequestPenalty true 3 5 = 0 ∧
    SurfaceCacheRequestPenalty true 3 4 = 2500 / 3 := by
  refine ⟨by decide, ?_, ?_⟩
  · rw [SurfaceCacheRequestPenalty_closed]
    norm_num
  · rw [SurfaceCacheRequestPenalty_closed]
    norm_num

end LumenSurfaceCacheProof

namespace LumenSurfaceCacheProof

/-! ## C9: primitive-group classification -/

/-- A 3-vector over the rationals (float fields of the source). -/
structure FVec3 where
  x : ℚ
  y : ℚ
  z : ℚ
deriving DecidableEq

/-- Translation of `FLT_MAX` (the initial best squared distance). -/
def FLT_MAX : ℚ := 2 ^ 128 - 2 ^ 104

/-- One axis of `ComputeSquaredDistanceFromBoxToPoint`. -/
def axisDistanceSquared (mn mx pt : ℚ) : ℚ :=
  if pt < mn then (mn - pt) ^ 2 else if mx < pt then (pt - mx) ^ 2 else 0

/-- Translation of `ComputeSquaredDistanceFromBoxToPoint`. -/
def ComputeSquaredDistanceFromBoxToPoint (mn mx pt : FVec3) : ℚ :=
  axisDistanceSquared mn.x mx.x pt.x + axisDistanceSquared mn.y mx.y pt.y +
    axisDistanceSquared mn.z mx.z pt.z

/-- The fields of `FLumenPrimitiveGroup` read by
`FLumenSurfaceCacheUpdatePrimitivesTask::AnyThreadTask`
(`MeshCardsIndex == -1` means no mesh-cards allocation yet). -/
structure FLumenPrimitiveGroupClass where
  BoundsMin : FVec3
  BoundsMax : FVec3
  bFarField : Bool
  bEmissiveLightSource : Bool
  bValidMeshCards : Bool
  MeshCardsIndex : Int
deriving DecidableEq

/-- The console-variable derived inputs of the classification task:
`GetCardCameraDistanceTexelDensityScale()`, `MaxDistanceFromCamera`,
`GLumenSceneFarFieldDistance`, `GLumenSceneFarFieldTexelDensity` and
the clamped `MinCardResolution`. -/
structure FClassifyParams where
  TexelDensityScale : ℚ
  MaxDistanceFromCamera : ℚ
  FarFieldDistance : ℚ
  FarFieldTexelDensity : ℚ
  MinCardResolution : ℚ
deriving DecidableEq

/-- `DistanceSquared`: the minimum over all view origins of the
box-to-point squared distance, starting from `FLT_MAX`. -/
def GroupDistanceSquared (origins : List FVec3) (g : FLumenPrimitiveGroupClass) : ℚ :=
  origins.foldl (fun acc o =>
    min acc (ComputeSquaredDistanceFromBoxToPoint g.BoundsMin g.BoundsMax o)) FLT_MAX

/-- `MaxCardExtent`: the largest half-extent of the bounding box. -/
def GroupMaxCardExtent (g : FLumenPrimitiveGroupClass) : ℚ :=
  max (max ((g.BoundsMax.x - g.BoundsMin.x) / 2) ((g.BoundsMax.y - g.BoundsMin.y) / 2))
    ((g.BoundsMax.z - g.BoundsMin.z) / 2)

/-- `CardMaxDistanceSq`: far-field sets use their separate constant
cutoff. -/
def GroupMaxDistanceSq (p : FClassifyParams) (g : FLumenPrimitiveGroupClass) : ℚ :=
  if g.bFarField then p.FarFieldDistance ^ 2 else p.MaxDistanceFromCamera ^ 2

/-- `MaxCardResolution`; `sqrtQ` stands for `FMath::Sqrt` (irrational
on the rationals, hence a parameter). -/
def GroupMaxCardResolution (sqrtQ : ℚ → ℚ) (p : FClassifyParams)
    (origins : List FVec3) (g : FLumenPrimitiveGroupClass) : ℚ :=
  if g.bFarField then GroupMaxCardExtent g * p.FarFieldTexelDensity
  else p.TexelDensityScale * GroupMaxCardExtent g /
    sqrtQ (max (GroupDistanceSquared origins g) 1) + 1 / 100

/-- The minimum-resolution threshold: `1` for emissive light sources,
`MinCardResolution` otherwise. -/
def GroupMinRes (p : FClassifyParams) (g : FLumenPrimitiveGroupClass) : ℚ :=
  if g.bEmissiveLightSource then 1 else p.MinCardResolution

/-- Translation of `FMeshCardsAdd`. -/
structure FMeshCardsAdd where
  PrimitiveGroupIndex : Nat
  DistanceSquared : ℚ
deriving DecidableEq

/-- Translation of the per-group body of
`FLumenSurfaceCacheUpdatePrimitivesTask::AnyThreadTask`: the emitted
add requests (first) and remove requests (second). -/
def ClassifyGroup (sqrtQ : ℚ → ℚ) (p : FClassifyParams) (origins : List FVec3)
    (idx : Nat) (g : FLumenPrimitiveGroupClass) : List FMeshCardsAdd × List Nat :=
  if GroupDistanceSquared origins g ≤ GroupMaxDistanceSq p g ∧
      GroupMinRes p g ≤ GroupMaxCardResolution sqrtQ p origins g then
    (if g.MeshCardsIndex = -1 ∧ g.bValidMeshCards = true
     then ([⟨idx, GroupDistanceSquared origins g⟩], []) else ([], []))
  else
    (if 0 ≤ g.MeshCardsIndex then ([], [idx]) else ([], []))

/-- Insert one add request into a distance-sorted tail. -/
def insertAdd (a : FMeshCardsAdd) : List FMeshCardsAdd → List FMeshCardsAdd
  | [] => [a]
  | b :: rest =>
    if a.DistanceSquared ≤ b.DistanceSquared then a :: b :: rest
    else b :: insertAdd a rest

/-- Modelled from the spec: the sort of `UpdateSurfaceCachePrimitives`
(`MeshCardsAdds.Sort(FSortBySmallerDistance())`; the `TArray::Sort`
implementation is not among the available sources). -/
def SortMeshCardsAdds : List FMeshCardsAdd → List FMeshCardsAdd
  | [] => []
  | a :: rest => insertAdd a (SortMeshCardsAdds rest)

theorem insertAdd_perm (a : FMeshCardsAdd) :
    ∀ l, List.Perm (insertAdd a l) (a :: l)
  | [] => List.Perm.refl _
  | b :: rest => by
    simp only [insertAdd]
    split
    · exact List.Perm.refl _
    · exact ((insertAdd_perm a rest).cons b).trans (List.Perm.swap a b rest)

theorem SortMeshCardsAdds_perm : ∀ l, List.Perm (SortMeshCardsAdds l) l
  | [] => List.Perm.refl _
  | a :: rest => (insertAdd_perm a (SortMeshCardsAdds rest)).trans
      ((SortMeshCardsAdds_perm rest).cons a)

theorem insertAdd_pairwise (a : FMeshCardsAdd) :
    ∀ l, List.Pairwise
        (fun x y : FMeshCardsAdd => x.DistanceSquared ≤ y.DistanceSquared) l →
      List.Pairwise
        (fun x y : FMeshCardsAdd => x.DistanceSquared ≤ y.DistanceSquared)
        (insertAdd a l)
  | [], _ => by simp [insertAdd]
  | b :: rest, hp => by
    simp only [insertAdd]
    split
    next hab =>
      refine List.Pairwise.cons ?_ hp
      intro x hx
      rcases List.mem_cons.mp hx with hx | hx
      · exact hx ▸ hab
      · exact le_trans hab (List.rel_of_pairwise_cons hp hx)
    next hab =>
      have hba := le_of_not_le hab
      have ih := insertAdd_pairwise a rest (List.Pairwise.of_cons hp)
      refine List.Pairwise.cons ?_ ih
      intro x hx
      have hx2 := (insertAdd_perm a rest).mem_iff.mp hx
      rcases List.mem_cons.mp hx2 with hx2 | hx2
      · exact hx2 ▸ hba
      · exact List.rel_of_pairwise_cons hp hx2

theorem SortMeshCardsAdds_sorted :
    ∀ l, List.Pairwise
      (fun x y : FMeshCardsAdd => x.DistanceSquared ≤ y.DistanceSquared)
      (SortMeshCardsAdds l)
  | [] => List.Pairwise.nil
  | a :: rest => insertAdd_pairwise a _ (SortMeshCardsAdds_sorted rest)

/-- **C9** (amended).  The true emission conditions of classification:
a remove is emitted iff the set is resident and fails the range test —
which also happens for sets *within* the distance cutoff whose
estimated resolution is below the threshold, contrary to the claimed
"beyond the distance cutoff" only; an add is emitted iff the set
passes the range test, has no mesh-cards allocation, *and* has valid
mesh cards (a condition the claim omits); the emitted add carries the
set's squared distance to the nearest camera origin, and adds are
sorted closest first. -/
theorem C9_classification (sqrtQ : ℚ → ℚ) (p : FClassifyParams)
    (origins : List FVec3) (idx : Nat) (g : FLumenPrimitiveGroupClass) :
    ((ClassifyGroup sqrtQ p origins idx g).2 = [idx] ↔
      (¬ (GroupDistanceSquared origins g ≤ GroupMaxDistanceSq p g ∧
          GroupMinRes p g ≤ GroupMaxCardResolution sqrtQ p origins g) ∧
       0 ≤ g.MeshCardsIndex)) ∧
    ((ClassifyGroup sqrtQ p origins idx g).1 =
        [⟨idx, GroupDistanceSquared origins g⟩] ↔
      ((GroupDistanceSquared origins g ≤ GroupMaxDistanceSq p g ∧
        GroupMinRes p g ≤ GroupMaxCardResolution sqrtQ p origins g) ∧
       g.MeshCardsIndex = -1 ∧ g.bValidMeshCards = true)) ∧
    ((ClassifyGroup sqrtQ p origins idx g).2 = [] ∨
      (ClassifyGroup sqrtQ p origins idx g).2 = [idx]) ∧
    ((ClassifyGroup sqrtQ p origins idx g).1 = [] ∨
      (ClassifyGroup sqrtQ p origins idx g).1 =
        [⟨idx, GroupDistanceSquared origins g⟩]) ∧
    (∀ l : List FMeshCardsAdd, List.Perm (SortMeshCardsAdds l) l) ∧
    (∀ l : List FMeshCardsAdd, List.Pairwise
      (fun x y : FMeshCardsAdd => x.DistanceSquared ≤ y.DistanceSquared)
      (SortMeshCardsAdds l)) := by
  refine ⟨?_, ?_, ?_, ?_, SortMeshCardsAdds_perm, SortMeshCardsAdds_sorted⟩
  · simp only [ClassifyGroup]
    split
    next h =>
      split
      · simp [h]
      · simp [h]
    next h =>
      split
      next h2 => simp [h, h2]
      next h2 => simp [h, h2]
  · simp only [ClassifyGroup]
    split
    next h =>
      split
      next h2 => simp [h, h2]
      next h2 => simp [h, h2]
    next h =>
      split
      · simp [h]
      · simp [h]
  · simp only [ClassifyGroup]
    split
    · split
      · exact Or.inl rfl
      · exact Or.inl rfl
    · split
      · exact Or.inr rfl
      · exact Or.inl rfl
  · simp only [ClassifyGroup]
    split
    · split
      · exact Or.inr rfl
      · exact Or.inl rfl
    · split
      · exact Or.inl rfl
      · exact Or.inl rfl

def ce9Params : FClassifyParams :=
  { TexelDensityScale := 100
    MaxDistanceFromCamera := 100
    FarFieldDistance := 1000000
    FarFieldTexelDensity := 1
    MinCardResolution := 8 }

def ce9Origin : FVec3 := ⟨0, 0, 0⟩

/-- A resident point-sized set right at the camera: within the cutoff
but with estimated resolution far below the threshold. -/
def ce9RemoveGroup : FLumenPrimitiveGroupClass :=
  { BoundsMin := ⟨0, 0, 0⟩
    BoundsMax := ⟨0, 0, 0⟩
    bFarField := false
    bEmissiveLightSource := false
    bValidMeshCards := true
    MeshCardsIndex := 0 }

/-- An unallocated large set passing the whole range test but with
`bValidMeshCards = false`. -/
def ce9AddGroup : FLumenPrimitiveGroupClass :=
  { BoundsMin := ⟨-50, -50, -50⟩
    BoundsMax := ⟨50, 50, 50⟩
    bFarField := false
    bEmissiveLightSource := false
    bValidMeshCards := false
    MeshCardsIndex := -1 }

/-- **C9** (counterexample).  Both "iff"s of the claim fail: a
resident set *within* the distance cutoff is removed when its
estimated resolution drops below the threshold, and a within-range,
high-resolution, unallocated set gets *no* add request when its mesh
cards are invalid. -/
theorem C9_counterexample :
    ((ClassifyGroup id ce9Params [ce9Origin] 7 ce9RemoveGroup).2 = [7] ∧
     GroupDistanceSquared [ce9Origin] ce9RemoveGroup ≤
       GroupMaxDistanceSq ce9Params ce9RemoveGroup) ∧
    ((ClassifyGroup id ce9Params [ce9Origin] 8 ce9AddGroup).1 = [] ∧
     GroupDistanceSquared [ce9Origin] ce9AddGroup ≤
       GroupMaxDistanceSq ce9Params ce9AddGroup ∧
     GroupMinRes ce9Params ce9AddGroup ≤
       GroupMaxCardResolution id ce9Params [ce9Origin] ce9AddGroup ∧
     ce9AddGroup.MeshCardsIndex = -1) := by
  have hd1 : GroupDistanceSquared [ce9Origin] ce9RemoveGroup = 0 := by
    simp only [GroupDistanceSquared, ComputeSquaredDistanceFromBoxToPoint,
      axisDistanceSquared, ce9RemoveGroup, ce9Origin, List.foldl_cons, List.foldl_nil,
      FLT_MAX]
    norm_num
  have hd2 : GroupDistanceSquared [ce9Origin] ce9AddGroup = 0 := by
    simp only [GroupDistanceSquared, ComputeSquaredDistanceFromBoxToPoint,
      axisDistanceSquared, ce9AddGroup, ce9Origin, List.foldl_cons, List.foldl_nil,
      FLT_MAX]
    norm_num
  have hres1 : GroupMaxCardResolution id ce9Params [ce9Origin] ce9RemoveGroup
      = 1 / 100 := by
    simp only [GroupMaxCardResolution]
    rw [hd1]
    simp only [ce9RemoveGroup, ce9Params, GroupMaxCardExtent]
    norm_num
  have hres2 : GroupMaxCardResolution id ce9Params [ce9Origin] ce9AddGroup
      = 5000 + 1 / 100 := by
    simp only [GroupMaxCardResolution]
    rw [hd2]
    simp only [ce9AddGroup, ce9Params, GroupMaxCardExtent]
    norm_num
  refine ⟨⟨?_, ?_⟩, ?_, ?_, ?_, by decide⟩
  · simp only [ClassifyGroup, hd1, hres1]
    rw [if_neg, if_pos]
    · decide
    · rintro ⟨-, hr⟩
      rw [GroupMinRes] at hr
      simp only [ce9RemoveGroup, ce9Params, if_neg] at hr
      norm_num at hr
  · rw [hd1, GroupMaxDistanceSq]
    simp only [ce9RemoveGroup, ce9Params, if_neg]
    norm_num
  · simp only [ClassifyGroup, hd2, hres2]
    rw [if_pos, if_neg]
    · rintro ⟨-, hv⟩
      simp [ce9AddGroup] at hv
    · constructor
      · rw [GroupMaxDistanceSq]
        simp only [ce9AddGroup, ce9Params, if_neg]
        norm_num
      · rw [GroupMinRes]
        simp only [ce9AddGroup, ce9Params, if_neg]
        norm_num
  · rw [hd2, GroupMaxDistanceSq]
    simp only [ce9AddGroup, ce9Params, if_neg]
    norm_num
  · rw [GroupMinRes, hres2]
    simp only [ce9AddGroup, ce9Params, if_neg]
    norm_num

end LumenSurfaceCacheProof

namespace LumenSurfaceCacheProof

/-! ## C3: the min/desired/max level ordering -/

theorem Desired_SetCard (s : FLumenSceneData) (i : Nat) (c : FLumenCard)
    (hc : c.DesiredLockedResLevel = (s.GetCard i).DesiredLockedResLevel) (j : Nat) :
    ((s.SetCard i c).GetCard j).DesiredLockedResLevel =
      (s.GetCard j).DesiredLockedResLevel := by
  by_cases hij : i = j
  · subst hij
    by_cases hin : i < s.Cards.length
    · rw [GetCard_SetCard_self s i c hin]; exact hc
    · rw [GetCard_SetCard_out s i c hin]
  · rw [GetCard_SetCard_ne s i j c hij]

theorem Desired_unmapFold (s : FLumenSceneData) (i lvl n : Nat) (j : Nat) :
    ((((List.range n).foldl (fun acc p => acc.UnmapPage i lvl p) s).GetCard j)
      ).DesiredLockedResLevel = ((s.GetCard j)).DesiredLockedResLevel := by
  refine foldl_induction (fun acc p => FLumenSceneData.UnmapPage acc i lvl p)
    (fun x => ((x.GetCard j)).DesiredLockedResLevel =
      ((s.GetCard j)).DesiredLockedResLevel) _ _ rfl ?_
  intro a b ha
  exact (((SameAllocation_UnmapPage a i lvl b) j).2.1).trans ha

theorem Desired_SetCard_SetMip (s2 : FLumenSceneData) (i lvl : Nat)
    (m : FLumenSurfaceMipMap) (j : Nat) :
    ((s2.SetCard i ((s2.GetCard i).SetMipMap lvl m)).GetCard j
      ).DesiredLockedResLevel = (s2.GetCard j).DesiredLockedResLevel :=
  Desired_SetCard s2 i ((s2.GetCard i).SetMipMap lvl m) rfl j

theorem Desired_SetCard_update (s2 : FLumenSceneData) (i j : Nat) :
    ((s2.SetCard i (s2.GetCard i).UpdateMinMaxAllocatedLevel).GetCard j
      ).DesiredLockedResLevel = (s2.GetCard j).DesiredLockedResLevel :=
  Desired_SetCard s2 i (s2.GetCard i).UpdateMinMaxAllocatedLevel rfl j

theorem Desired_FreeMipLevel (s : FLumenSceneData) (i lvl : Nat) (j : Nat) :
    ((s.FreeMipLevel i lvl).GetCard j).DesiredLockedResLevel =
      (s.GetCard j).DesiredLockedResLevel := by
  simp only [FLumenSceneData.FreeMipLevel]
  rw [Desired_SetCard_SetMip]
  exact Desired_unmapFold s i lvl _ j

theorem Desired_freeFold (i lo hi : Nat) (j : Nat) :
    ∀ (idxs : List Nat) (s : FLumenSceneData),
      (((idxs.foldl (fun acc k =>
        if lo ≤ MinResLevel + k ∧ MinResLevel + k ≤ hi
        then acc.FreeMipLevel i (MinResLevel + k) else acc) s).GetCard j)
        ).DesiredLockedResLevel = ((s.GetCard j)).DesiredLockedResLevel
  | [], _ => rfl
  | k :: rest, s => by
    simp only [List.foldl_cons]
    by_cases hw : lo ≤ MinResLevel + k ∧ MinResLevel + k ≤ hi
    · rw [if_pos hw]
      exact (Desired_freeFold i lo hi j rest _).trans
        (Desired_FreeMipLevel s i (MinResLevel + k) j)
    · rw [if_neg hw]
      exact Desired_freeFold i lo hi j rest s

theorem Desired_FreeVirtualSurface (s : FLumenSceneData) (i lo hi : Nat) (j : Nat) :
    ((s.FreeVirtualSurface i lo hi).GetCard j).DesiredLockedResLevel =
      (s.GetCard j).DesiredLockedResLevel := by
  simp only [FLumenSceneData.FreeVirtualSurface]
  rw [Desired_SetCard_update]
  exact Desired_freeFold i lo hi j _ s

theorem Desired_ReallocVirtualSurface (s : FLumenSceneData) (i lvl : Nat) (b : Bool)
    (j : Nat) :
    ((s.ReallocVirtualSurface i lvl b).GetCard j).DesiredLockedResLevel =
      (s.GetCard j).DesiredLockedResLevel := by
  simp only [FLumenSceneData.ReallocVirtualSurface]
  split
  · split
    · rw [Desired_SetCard_update, GetCard_heapSet, Desired_SetCard_SetMip]
    · rw [Desired_SetCard_update, Desired_SetCard_SetMip]
  · rw [Desired_SetCard_update, Desired_SetCard_SetMip]

/-- After the locked commit the card's desired locked level is the
(truncated) requested level. -/
theorem Desired_LockedCommitScene (r : FSurfaceCacheRequest) (newLvl : Nat)
    (s1 : FLumenSceneData) (hri : r.CardIndex < s1.Cards.length) :
    ((LockedCommitScene r newLvl s1).GetCard r.CardIndex).DesiredLockedResLevel =
      r.ResLevel % 256 := by
  simp only [LockedCommitScene]
  rw [Desired_ReallocVirtualSurface, Desired_FreeVirtualSurface,
    Desired_FreeVirtualSurface, GetCard_SetCard_self _ _ _ hri]
  rfl

/-- The last allocated index bounds every allocated index from
above. -/
theorem MaxAllocatedIdx_above {mips : List FLumenSurfaceMipMap} {k : Nat}
    (hk : k < mips.length) (halloc : (mips.getD k default).bAllocated = true) :
    ∃ j, MaxAllocatedIdx mips = some j ∧ k ≤ j := by
  induction mips generalizing k with
  | nil => simp at hk
  | cons m rest ih =>
    cases k with
    | zero =>
      cases hr : MaxAllocatedIdx rest with
      | some j => exact ⟨j + 1, by simp [MaxAllocatedIdx, hr], Nat.zero_le _⟩
      | none =>
        simp only [List.getD_cons_zero] at halloc
        exact ⟨0, by simp [MaxAllocatedIdx, hr, halloc], Nat.le_refl 0⟩
    | succ k0 =>
      obtain ⟨j, hj, hle⟩ := ih (by simpa using Nat.lt_of_succ_lt_succ (by simpa using hk))
        (by simpa using halloc)
      exact ⟨j + 1, by simp [MaxAllocatedIdx, hj], by omega⟩

theorem Max_updateTail (s2 : FLumenSceneData) (i : Nat) :
    ((s2.SetCard i (s2.GetCard i).UpdateMinMaxAllocatedLevel).GetCard i
      ).MaxAllocatedResLevel =
    MaxAllocatedLevelOf
      (((s2.SetCard i (s2.GetCard i).UpdateMinMaxAllocatedLevel).GetCard i
        ).SurfaceMipMaps) := by
  by_cases hin : i < s2.Cards.length
  · rw [GetCard_SetCard_self _ _ _ hin]; rfl
  · rw [GetCard_SetCard_out _ _ _ hin, GetCard_out _ _ (by omega)]
    rfl

/-- After `ReallocVirtualSurface` the cached max level agrees with the
slots. -/
theorem Max_ReallocVirtualSurface (s : FLumenSceneData) (i lvl : Nat) (b : Bool) :
    ((s.ReallocVirtualSurface i lvl b).GetCard i).MaxAllocatedResLevel =
      MaxAllocatedLevelOf
        (((s.ReallocVirtualSurface i lvl b).GetCard i).SurfaceMipMaps) := by
  simp only [FLumenSceneData.ReallocVirtualSurface]
  exact Max_updateTail _ i

/-- **C3** (amended).  After a successful locked commit at `newLvl`
the card's levels satisfy `Min = newLvl ≤ Desired` and `Min ≤ Max`
(the card holds a resident range), and when the commit was *not*
downgraded (`newLvl` equals the requested level) the full claimed
chain `Min ≤ Desired ≤ Max` holds.  Under a downgrade the upper
inequality is not guaranteed: the commit sets `DesiredLockedResLevel`
to the original requested level while allocating only at `newLvl` and
freeing only coarser slots, so it can fail (see the counterexample) —
though a surviving finer slot from an earlier allocation can still
keep `Max` at or above `Desired`. -/
theorem C3_commit_invariant (r : FSurfaceCacheRequest) (newLvl : Nat)
    (s1 : FLumenSceneData)
    (hri : r.CardIndex < s1.Cards.length)
    (hlen : ((s1.GetCard r.CardIndex).SurfaceMipMaps).length = NumResLevels)
    (hmin : (s1.GetCard r.CardIndex).MinAllocatedResLevel =
      MinAllocatedLevelOf ((s1.GetCard r.CardIndex).SurfaceMipMaps))
    (hlo : MinResLevel ≤ newLvl) (hhi : newLvl ≤ MaxResLevel)
    (hdown : newLvl ≤ r.ResLevel % 256) :
    (((LockedCommitScene r newLvl s1).GetCard r.CardIndex).MinAllocatedResLevel ≤
      ((LockedCommitScene r newLvl s1).GetCard r.CardIndex).DesiredLockedResLevel) ∧
    (((LockedCommitScene r newLvl s1).GetCard r.CardIndex).MinAllocatedResLevel ≤
      ((LockedCommitScene r newLvl s1).GetCard r.CardIndex).MaxAllocatedResLevel) ∧
    (newLvl = r.ResLevel % 256 →
      ((LockedCommitScene r newLvl s1).GetCard r.CardIndex).DesiredLockedResLevel ≤
        ((LockedCommitScene r newLvl s1).GetCard r.CardIndex).MaxAllocatedResLevel) := by
  have h2c : (s1.SetCard r.CardIndex (LockedCommitCard r s1)).GetCard r.CardIndex
      = LockedCommitCard r s1 := GetCard_SetCard_self _ _ _ hri
  have heff := FreeFreeRealloc_effect r.CardIndex newLvl
    ((LockedCommitCard r s1).MinAllocatedResLevel)
    (s1.SetCard r.CardIndex (LockedCommitCard r s1)) _ _ _
    (by rw [h2c]) rfl rfl rfl
    (by rw [Cards_length_SetCard]; exact hri)
    (by rw [h2c]; exact hlen)
    (by rw [h2c]; exact hmin)
    hlo hhi
  have hminEq : ((LockedCommitScene r newLvl s1).GetCard r.CardIndex
      ).MinAllocatedResLevel = newLvl := heff.2.2.2.2
  have hdes := Desired_LockedCommitScene r newLvl s1 hri
  have hallocNew := heff.2.2.1
  have hlen5 : (((LockedCommitScene r newLvl s1).GetCard r.CardIndex
      ).SurfaceMipMaps).length = NumResLevels := by
    simp only [LockedCommitScene]
    refine ((shape_ReallocVirtualSurface _ _ _ _).2 r.CardIndex).trans ?_
    refine ((shape_FreeVirtualSurface _ _ _ _).2 r.CardIndex).trans ?_
    refine ((shape_FreeVirtualSurface _ _ _ _).2 r.CardIndex).trans ?_
    rw [h2c]
    exact hlen
  have hc1 : MinResLevel = 3 := rfl
  have hc2 : MaxResLevel = 11 := rfl
  have hc3 : NumResLevels = 9 := rfl
  have hmaxGe : newLvl ≤ ((LockedCommitScene r newLvl s1).GetCard r.CardIndex
      ).MaxAllocatedResLevel := by
    have hmaxEq : ((LockedCommitScene r newLvl s1).GetCard r.CardIndex
        ).MaxAllocatedResLevel = MaxAllocatedLevelOf
        (((LockedCommitScene r newLvl s1).GetCard r.CardIndex).SurfaceMipMaps) := by
      simp only [LockedCommitScene]
      exact Max_ReallocVirtualSurface _ _ _ _
    obtain ⟨j, hj, hle⟩ := @MaxAllocatedIdx_above
      (((LockedCommitScene r newLvl s1).GetCard r.CardIndex).SurfaceMipMaps)
      (newLvl - MinResLevel) (by omega) hallocNew
    rw [hmaxEq]
    simp only [MaxAllocatedLevelOf, hj]
    omega
  refine ⟨?_, ?_, ?_⟩
  · rw [hminEq, hdes]; exact hdown
  · rw [hminEq]; exact hmaxGe
  · intro heq
    rw [hdes, ← heq]
    exact hmaxGe

/-- A never-allocated card whose level-5 span needs two pages while
only one physical page is free: the locked request downgrades to
level 3. -/
def c3Card : FLumenCard :=
  { bVisible := false
    MinAllocatedResLevel := UINT8_MAX
    MaxAllocatedResLevel := 0
    DesiredLockedResLevel := 0
    MeshCardsIndex := 0
    SurfaceMipMaps := List.replicate 9 {}
    MipNumPages := [1, 2, 2, 2, 2, 2, 2, 2, 2]
    MipPageTexels := List.replicate 9 64 }

def c3Scene : FLumenSceneData :=
  { Cards := [c3Card]
    MeshCards := [{}]
    PrimitiveGroups := [{}]
    FreePhysicalPages := 1
    UnlockedAllocationHeap := []
    LastCapturedPageHeap := []
    SurfaceCacheUpdateFrameIndex := 7 }

def c3Params : FProcessRequestsParams :=
  { MaxTileCapturesPerFrame := 10
    CardCaptureRefreshNumTexels := 0
    CardCaptureRefreshNumPages := 0
    CaptureAtlasTexels := 100000
    SurfaceCacheFrozen := false
    NumFramesToKeepUnusedPages := 256 }

def c3Req : FSurfaceCacheRequest :=
  { CardIndex := 0, ResLevel := 5, LocalPageIndex := UINT16_MAX, Distance := 0 }

/-- **C3** (counterexample).  After a complete scheduling pass the
downgraded card holds a resident page (`Min = Max = 3`, page mapped)
yet `DesiredLockedResLevel = 5 > MaxAllocatedResLevel = 3`: the chain
`min <= desired <= max` fails on its upper half. -/
theorem C3_counterexample :
    (((ProcessLumenSurfaceCacheRequestsModel c3Params c3Scene [c3Req]
      ).Scene.GetCard 0).GetMipMap 3).mapped = [true] ∧
    ((ProcessLumenSurfaceCacheRequestsModel c3Params c3Scene [c3Req]
      ).Scene.GetCard 0).MinAllocatedResLevel = 3 ∧
    ((ProcessLumenSurfaceCacheRequestsModel c3Params c3Scene [c3Req]
      ).Scene.GetCard 0).MaxAllocatedResLevel = 3 ∧
    ((ProcessLumenSurfaceCacheRequestsModel c3Params c3Scene [c3Req]
      ).Scene.GetCard 0).DesiredLockedResLevel = 5 ∧
    ¬ (((ProcessLumenSurfaceCacheRequestsModel c3Params c3Scene [c3Req]
      ).Scene.GetCard 0).DesiredLockedResLevel ≤
      ((ProcessLumenSurfaceCacheRequestsModel c3Params c3Scene [c3Req]
      ).Scene.GetCard 0).MaxAllocatedResLevel) := by
  decide

/-- A card holding a locked level-3 allocation, recommitted at the
requested level 4 without downgrade. -/
def c3wCard : FLumenCard :=
  { bVisible := true
    MinAllocatedResLevel := 3
    MaxAllocatedResLevel := 3
    DesiredLockedResLevel := 3
    SurfaceMipMaps := { bAllocated := true, bLocked := true, mapped := [true] } ::
      List.replicate 8 {}
    MipNumPages := List.replicate 9 1
    MipPageTexels := List.replicate 9 64 }

def c3wScene : FLumenSceneData :=
  { Cards := [c3wCard]
    MeshCards := [{}]
    PrimitiveGroups := [{}]
    FreePhysicalPages := 8
    UnlockedAllocationHeap := []
    LastCapturedPageHeap := []
    SurfaceCacheUpdateFrameIndex := 7 }

def c3wReq : FSurfaceCacheRequest :=
  { CardIndex := 0, ResLevel := 4, LocalPageIndex := UINT16_MAX, Distance := 0 }

/-- Witness: the amended C3 chain on a concrete un-downgraded commit. -/
theorem C3_witness :
    (((LockedCommitScene c3wReq 4 c3wScene).GetCard 0).MinAllocatedResLevel ≤
      ((LockedCommitScene c3wReq 4 c3wScene).GetCard 0).DesiredLockedResLevel) ∧
    (((LockedCommitScene c3wReq 4 c3wScene).GetCard 0).MinAllocatedResLevel ≤
      ((LockedCommitScene c3wReq 4 c3wScene).GetCard 0).MaxAllocatedResLevel) ∧
    (((LockedCommitScene c3wReq 4 c3wScene).GetCard 0).DesiredLockedResLevel ≤
      ((LockedCommitScene c3wReq 4 c3wScene).GetCard 0).MaxAllocatedResLevel) :=
  ⟨(C3_commit_invariant c3wReq 4 c3wScene (by decide) (by decide) (by decide)
      (by decide) (by decide) (by decide)).1,
   (C3_commit_invariant c3wReq 4 c3wScene (by decide) (by decide) (by decide)
      (by decide) (by decide) (by decide)).2.1,
   (C3_commit_invariant c3wReq 4 c3wScene (by decide) (by decide) (by decide)
      (by decide) (by decide) (by decide)).2.2 (by decide)⟩

end LumenSurfaceCacheProof






